import Mathlib

/-!
# cv-analyzer: the resilient Gemini client

A shallow embedding of `internal/service/gemini_service.go`: the retrying,
circuit-breaking wrapper around the two provider operations
(`GenerateEmbedding`, `GenerateContent`), its backoff computation, its error
classification and its response validation; and of the use case built on it in
`internal/usecase/evaluation_usecase.go` (`Submit`, `EvaluateTask`,
`CreateJobEmbedding`).

Conventions of the embedding.

* Go `string` is a byte string: `GoString := List UInt8`.
* Go `int` (64-bit platform) and `time.Duration` (`int64`, nanoseconds) are
  `Int`; every arithmetic operation of the source that can overflow is wrapped
  by `wrapInt64`.
* `float64` arithmetic occurs only in `calculateBackoff`, and only through
  operations whose result is determined exactly: conversion of an `int64`
  (round to nearest, ties to even), scaling by the powers of two `0.25` and
  `0.5`, `math.Pow(2, n)` for an integral `n`, and truncation back to `int64`.
  The one implementation-dependent step, converting a `float64` outside the
  `int64` range, is the parameter `ovf`.
* The provider transport and the clock are an environment `Env`: what the
  `k`-th transport invocation of a call returns, and whether the call's context
  is done before the backoff timer of retry `k` fires.
* A call returns its outcome, the service state after it, and the trace of the
  transport invocations and completed backoff waits it performed.
* The repositories are `Stores`: what each of their calls returns. `gjson.Get`
  is a parameter of `EvaluateTask`. A use-case operation returns how it ended,
  the task in memory and the calls it made on the client and the repositories.
* A nil pointer dereference is the outcome `fault`: the operation does not
  return.
-/

namespace CvAnalyzer

/-! ## Go strings -/

/-- Go `string`: an immutable sequence of bytes. -/
abbrev GoString := List UInt8

/-- The bytes of a string literal of the source (UTF-8). -/
def goString (s : String) : GoString := s.data.flatMap String.utf8EncodeChar

/-- Go `strings.HasPrefix(s, p)`. -/
def startsWith : GoString → GoString → Bool
  | _, [] => true
  | [], _ :: _ => false
  | c :: s, p :: ps => c == p && startsWith s ps

/-- Go `strings.Contains(s, substr)`. -/
def Contains : GoString → GoString → Bool
  | [], substr => substr.isEmpty
  | c :: s, substr => startsWith (c :: s) substr || Contains s substr

/-- UTF-8 encodings of the code points for which Go's `unicode.IsSpace` holds:
`\t \n \v \f \r`, space, U+0085, U+00A0, U+1680, U+2000..U+200A, U+2028,
U+2029, U+202F, U+205F, U+3000. -/
def whiteSpace : List GoString :=
  [[0x09], [0x0A], [0x0B], [0x0C], [0x0D], [0x20],
   [0xC2, 0x85], [0xC2, 0xA0], [0xE1, 0x9A, 0x80],
   [0xE2, 0x80, 0x80], [0xE2, 0x80, 0x81], [0xE2, 0x80, 0x82], [0xE2, 0x80, 0x83],
   [0xE2, 0x80, 0x84], [0xE2, 0x80, 0x85], [0xE2, 0x80, 0x86], [0xE2, 0x80, 0x87],
   [0xE2, 0x80, 0x88], [0xE2, 0x80, 0x89], [0xE2, 0x80, 0x8A],
   [0xE2, 0x80, 0xA8], [0xE2, 0x80, 0xA9], [0xE2, 0x80, 0xAF],
   [0xE2, 0x81, 0x9F], [0xE3, 0x80, 0x80]]

/-- Strip leading occurrences of the given byte sequences, at most `fuel` of them. -/
def trimLeading (ws : List GoString) : Nat → GoString → GoString
  | 0, s => s
  | fuel + 1, s =>
    match ws.find? (startsWith s) with
    | some w => trimLeading ws fuel (s.drop w.length)
    | none => s

/-- Go `strings.TrimLeftFunc(s, unicode.IsSpace)`: the first rune of `s` is a
space exactly when `s` starts with the encoding of one. -/
def trimLeft (s : GoString) : GoString := trimLeading whiteSpace s.length s

/-- Go `strings.TrimRightFunc(s, unicode.IsSpace)`: the last rune of `s` is a
space exactly when `s` ends with the encoding of one. -/
def trimRight (s : GoString) : GoString :=
  (trimLeading (whiteSpace.map List.reverse) s.length s.reverse).reverse

/-- Go `strings.TrimSpace(s)`: `s` without its leading and trailing white space. -/
def TrimSpace (s : GoString) : GoString := trimRight (trimLeft s)

/-! ## Machine arithmetic -/

/-- Two's-complement wrap-around of a mathematical integer to `int64`. -/
def wrapInt64 (x : Int) : Int := (x + 2 ^ 63) % 2 ^ 64 - 2 ^ 63

/-- The value is representable as an `int64`. -/
def isInt64 (x : Int) : Prop := -(2 ^ 63) ≤ x ∧ x < 2 ^ 63

instance (x : Int) : Decidable (isInt64 x) := by unfold isInt64; infer_instance

/-- Least `e` (searched upwards from the given one, `fuel` steps) with `m < 2 ^ (53 + e)`:
the number of low bits a 53-bit significand cannot hold. -/
def roundShift (m : Nat) : Nat → Nat → Nat
  | 0, e => e
  | fuel + 1, e => if m < 2 ^ (53 + e) then e else roundShift m fuel (e + 1)

/-- Go `float64(m)` for a natural number `m < 2 ^ 64`: round to nearest, ties to
even, onto a 53-bit significand. The result is again an integer. -/
def float64OfNat (m : Nat) : Nat :=
  if m < 2 ^ 53 then m
  else
    let e := roundShift m 11 0
    let q := m / 2 ^ e
    let r := m % 2 ^ e
    let half := 2 ^ (e - 1)
    if half < r ∨ (r = half ∧ q % 2 = 1) then (q + 1) * 2 ^ e else q * 2 ^ e

/-- Go `float64(n)` for an `int64` value `n` (rounding is symmetric in the sign). -/
def float64OfInt (n : Int) : Int := n.sign * (float64OfNat n.natAbs : Int)

/-- Go `time.Duration(math.Pow(2, y))` for an integral `float64` exponent `y`:
`2 ^ y` is exact, a negative exponent gives a fraction that truncates to `0`,
and from `2 ^ 63` on the value is outside `int64` and the conversion yields the
implementation-dependent `ovf`. -/
def pow2Duration (ovf : Int) (y : Int) : Int :=
  if y < 0 then 0 else if y ≤ 62 then 2 ^ y.toNat else ovf

/-! ## The service -/

/-- The fields of `GeminiService` that the wrapper reads or writes
(`Client` and `Ctx` are the transport, modelled by `Env`). -/
structure GeminiService where
  MaxRetries : Int
  BaseDelay : Int
  MaxDelay : Int
  RequestTimeout : Int
  consecutiveErrors : Int
  circuitBreakerMax : Int
deriving DecidableEq

/-- One second, as a `time.Duration`. -/
def second : Int := 1000000000

/-- The service `NewGeminiService` returns: the struct literal leaves
`consecutiveErrors` at its zero value. -/
def NewGeminiService : GeminiService :=
  { MaxRetries := 3
    BaseDelay := second
    MaxDelay := 90 * second
    RequestTimeout := 90 * second
    consecutiveErrors := 0
    circuitBreakerMax := 5 }

/-- Source `calculateBackoff`. -/
def calculateBackoff (ovf : Int) (s : GeminiService) (attempt : Int) : Int :=
  let delay := wrapInt64 (s.BaseDelay * pow2Duration ovf (float64OfInt (wrapInt64 (attempt - 1))))
  let delay := if delay > s.MaxDelay then s.MaxDelay else delay
  let jitter := Int.tdiv (float64OfInt delay) 4
  wrapInt64 (wrapInt64 (delay - Int.tdiv jitter 2) + Int.tdiv (float64OfInt jitter) 2)

/-! ## Errors of the transport and their classification -/

/-- A non-nil Go `error` returned by the provider client: the text `err.Error()`
and, when its dynamic type is `*genai.APIError`, the `Code` of that value.
`isRetryableError` reads the code through the assertion `err.(*genai.APIError)`
only, so every other error has `apiCode = none`: an error of another type, and
also a `genai.APIError` value, which is what the client returns for a provider
answer with an HTTP error status (its `Error` method has a value receiver). -/
structure TransportError where
  msg : GoString
  apiCode : Option Int
deriving DecidableEq

/-- The `switch apiErr.Code` of `isRetryableError`: the verdict of the case that
matches, `none` when no case does. -/
def apiCodeVerdict (code : Int) : Option Bool :=
  if code = 429 then some true
  else if code = 500 ∨ code = 502 ∨ code = 503 ∨ code = 504 then some true
  else if code = 400 ∨ code = 401 ∨ code = 403 ∨ code = 404 then some false
  else none

/-- The final text test of `isRetryableError`. -/
def transientText (errMsg : GoString) : Bool :=
  Contains errMsg (goString "connection refused") ||
  Contains errMsg (goString "connection reset") ||
  Contains errMsg (goString "timeout") ||
  Contains errMsg (goString "temporary failure") ||
  Contains errMsg (goString "EOF")

/-- Source `isRetryableError`; `none` is the nil error. -/
def isRetryableError (err : Option TransportError) : Bool :=
  match err with
  | none => false
  | some e =>
    let errMsg := e.msg
    if Contains errMsg (goString "context canceled") ||
        Contains errMsg (goString "context deadline exceeded") then false
    else
      match e.apiCode.bind apiCodeVerdict with
      | some verdict => verdict
      | none => transientText errMsg

/-! ## Provider responses and their validation -/

/-- A `float32` component of an embedding, up to what `math.IsNaN` and
`math.IsInf` distinguish. -/
inductive Float32 where
  | finite (value : ℚ)
  | posInf
  | negInf
  | nan
deriving DecidableEq

/-- Go `math.IsNaN(float64(val))`. -/
def Float32.isNaN : Float32 → Bool
  | .nan => true
  | _ => false

/-- Go `math.IsInf(float64(val), 0)`. -/
def Float32.isInf : Float32 → Bool
  | .posInf => true
  | .negInf => true
  | _ => false

/-- `genai.Part`, reduced to its fields `Text` and `Thought`. -/
structure Part where
  text : GoString
  thought : Bool
deriving DecidableEq

/-- `genai.Content`: `Parts []*Part`. -/
structure Content where
  parts : List (Option Part)
deriving DecidableEq

/-- `genai.Candidate`: `Content *Content`. -/
structure Candidate where
  content : Option Content
deriving DecidableEq

/-- `genai.GenerateContentResponse`: `Candidates []*Candidate`. -/
structure GenerateContentResponse where
  candidates : List (Option Candidate)
deriving DecidableEq

/-- `genai.ContentEmbedding`: `Values []float32`. -/
structure ContentEmbedding where
  values : List Float32
deriving DecidableEq

/-- `genai.EmbedContentResponse`: `Embeddings []*ContentEmbedding`. -/
structure EmbedContentResponse where
  embeddings : List (Option ContentEmbedding)
deriving DecidableEq

/-- The errors the two validators build with `fmt.Errorf`. -/
inductive ValidationError where
  | responseNil
  | noCandidates
  | contentNil
  | noParts
  | noEmbeddings
  | emptyVector
  | invalidValue (index : Nat) (value : Float32)
deriving DecidableEq

/-- What a Go function returning `(value, error)` does: return a value, return
an error, or stop with a run-time fault (nil pointer dereference). -/
inductive Outcome (ε α : Type) where
  | ok (value : α)
  | error (err : ε)
  | fault
deriving DecidableEq

/-- Source `validateGenerateResponse`; a nil pointer is `none`. The source
dereferences `resp.Candidates[0]` without a nil test. -/
def validateGenerateResponse (resp : Option GenerateContentResponse) :
    Outcome ValidationError Unit :=
  match resp with
  | none => .error .responseNil
  | some r =>
    match r.candidates with
    | [] => .error .noCandidates
    | none :: _ => .fault
    | some c :: _ =>
      match c.content with
      | none => .error .contentNil
      | some content =>
        if content.parts.length = 0 then .error .noParts else .ok ()

/-- The `for i, val := range embeddings` loop of `validateEmbeddingResponse`,
from index `i` on: the first component that is NaN or infinite. -/
def firstInvalid : Nat → List Float32 → Option (Nat × Float32)
  | _, [] => none
  | i, val :: rest =>
    if val.isNaN || val.isInf then some (i, val) else firstInvalid (i + 1) rest

/-- Source `validateEmbeddingResponse`; a nil pointer is `none`. The source
dereferences `resp.Embeddings[0]` without a nil test. -/
def validateEmbeddingResponse (resp : Option EmbedContentResponse) :
    Outcome ValidationError (List Float32) :=
  match resp with
  | none => .error .responseNil
  | some r =>
    match r.embeddings with
    | [] => .error .noEmbeddings
    | none :: _ => .fault
    | some first :: _ =>
      let embeddings := first.values
      if embeddings.length = 0 then .error .emptyVector
      else
        match firstInvalid 0 embeddings with
        | some (i, val) => .error (.invalidValue i val)
        | none => .ok embeddings

/-! ## Calls -/

/-- Why the context of a call is done (`timeoutCtx.Err()`). -/
inductive CtxErr where
  | deadlineExceeded
  | canceled
deriving DecidableEq

/-- The errors `GenerateContent` and `GenerateEmbedding` return. -/
inductive CallError where
  /-- "model name cannot be empty" -/
  | emptyModel
  /-- "prompt cannot be empty" -/
  | emptyPrompt
  /-- "text for embedding cannot be empty" -/
  | emptyText
  /-- "circuit breaker open: too many consecutive errors (%d)" -/
  | circuitOpen (consecutiveErrors : Int)
  /-- "context timeout during retry: %w" -/
  | contextTimeout (cause : CtxErr)
  /-- "invalid response: %w", "invalid embedding response: %w" -/
  | invalidResponse (cause : ValidationError)
  /-- "generate content failed: %w", "generate embedding failed: %w" -/
  | failed (cause : TransportError)
  /-- "max retries (%d) exceeded for ...: %w"; `lastErr` is nil when the loop
  body never ran. -/
  | maxRetriesExceeded (maxRetries : Int) (lastErr : Option TransportError)
deriving DecidableEq

/-- What a call did that is visible outside the service. -/
inductive Event where
  /-- `time.After(delay)` fired: the call waited the whole backoff delay. -/
  | backoff (delay : Int)
  /-- One invocation of `Client.Models.EmbedContent`. -/
  | embedContent (text : GoString)
  /-- One invocation of `Client.Models.GenerateContent`. -/
  | generateContent (model prompt : GoString)
deriving DecidableEq

/-- The event is a transport invocation. -/
def Event.isTransport : Event → Bool
  | .backoff _ => false
  | .embedContent _ => true
  | .generateContent _ _ => true

/-- Number of transport invocations in a trace. -/
def transportCount (trace : List Event) : Nat := trace.countP Event.isTransport

/-- The backoff delays waited in a trace, in order. -/
def backoffDelays : List Event → List Int
  | [] => []
  | .backoff d :: rest => d :: backoffDelays rest
  | _ :: rest => backoffDelays rest

/-- The environment of one call. `transport k` is what the transport invocation
of loop iteration `k` (counted from 0) returns: an error, or a response pointer
that may be nil. `ctxDone k` is the outcome of the `select` before retry `k`:
`none` when the timer fires first, `some cause` when `timeoutCtx.Done()` does. -/
structure Env (ρ : Type) where
  transport : Nat → Except TransportError (Option ρ)
  ctxDone : Nat → Option CtxErr

/-- The transport invocation of iteration `k` returns an error that
`isRetryableError` classifies as retryable. -/
def Env.retryableAt {ρ : Type} (env : Env ρ) (k : Nat) : Bool :=
  match env.transport k with
  | .error err => isRetryableError (some err)
  | .ok _ => false

/-- Result of a call: the returned pair, the service afterwards, the trace. -/
structure CallResult (α : Type) where
  outcome : Outcome CallError α
  service : GeminiService
  trace : List Event

/-- Put the events of earlier loop iterations in front of a result's trace. -/
def CallResult.after {α : Type} (events : List Event) (r : CallResult α) : CallResult α :=
  { r with trace := events ++ r.trace }

/-- `s.consecutiveErrors++`. -/
def GeminiService.countFailure (s : GeminiService) : GeminiService :=
  { s with consecutiveErrors := wrapInt64 (s.consecutiveErrors + 1) }

/-- `s.consecutiveErrors = 0`. -/
def GeminiService.countSuccess (s : GeminiService) : GeminiService :=
  { s with consecutiveErrors := 0 }

/-- The retry loop `for attempt := 0; attempt <= s.MaxRetries; attempt++`, which
`GenerateContent` and `GenerateEmbedding` spell out identically up to the
transport that is invoked (`invoke`, as the event it leaves) and the validator
applied to its response. `remaining` is the number of iterations still to run,
`attempt` the loop variable, `lastErr` the variable of that name. -/
def retryLoop {ρ α : Type} (ovf : Int) (s : GeminiService) (env : Env ρ) (invoke : Event)
    (validate : Option ρ → Outcome ValidationError α) :
    Nat → Nat → Option TransportError → CallResult α
  | 0, _, lastErr =>
    ⟨.error (.maxRetriesExceeded s.MaxRetries lastErr), s.countFailure, []⟩
  | remaining + 1, attempt, _ =>
    match (if attempt > 0 then env.ctxDone attempt else none) with
    | some cause => ⟨.error (.contextTimeout cause), s, []⟩
    | none =>
      let waited :=
        if attempt > 0 then [Event.backoff (calculateBackoff ovf s (attempt : Int))] else []
      match env.transport attempt with
      | .ok result =>
        match validate result with
        | .ok value => ⟨.ok value, s.countSuccess, waited ++ [invoke]⟩
        | .error err => ⟨.error (.invalidResponse err), s.countSuccess, waited ++ [invoke]⟩
        | .fault => ⟨.fault, s.countSuccess, waited ++ [invoke]⟩
      | .error err =>
        if !isRetryableError (some err) then
          ⟨.error (.failed err), s.countFailure, waited ++ [invoke]⟩
        else
          (retryLoop ovf s env invoke validate remaining (attempt + 1) (some err)).after
            (waited ++ [invoke])

/-- Number of iterations the loop header allows: `attempt` runs over
`0..MaxRetries` (none when `MaxRetries` is negative). Exact for every
`MaxRetries` below the largest `int`, where `attempt++` cannot wrap around. -/
def loopBound (s : GeminiService) : Nat := (s.MaxRetries + 1).toNat

/-- The `err == nil` branch of `GenerateContent` after the counter reset:
validate `result`, and return that same pointer when the validator accepts. -/
def checkedResponse (result : Option GenerateContentResponse) :
    Outcome ValidationError (Option GenerateContentResponse) :=
  match validateGenerateResponse result with
  | .ok _ => .ok result
  | .error err => .error err
  | .fault => .fault

/-- Source `GenerateContent`. -/
def GenerateContent (ovf : Int) (s : GeminiService) (env : Env GenerateContentResponse)
    (model prompt : GoString) : CallResult (Option GenerateContentResponse) :=
  if model = [] then ⟨.error .emptyModel, s, []⟩
  else if TrimSpace prompt = [] then ⟨.error .emptyPrompt, s, []⟩
  else if s.consecutiveErrors ≥ s.circuitBreakerMax then
    ⟨.error (.circuitOpen s.consecutiveErrors), s, []⟩
  else
    retryLoop ovf s env (.generateContent model prompt) checkedResponse (loopBound s) 0 none

/-- Source `GenerateEmbedding`. -/
def GenerateEmbedding (ovf : Int) (s : GeminiService) (env : Env EmbedContentResponse)
    (text : GoString) : CallResult (List Float32) :=
  let trimmedText := TrimSpace text
  if trimmedText = [] then ⟨.error .emptyText, s, []⟩
  else
    let trimmedText := if trimmedText.length > 10000 then trimmedText.take 10000 else trimmedText
    if s.consecutiveErrors ≥ s.circuitBreakerMax then
      ⟨.error (.circuitOpen s.consecutiveErrors), s, []⟩
    else
      retryLoop ovf s env (.embedContent trimmedText) validateEmbeddingResponse
        (loopBound s) 0 none

/-- Source `ResetCircuitBreaker`. -/
def ResetCircuitBreaker (s : GeminiService) : GeminiService :=
  { s with consecutiveErrors := 0 }

/-- Source `GetCircuitBreakerStatus`: `(consecutiveErrors, isOpen)`. -/
def GetCircuitBreakerStatus (s : GeminiService) : Int × Bool :=
  (s.consecutiveErrors, decide (s.consecutiveErrors ≥ s.circuitBreakerMax))

/-! ## Sequences of calls on one service -/

/-- A call on the service, with the environment it runs in. -/
inductive Call where
  | generateEmbedding (env : Env EmbedContentResponse) (text : GoString)
  | generateContent (env : Env GenerateContentResponse) (model prompt : GoString)
  | resetCircuitBreaker

/-- Forget the value a call returned. -/
def CallResult.void {α : Type} (r : CallResult α) : CallResult Unit :=
  { outcome :=
      match r.outcome with
      | .ok _ => .ok ()
      | .error err => .error err
      | .fault => .fault
    service := r.service
    trace := r.trace }

/-- Run one call on the service. -/
def Call.run (ovf : Int) (s : GeminiService) : Call → CallResult Unit
  | .generateEmbedding env text => (GenerateEmbedding ovf s env text).void
  | .generateContent env model prompt => (GenerateContent ovf s env model prompt).void
  | .resetCircuitBreaker => ⟨.ok (), ResetCircuitBreaker s, []⟩

/-- Run the calls one after the other on the same service: the service at the
end and the result of every call that ran. A run-time fault ends the program,
so no call runs after it. -/
def runCalls (ovf : Int) : GeminiService → List Call → GeminiService × List (CallResult Unit)
  | s, [] => (s, [])
  | s, c :: cs =>
    let r := c.run ovf s
    match r.outcome with
    | .fault => (r.service, [r])
    | _ =>
      let rest := runCalls ovf r.service cs
      (rest.1, r :: rest.2)

/-- The call is one of the two provider operations. -/
def Call.isProviderCall : Call → Bool
  | .resetCircuitBreaker => false
  | _ => true

/-- The outcome is a definitive provider failure: a non-retryable transport
error, or the retry budget used up. -/
def isDefinitiveFailure {α : Type} : Outcome CallError α → Bool
  | .error (.failed _) => true
  | .error (.maxRetriesExceeded _ _) => true
  | _ => false

/-- `int64` value an amd64 processor gives when it converts a `float64` that is
outside the `int64` range. -/
def int64Min : Int := -(2 ^ 63)

/-- The service of `NewGeminiService` after some calls left the counter at `c`. -/
def serviceWithCount (c : Int) : GeminiService :=
  { NewGeminiService with consecutiveErrors := c }

/-! ## The evaluation use case -/

/-- A `float64` result field, up to what the use case distinguishes. -/
inductive Float64 where
  | finite (value : ℚ)
  | posInf
  | negInf
  | nan
deriving DecidableEq

/-- `model.EvaluationTask`. The two timestamps are left out: `Submit` and the
ORM write them, no operation of the core reads them. -/
structure EvaluationTask where
  ID : Nat
  CV : GoString
  Report : GoString
  Status : GoString
  CvMatchRate : Float64
  CvFeedback : GoString
  ProjectScore : Float64
  ProjectFeedback : GoString
  OverallSummary : GoString
  Breakdown : GoString
deriving DecidableEq

/-- `model.Job`, without its timestamps; `Embedding` is the `pgvector.Vector`. -/
structure Job where
  ID : Nat
  Title : GoString
  Content : GoString
  Embedding : List Float32
deriving DecidableEq

/-- A non-nil error of the database layer (`gorm`). -/
structure StoreError where
  msg : GoString
deriving DecidableEq

/-- The errors the use case passes to its caller. -/
inductive UsecaseError where
  | gemini (err : CallError)
  | store (err : StoreError)
deriving DecidableEq

/-- The two repositories, as the use case sees them: what each call returns.
`none` is the nil error. -/
structure Stores where
  /-- `EvaluationRepository.CreateTask`: the ID the database gave the task. -/
  createTask : EvaluationTask → Except StoreError Nat
  /-- `EvaluationRepository.UpdateTask`. -/
  updateTask : EvaluationTask → Option StoreError
  /-- `JobRepository.SearchJobs(embedding, topK)`. -/
  searchJobs : List Float32 → Int → Except StoreError (List Job)
  /-- `JobRepository.UpdateJob`. -/
  updateJob : Job → Option StoreError

/-- `gjson.Result`, by the `Type` of the value found and what its `Float` and
`String` methods read: a number carries its value and its text, a string its
text and the value `strconv.ParseFloat` gives for it (`0` when it is not a
number). `null` is also the result of a path that is not found. -/
inductive GjsonResult where
  | null
  | falseValue
  | trueValue
  | number (num : Float64) (text : GoString)
  | string (str : GoString) (num : Float64)
  | json (raw : GoString)
deriving DecidableEq

/-- `gjson.Result.Float`. -/
def GjsonResult.Float : GjsonResult → Float64
  | .trueValue => .finite 1
  | .number num _ => num
  | .string _ num => num
  | _ => .finite 0

/-- `gjson.Result.String`. -/
def GjsonResult.String : GjsonResult → GoString
  | .null => []
  | .falseValue => goString "false"
  | .trueValue => goString "true"
  | .number _ text => text
  | .string str _ => str
  | .json raw => raw

/-- The texts of the parts, concatenated, as the loop of
`(*genai.GenerateContentResponse).Text` collects them: a part flagged as a
thought is skipped; `none` is the run-time fault of reading a nil part. -/
def collectText : List (Option Part) → Option GoString
  | [] => some []
  | none :: _ => none
  | some part :: rest =>
    if part.thought then collectText rest else (collectText rest).map (part.text ++ ·)

/-- `(*genai.GenerateContentResponse).Text`: the text of the first candidate.
The method reads `r.Candidates` without testing the receiver, so a nil
receiver is a run-time fault (`none`), as are a nil first candidate and a nil
part. -/
def responseText : Option GenerateContentResponse → Option GoString
  | none => none
  | some r =>
    match r.candidates with
    | [] => some []
    | none :: _ => none
    | some candidate :: _ =>
      match candidate.content with
      | none => some []
      | some content => collectText content.parts

/-- One `fmt.Sprintf("Job %d: %s\nRequirements: %s\n\n", i+1, j.Title, j.Content)`. -/
def jobContextEntry (i : Nat) (j : Job) : GoString :=
  goString "Job " ++ goString (Nat.repr (i + 1)) ++ goString ": " ++ j.Title ++
    goString "\nRequirements: " ++ j.Content ++ goString "\n\n"

/-- The loop `for i, j := range jobs` of `EvaluateTask` that builds `jobContext`,
from index `i` on. -/
def jobContext : Nat → List Job → GoString
  | _, [] => []
  | i, j :: rest => jobContextEntry i j ++ jobContext (i + 1) rest

/-- The prompt template of `EvaluateTask` up to its first `%s`. -/
def promptIntro : GoString :=
  goString (
    "\n" ++
    "You are an experienced technical recruiter. Analyze the following CV " ++
    "and Project Report against these job requirements:\n" ++
    "\n")

/-- The prompt template between the job context and the CV. -/
def promptSchema : GoString :=
  goString (
    "\n" ++
    "\n" ++
    "Return your answer STRICTLY in JSON format with this schema:\n" ++
    "\x7b\n" ++
    "\t\"cv_match_rate\": <float with 2 decimal places, range 0-1 based on cv " ++
    "breakdown score that converted to percents and then x20>,\n" ++
    "\t\"cv_feedback\": \"<feedback about CV>\",\n" ++
    "\t\"project_score\": <float with 2 decimal places, range 0-10 based on " ++
    "project breakdown score>,\n" ++
    "\t\"project_feedback\": \"<feedback about Project Report>\",\n" ++
    "\t\"overall_summary\": \"<summary of overall impression, strengths, and " ++
    "areas to improve>\",\n" ++
    "  \"breakdown\": \x7b\n" ++
    "    \"cv\": \x7b\n" ++
    "\t\"technical_skills_match\": <number 1-5, weight: 40 percents, " ++
    "criteria: backend, databases, APIs, cloud, and AI/LLM exposure>,\n" ++
    "\t\"experience_level\": <number 1-5, weight: 25 percents, criteria: " ++
    "years, project complexity>,\n" ++
    "\t\"relevant_achievements\": <number 1-5, weight: 20 percents, criteria: " ++
    "impact, scale>,\n" ++
    "\t\"cultural_fit\": <number 1-5, weight: 15 percents, criteria: " ++
    "communication, learning attitude>,\n" ++
    "\t\x7d,\n" ++
    "    \"project_report\": \x7b\n" ++
    "      \"correctness\": <number 1-5, weight: 30 percents, criteria: " ++
    "prompt design, chaining, RAG, handling errors>,\n" ++
    "      \"code_quality\": <number 1-5, weight: 25 percents, criteria: " ++
    "clean, modular, testable>,\n" ++
    "      \"resilience\": <number 1-5, weight: 20 percents, criteria: " ++
    "handles failures, retries>,\n" ++
    "      \"documentation\": <number 1-5, weight: 15 percents, criteria: " ++
    "clear README, explanation of trade-offs>,\n" ++
    "      \"creativity_or_bonus\": <number 1-5, weight: 10 percents, " ++
    "criteria: optional improvements like authentication, deployment, " ++
    "dashboards, etc.>\n" ++
    "    \x7d\n" ++
    "  \x7d\n" ++
    "\x7d\n" ++
    "\n" ++
    "CV:\n")

/-- The prompt template between the CV and the report. -/
def promptReport : GoString :=
  goString (
    "\n" ++
    "\n" ++
    "Report:\n")

/-- The prompt template after the report. -/
def promptEnd : GoString :=
  goString (
    "\n")

/-- The `Content` of the first job `CreateJobEmbedding` indexes. -/
def backendJobContent : GoString :=
  goString (
    "You'll be building new product features alongside a frontend engineer " ++
    "and product manager using our Agile methodology, as well as " ++
    "addressing issues to ensure our apps are robust and our codebase is " ++
    "clean. As a Product Engineer, you'll write clean, efficient code to " ++
    "enhance our product's codebase in meaningful ways.\n" ++
    "\n" ++
    "In addition to classic backend work, this role also touches on " ++
    "building AI-powered systems, where you’ll design and orchestrate how " ++
    "large language models (LLMs) integrate into Rakamin’s product " ++
    "ecosystem.\n" ++
    "\n" ++
    "Here are some real examples of the work in our team:\n" ++
    "\n" ++
    "Collaborating with frontend engineers and 3rd parties to build robust " ++
    "backend solutions that support highly configurable platforms and " ++
    "cross-platform integration.\n" ++
    "Developing and maintaining server-side logic for central database, " ++
    "ensuring high performance throughput and response time.\n" ++
    "Designing and fine-tuning AI prompts that align with product " ++
    "requirements and user contexts.\n" ++
    "Building LLM chaining flows, where the output from one model is " ++
    "reliably passed to and enriched by another.\n" ++
    "Implementing Retrieval-Augmented Generation (RAG) by embedding and " ++
    "retrieving context from vector databases, then injecting it into AI " ++
    "prompts to improve accuracy and relevance.\n" ++
    "Handling long-running AI processes gracefully — including job " ++
    "orchestration, async background workers, and retry mechanisms.\n" ++
    "Designing safeguards for uncontrolled scenarios: managing failure " ++
    "cases from 3rd party APIs and mitigating the " ++
    "randomness/nondeterminism of LLM outputs.\n" ++
    "Leveraging AI tools and workflows to increase team productivity " ++
    "(e.g., AI-assisted code generation, automated QA, internal bots).\n" ++
    "Writing reusable, testable, and efficient code to improve the " ++
    "functionality of our existing systems.\n" ++
    "Strengthening our test coverage with RSpec to build robust and " ++
    "reliable web apps.\n" ++
    "Conducting full product lifecycles, from idea generation to design, " ++
    "implementation, testing, deployment, and maintenance.\n" ++
    "Providing input on technical feasibility, timelines, and potential " ++
    "product trade-offs, working with business divisions.\n" ++
    "Actively engaging with users and stakeholders to understand their " ++
    "needs and translate them into backend and AI-driven improvements.\n" ++
    "\n" ++
    "\n" ++
    "Required qualification\n" ++
    "\n" ++
    "We're looking for candidates with a strong track record of working on " ++
    "backend technologies of web apps, ideally with exposure to AI/LLM " ++
    "development or a strong desire to learn.\n" ++
    "\n" ++
    "You should have experience with backend languages and frameworks " ++
    "(Node.js, Django, Rails), as well as modern backend tooling and " ++
    "technologies such as:\n" ++
    "\n" ++
    "Database management (MySQL, PostgreSQL, MongoDB)\n" ++
    "RESTful APIs\n" ++
    "Security compliance\n" ++
    "Cloud technologies (AWS, Google Cloud, Azure)\n" ++
    "Server-side languages (Java, Python, Ruby, or JavaScript)\n" ++
    "Understanding of frontend technologies\n" ++
    "User authentication and authorization between multiple systems, " ++
    "servers, and environments\n" ++
    "Scalable application design principles\n" ++
    "Creating database schemas that represent and support business " ++
    "processes\n" ++
    "Implementing automated testing platforms and unit tests\n" ++
    "Familiarity with LLM APIs, embeddings, vector databases and prompt " ++
    "design best practices\n" ++
    "We're not big on credentials, so a Computer Science degree or " ++
    "graduating from a prestigious university isn't something we " ++
    "emphasize. We care about what you can do and how you do it, not how " ++
    "you got here.\n" ++
    "\n" ++
    "While you'll report to a CTO directly, Rakamin is a company where " ++
    "Managers of One thrive. We're quick to trust that you can do it, and " ++
    "here to support you. You can expect to be counted on and do your best " ++
    "work and build a career here.\n" ++
    "\n" ++
    "This is a remote job. You're free to work where you work best: home " ++
    "office, co-working space, coffee shops. To ensure time zone overlap " ++
    "with our current team and maintain well communication, we're only " ++
    "looking for people based in Indonesia.")

/-- The `prompt` of `EvaluateTask`: the template with the job context, the CV
and the report in its three `%s` places. -/
def buildPrompt (jobs : List Job) (task : EvaluationTask) : GoString :=
  promptIntro ++ jobContext 0 jobs ++ promptSchema ++ task.CV ++ promptReport ++
    task.Report ++ promptEnd

/-- What the use case does that is visible outside it: the calls it makes on
the Gemini client and on the repositories, with their arguments. -/
inductive Step where
  | generateEmbedding (text : GoString)
  | searchJobs (embedding : List Float32) (topK : Int)
  | generateContent (model prompt : GoString)
  | updateTask (task : EvaluationTask)
  | updateJob (job : Job)
  | createTask (task : EvaluationTask)
deriving DecidableEq

/-- The step is a call of `UpdateTask`. -/
def Step.isUpdateTask : Step → Bool
  | .updateTask _ => true
  | _ => false

/-- The step is a call of `SearchJobs`. -/
def Step.isSearchJobs : Step → Bool
  | .searchJobs _ _ => true
  | _ => false

/-- The step is a call of `GenerateContent`. -/
def Step.isGenerateContent : Step → Bool
  | .generateContent _ _ => true
  | _ => false

/-- The step is a call of `UpdateJob`. -/
def Step.isUpdateJob : Step → Bool
  | .updateJob _ => true
  | _ => false

/-- Result of `EvaluateTask`: the error it returned (`ok` for nil, `fault` when
it stopped with a run-time fault instead of returning), the task in memory and
the Gemini service afterwards, and the calls it made. -/
structure TaskRun where
  outcome : Outcome UsecaseError Unit
  task : EvaluationTask
  service : GeminiService
  steps : List Step

/-- The failure branch written three times in `EvaluateTask`:
`task.Status = "failed"; _ = uc.evaluationRepo.UpdateTask(task); return err`. -/
def failTask (err : UsecaseError) (task : EvaluationTask) (service : GeminiService)
    (steps : List Step) : TaskRun :=
  let task := { task with Status := goString "failed" }
  ⟨.error err, task, service, steps ++ [.updateTask task]⟩

/-- Source `EvaluateTask`. `s` is the state of `uc.gemini`, `embedEnv` and
`genEnv` the environments of its two calls, `gjsonGet` is `gjson.Get`. The
context is `context.Background()`, so no caller deadline exists. -/
def EvaluateTask (ovf : Int) (s : GeminiService) (embedEnv : Env EmbedContentResponse)
    (genEnv : Env GenerateContentResponse) (stores : Stores)
    (gjsonGet : GoString → GoString → GjsonResult) (task : EvaluationTask) : TaskRun :=
  let embedding := GenerateEmbedding ovf s embedEnv task.CV
  let steps := [Step.generateEmbedding task.CV]
  match embedding.outcome with
  | .fault => ⟨.fault, task, embedding.service, steps⟩
  | .error err => failTask (.gemini err) task embedding.service steps
  | .ok cvEmb =>
    let steps := steps ++ [.searchJobs cvEmb 5]
    match stores.searchJobs cvEmb 5 with
    | .error err => failTask (.store err) task embedding.service steps
    | .ok jobs =>
      let prompt := buildPrompt jobs task
      let generation :=
        GenerateContent ovf embedding.service genEnv (goString "gemini-2.5-flash") prompt
      let steps := steps ++ [.generateContent (goString "gemini-2.5-flash") prompt]
      match generation.outcome with
      | .fault => ⟨.fault, task, generation.service, steps⟩
      | .error err =>
        -- `result` is nil here; `log.Println("Result:", result.Text())` comes first
        match responseText none with
        | none => ⟨.fault, task, generation.service, steps⟩
        | some _ => failTask (.gemini err) task generation.service steps
      | .ok result =>
        match responseText result with
        | none => ⟨.fault, task, generation.service, steps⟩
        | some text =>
          let task :=
            { task with
              CvMatchRate := (gjsonGet text (goString "cv_match_rate")).Float
              CvFeedback := (gjsonGet text (goString "cv_feedback")).String
              ProjectScore := (gjsonGet text (goString "project_score")).Float
              ProjectFeedback := (gjsonGet text (goString "project_feedback")).String
              OverallSummary := (gjsonGet text (goString "overall_summary")).String
              Breakdown := (gjsonGet text (goString "breakdown")).String
              Status := goString "completed" }
          let outcome :=
            match stores.updateTask task with
            | some err => Outcome.error (UsecaseError.store err)
            | none => Outcome.ok ()
          ⟨outcome, task, generation.service, steps ++ [.updateTask task]⟩

/-- Result of `Submit`: the error or the ID it returned, the call it made, and
the task it handed to `go uc.EvaluateTask(&req)`, if it started one. -/
structure Submission where
  returned : Except StoreError Nat
  steps : List Step
  started : Option EvaluationTask

/-- Source `Submit`. -/
def Submit (stores : Stores) (req : EvaluationTask) : Submission :=
  let req := { req with Status := goString "processing", Breakdown := goString "\x7b\x7d" }
  match stores.createTask req with
  | .error err => ⟨.error err, [.createTask req], none⟩
  | .ok id =>
    let req := { req with ID := id }
    ⟨.ok id, [.createTask req], some req⟩

/-- How `CreateJobEmbedding` ends: it returns an error or nil, or `log.Fatal`
ends the process with the error it was given, or a run-time fault does. -/
inductive IndexingEnd where
  | returned (err : Option UsecaseError)
  | exited (err : CallError)
  | fault
deriving DecidableEq

/-- Result of `CreateJobEmbedding`. -/
structure IndexingRun where
  finish : IndexingEnd
  service : GeminiService
  steps : List Step

/-- The loop `for i, job := range jobs` of `CreateJobEmbedding`, from index `i`
on; `envs i` is the environment of the `GenerateEmbedding` call for job `i`. -/
def indexJobs (ovf : Int) (stores : Stores) (envs : Nat → Env EmbedContentResponse) :
    GeminiService → Nat → List Job → IndexingRun
  | s, _, [] => ⟨.returned none, s, []⟩
  | s, i, job :: rest =>
    let embedding := GenerateEmbedding ovf s (envs i) job.Content
    match embedding.outcome with
    | .fault => ⟨.fault, embedding.service, [.generateEmbedding job.Content]⟩
    | .error err => ⟨.exited err, embedding.service, [.generateEmbedding job.Content]⟩
    | .ok result =>
      let job := { job with Embedding := result }
      let later := indexJobs ovf stores envs embedding.service (i + 1) rest
      { later with steps := [.generateEmbedding job.Content, .updateJob job] ++ later.steps }

/-- The three jobs `CreateJobEmbedding` builds. -/
def seedJobs : List Job :=
  [⟨0, goString "Product Engineer (Backend)", backendJobContent, []⟩,
   ⟨0, goString "Frontend Engineer", goString "React, Typescript, Tailwind", []⟩,
   ⟨0, goString "UI/UX Engineer", goString "Figma, UI, UX", []⟩]

/-- Source `CreateJobEmbedding`. -/
def CreateJobEmbedding (ovf : Int) (s : GeminiService) (stores : Stores)
    (envs : Nat → Env EmbedContentResponse) : IndexingRun :=
  indexJobs ovf stores envs s 0 seedJobs

/-! ## The job repository -/

/-- The database engine, as far as `JobRepository.SearchJobs` depends on it.
`D` is the type of the values of the operator `<->`, in the order in which
`ORDER BY` sorts them. -/
structure Engine (D : Type) where
  /-- The value of `embedding <-> ?` for a stored vector and the query vector. -/
  distance : List Float32 → List Float32 → D
  /-- The order in which the engine reads the rows of the table; rows at the
  same distance are returned in this order. -/
  scan : List Job → List Job
  /-- The error `gorm` reports for the statement, `none` when it is executed
  and its rows are scanned. -/
  failure : List Job → List Float32 → Int → Option StoreError

/-- The relation `ORDER BY embedding <-> ?` sorts by: the first job is at most
as far from the query vector as the second. -/
def nearer {D : Type} [LinearOrder D] (engine : Engine D) (embedding : List Float32)
    (a b : Job) : Prop :=
  engine.distance a.Embedding embedding ≤ engine.distance b.Embedding embedding

instance {D : Type} [LinearOrder D] (engine : Engine D) (embedding : List Float32) :
    DecidableRel (nearer engine embedding) :=
  fun a b => inferInstanceAs
    (Decidable (engine.distance a.Embedding embedding ≤ engine.distance b.Embedding embedding))

/-- `ORDER BY embedding <-> ?`: the rows by non-decreasing distance to the
query vector. -/
def orderByDistance {D : Type} [LinearOrder D] (engine : Engine D) (embedding : List Float32)
    (rows : List Job) : List Job :=
  List.insertionSort (nearer engine embedding) rows

/-- The error of the engine for a negative `LIMIT`. -/
def negativeLimit : StoreError :=
  ⟨goString "ERROR: LIMIT must not be negative (SQLSTATE 2201W)"⟩

/-- `JobRepository.SearchJobs(embedding, topK)` on the table `jobs`: what the
call returns, and the table after it. The statement is
`SELECT *, embedding <-> ? AS distance FROM jobs ORDER BY embedding <-> ? LIMIT ?`. -/
def SearchJobs {D : Type} [LinearOrder D] (engine : Engine D) (table : List Job)
    (embedding : List Float32) (topK : Int) : Except StoreError (List Job) × List Job :=
  match engine.failure table embedding topK with
  | some err => (.error err, table)
  | none =>
    if topK < 0 then (.error negativeLimit, table)
    else (.ok ((orderByDistance engine embedding (engine.scan table)).take topK.toNat), table)

instance {D : Type} [LinearOrder D] (engine : Engine D) (embedding : List Float32) :
    IsTotal Job (nearer engine embedding) :=
  ⟨fun _ _ => le_total _ _⟩

instance {D : Type} [LinearOrder D] (engine : Engine D) (embedding : List Float32) :
    IsTrans Job (nearer engine embedding) :=
  ⟨fun _ _ _ h1 h2 => le_trans h1 h2⟩

/-! ## Predicates used to state the properties -/

/-- A natural number a `float64` holds exactly: at most 53 significant bits. -/
def Representable (m : Nat) : Prop := ∃ q k, m = q * 2 ^ k ∧ q ≤ 2 ^ 53

/-- How the counter must stand after a loop that ended with the given outcome. -/
def CountedAs (s : GeminiService) {α : Type} : Outcome CallError α → GeminiService → Prop
  | .ok _, s' => s' = s.countSuccess
  | .fault, s' => s' = s.countSuccess
  | .error (.invalidResponse _), s' => s' = s.countSuccess
  | .error (.failed _), s' => s' = s.countFailure
  | .error (.maxRetriesExceeded _ _), s' => s' = s.countFailure
  | .error (.contextTimeout _), s' => s' = s
  | .error _, _ => False

/-- The text `GenerateEmbedding` hands to the transport: the trimmed text, cut
to its first 10000 bytes when it is longer. -/
def embeddingInput (text : GoString) : GoString :=
  if (TrimSpace text).length > 10000 then (TrimSpace text).take 10000 else TrimSpace text

/-- One call took the counter from that of `a` to that of `b`: it left it, added
one to it, or reset it to 0. -/
def CounterStep (a b : GeminiService) : Prop :=
  b.consecutiveErrors = a.consecutiveErrors ∨
  b.consecutiveErrors = a.consecutiveErrors + 1 ∨
  b.consecutiveErrors = 0

/-- The outcome is the "invalid response" error. -/
def isInvalidResponse {α : Type} : Outcome CallError α → Bool
  | .error (.invalidResponse _) => true
  | _ => false

/-! ## Concrete inputs -/

/-- A server-side provider error, as `*genai.APIError` renders it. -/
def unavailable : TransportError :=
  ⟨goString "Error 503, Message: The model is overloaded., Status: UNAVAILABLE, Details: []", some 503⟩

/-- A provider error for a rejected API key. -/
def unauthorized : TransportError :=
  ⟨goString "Error 401, Message: API key not valid., Status: UNAUTHENTICATED, Details: []", some 401⟩

/-- An environment whose transport fails with the same error at every attempt
and whose deadline never expires. -/
def alwaysFails (ρ : Type) (err : TransportError) : Env ρ :=
  ⟨fun _ => .error err, fun _ => none⟩

/-- An embedding response the validator accepts. -/
def goodEmbedding : EmbedContentResponse :=
  ⟨[some ⟨[.finite (1 / 2), .finite (-3)]⟩]⟩

/-- An environment whose transport fails twice with a retryable error and then
returns a valid embedding; the deadline never expires. -/
def recoversAtThird : Env EmbedContentResponse :=
  ⟨fun k => if k < 2 then .error unavailable else .ok (some goodEmbedding), fun _ => none⟩

/-- The error the client returns for an HTTP 503 answer: a `genai.APIError`
value with `Code` 503, `Message` "The model is overloaded." and `Status`
"UNAVAILABLE". -/
def plainUnavailable : TransportError :=
  ⟨goString "Error 503, Message: The model is overloaded., Status: UNAVAILABLE, Details: []", none⟩

/-- The error the client returns for an HTTP 401 answer whose message speaks of
a timeout: a `genai.APIError` value with `Code` 401, `Message` "API key
validation timeout" and `Status` "UNAUTHENTICATED". -/
def keyTimeout : TransportError :=
  ⟨goString "Error 401, Message: API key validation timeout, Status: UNAUTHENTICATED, Details: []",
    none⟩

/-- An environment whose transport always fails with a retryable error and
whose deadline expires during the wait before the second retry. -/
def expiresBeforeSecondRetry : Env EmbedContentResponse :=
  ⟨fun _ => .error unavailable, fun k => if k = 2 then some .deadlineExceeded else none⟩

/-- Five calls that fail definitively: three rejected at once by the provider
and two that use up their retries. -/
def fiveFailures : List Call :=
  [.generateEmbedding (alwaysFails _ unauthorized) (goString "cv one"),
   .generateContent (alwaysFails _ unavailable) (goString "gemini-2.5-flash") (goString "evaluate"),
   .generateEmbedding (alwaysFails _ unauthorized) (goString "cv three"),
   .generateEmbedding (alwaysFails _ unavailable) (goString "cv four"),
   .generateContent (alwaysFails _ unauthorized) (goString "gemini-2.5-flash") (goString "evaluate")]

/-- Three provider calls, the second with a blank prompt. -/
def threeCalls : List Call :=
  [.generateEmbedding recoversAtThird (goString "cv one"),
   .generateContent (alwaysFails _ unavailable) (goString "gemini-2.5-flash") (goString "  "),
   .generateEmbedding recoversAtThird (goString "cv three")]

/-- A configuration whose base delay exceeds its maximal delay. -/
def baseAboveMax : GeminiService :=
  { NewGeminiService with BaseDelay := 2 * second, MaxDelay := 1 * second }

/-- A configuration with a negative base delay. -/
def negativeBase : GeminiService :=
  { NewGeminiService with BaseDelay := -second }

/-- An environment whose transport fails once with a retryable error and then
returns a response with no embeddings; the deadline never expires. -/
def emptyAtSecond : Env EmbedContentResponse :=
  ⟨fun k => if k < 1 then .error unavailable else .ok (some ⟨[]⟩), fun _ => none⟩

/-- The component is neither NaN nor infinite. -/
def Float32.isFinite (x : Float32) : Bool := !(x.isNaN || x.isInf)

/-- A response whose first embedding is empty and whose second is a vector of
finite components. -/
def secondEmbeddingGood : EmbedContentResponse :=
  ⟨[some ⟨[]⟩, some ⟨[.finite (1 / 2), .finite (-3)]⟩]⟩

/-- An environment whose transport returns a valid embedding at once. -/
def embedsAtOnce : Env EmbedContentResponse :=
  ⟨fun _ => .ok (some goodEmbedding), fun _ => none⟩

/-- A byte sequence written `n` times in a row. -/
def repeatBytes (block : GoString) : Nat → GoString
  | 0 => []
  | n + 1 => block ++ repeatBytes block n

/-- A text of 3334 euro signs: 3334 characters, each of three bytes in UTF-8. -/
def euroText : String := ⟨List.replicate 3334 '€'⟩

/-- A generation response the validator accepts: a thought, then the answer in
two parts. -/
def goodResponse : GenerateContentResponse :=
  ⟨[some ⟨some ⟨[some ⟨goString "The CV lists Go and PostgreSQL.", true⟩,
    some ⟨goString "\x7b\"cv_match_rate\": ", false⟩,
    some ⟨goString "0.82\x7d", false⟩]⟩⟩]⟩

/-- An environment whose transport returns a valid generation response at once. -/
def generatesAtOnce : Env GenerateContentResponse :=
  ⟨fun _ => .ok (some goodResponse), fun _ => none⟩

/-- The task as the failure branches of `EvaluateTask` leave it. -/
def EvaluationTask.failed (task : EvaluationTask) : EvaluationTask :=
  { task with Status := goString "failed" }

/-- The task as the last block of `EvaluateTask` leaves it, given the generated
text. -/
def EvaluationTask.completed (gjsonGet : GoString → GoString → GjsonResult) (text : GoString)
    (task : EvaluationTask) : EvaluationTask :=
  { task with
    CvMatchRate := (gjsonGet text (goString "cv_match_rate")).Float
    CvFeedback := (gjsonGet text (goString "cv_feedback")).String
    ProjectScore := (gjsonGet text (goString "project_score")).Float
    ProjectFeedback := (gjsonGet text (goString "project_feedback")).String
    OverallSummary := (gjsonGet text (goString "overall_summary")).String
    Breakdown := (gjsonGet text (goString "breakdown")).String
    Status := goString "completed" }

/-- Repositories whose calls all succeed; the search finds one job. -/
def quietStores : Stores :=
  { createTask := fun _ => .ok 7
    updateTask := fun _ => none
    searchJobs := fun _ _ =>
      .ok [⟨1, goString "Frontend Engineer", goString "React, Typescript, Tailwind", []⟩]
    updateJob := fun _ => none }

/-- Repositories whose job search fails. -/
def searchFails : Stores :=
  { quietStores with searchJobs := fun _ _ => .error ⟨goString "connection refused"⟩ }

/-- A task as `Submit` hands it to `EvaluateTask`. -/
def sampleTask : EvaluationTask :=
  { ID := 7
    CV := goString "strong backend experience"
    Report := goString "built a RAG pipeline"
    Status := goString "processing"
    CvMatchRate := .finite 0
    CvFeedback := []
    ProjectScore := .finite 0
    ProjectFeedback := []
    OverallSummary := []
    Breakdown := goString "\x7b\x7d" }

/-- A task that an earlier evaluation has completed. -/
def finishedTask : EvaluationTask :=
  { sampleTask with
    Status := goString "completed"
    CvMatchRate := .finite (41 / 50)
    CvFeedback := goString "solid"
    ProjectScore := .finite 8 }

/-- What `gjson.Get` finds on the texts of the sample responses, and nothing on
any other text. -/
def sampleJson : GoString → GoString → GjsonResult :=
  fun text path =>
    if text = goString "\x7b\"cv_match_rate\": 0.82\x7d" then
      if path = goString "cv_match_rate" then .number (.finite (41 / 50)) (goString "0.82")
      else .null
    else if text = goString "\x7b\"cv_match_rate\": true, \"cv_feedback\": false\x7d" then
      if path = goString "cv_match_rate" then .trueValue
      else if path = goString "cv_feedback" then .falseValue
      else .null
    else .null

/-- A generation response whose text gives booleans for a numeric and for a
text field. -/
def booleanResponse : GenerateContentResponse :=
  ⟨[some ⟨some ⟨[some
    ⟨goString "\x7b\"cv_match_rate\": true, \"cv_feedback\": false\x7d", false⟩]⟩⟩]⟩

/-- An environment whose transport returns `booleanResponse` at once. -/
def generatesBooleans : Env GenerateContentResponse :=
  ⟨fun _ => .ok (some booleanResponse), fun _ => none⟩

/-- A generation response whose only part is nil (`"parts": [null]`). -/
def nilPartResponse : GenerateContentResponse :=
  ⟨[some ⟨some ⟨[none]⟩⟩]⟩

/-- An environment whose transport returns `nilPartResponse` at once. -/
def generatesNilPart : Env GenerateContentResponse :=
  ⟨fun _ => .ok (some nilPartResponse), fun _ => none⟩

/-- The prompt `EvaluateTask` builds for `sampleTask` from the job `quietStores` finds. -/
def samplePrompt : GoString :=
  buildPrompt [⟨1, goString "Frontend Engineer", goString "React, Typescript, Tailwind", []⟩]
    sampleTask

/-- The environments of an indexing run in which the provider rejects every
embedding request. -/
def rejectsAll : Nat → Env EmbedContentResponse := fun _ => alwaysFails _ unauthorized

/-- Seven calls: five definitive failures, one call cut short by the open
breaker, a reset. -/
def sevenCalls : List Call :=
  fiveFailures ++
    [.generateEmbedding embedsAtOnce (goString "cv six"), .resetCircuitBreaker]

/-- An environment whose transport returns at once a response with no
embeddings. -/
def emptyAtOnce : Env EmbedContentResponse :=
  ⟨fun _ => .ok (some ⟨[]⟩), fun _ => none⟩

/-- Six calls whose responses all fail validation, the second after a retry. -/
def sixInvalid : List Call :=
  [.generateEmbedding emptyAtOnce (goString "cv one"),
   .generateEmbedding emptyAtSecond (goString "cv two"),
   .generateEmbedding emptyAtOnce (goString "cv three"),
   .generateEmbedding emptyAtOnce (goString "cv four"),
   .generateEmbedding emptyAtOnce (goString "cv five"),
   .generateEmbedding emptyAtOnce (goString "cv six")]

/-- The value of a finite component, `0` for the others. -/
def Float32.toRat : Float32 → ℚ
  | .finite value => value
  | _ => 0

/-- The square of the Euclidean distance between two vectors of finite
components. -/
def squaredDistance (a b : List Float32) : ℚ :=
  (List.zipWith (fun x y => (x.toRat - y.toRat) * (x.toRat - y.toRat)) a b).sum

/-- An engine that executes every statement, reads the table from its last row
to its first and orders by the squared Euclidean distance. -/
def sampleEngine : Engine ℚ :=
  ⟨squaredDistance, List.reverse, fun _ _ _ => none⟩

/-- The job at the origin. -/
def originJob : Job := ⟨1, goString "Backend Engineer", [], [.finite 0, .finite 0]⟩

/-- A job at distance 5 from the origin. -/
def farJob : Job := ⟨2, goString "Data Engineer", [], [.finite 3, .finite 4]⟩

/-- A job at distance 1 from the origin. -/
def nearJob : Job := ⟨3, goString "Frontend Engineer", [], [.finite 1, .finite 0]⟩

/-- A table of three jobs. -/
def threeJobs : List Job := [farJob, originJob, nearJob]

/-! ## Machine arithmetic: lemmas -/

theorem wrapInt64_of_isInt64 {x : Int} (h : isInt64 x) : wrapInt64 x = x := by
  unfold isInt64 at h
  unfold wrapInt64
  omega

theorem wrapInt64_add_wrap (x y : Int) : wrapInt64 (wrapInt64 x + y) = wrapInt64 (x + y) := by
  unfold wrapInt64
  omega

theorem roundShift_spec (m : Nat) : ∀ (fuel e0 : Nat), m < 2 ^ (53 + e0 + fuel) → 2 ^ (52 + e0) ≤ m →
    m < 2 ^ (53 + roundShift m fuel e0) ∧ 2 ^ (52 + roundShift m fuel e0) ≤ m := by
  intro fuel
  induction fuel with
  | zero => intro e0 h1 h2; exact ⟨by simpa [roundShift] using h1, by simpa [roundShift] using h2⟩
  | succ f ih =>
    intro e0 h1 h2
    unfold roundShift
    split
    · exact ⟨by assumption, h2⟩
    · rename_i hnot
      apply ih (e0 + 1)
      · have : 53 + (e0 + 1) + f = 53 + e0 + (f + 1) := by omega
        rw [this]; exact h1
      · have : 52 + (e0 + 1) = 53 + e0 := by omega
        rw [this]; exact Nat.le_of_not_lt hnot

theorem roundShift_bounds {m : Nat} (h53 : 2 ^ 53 ≤ m) (h64 : m < 2 ^ 64) :
    1 ≤ roundShift m 11 0 ∧ roundShift m 11 0 ≤ 11 ∧
      m < 2 ^ (53 + roundShift m 11 0) ∧ 2 ^ (52 + roundShift m 11 0) ≤ m := by
  obtain ⟨h1, h2⟩ := roundShift_spec m 11 0 (by simpa using h64) (by norm_num; omega)
  refine ⟨?_, ?_, h1, h2⟩
  · by_contra hc
    have h0 : roundShift m 11 0 = 0 := by omega
    rw [h0] at h1
    simp at h1
    omega
  · by_contra hc
    have : 2 ^ 64 ≤ 2 ^ (52 + roundShift m 11 0) := Nat.pow_le_pow_right (by norm_num) (by omega)
    omega

theorem float64OfNat_of_representable {m : Nat} (h64 : m < 2 ^ 64) (hr : Representable m) :
    float64OfNat m = m := by
  unfold float64OfNat
  split
  · rfl
  · rename_i h53
    obtain ⟨he1, -, hlt, hle⟩ := roundShift_bounds (Nat.le_of_not_lt h53) h64
    generalize roundShift m 11 0 = e at *
    obtain ⟨q, k, rfl, hq⟩ := hr
    have hdvd : 2 ^ e ∣ q * 2 ^ k := by
      by_cases hk : e ≤ k
      · exact Dvd.dvd.mul_left (pow_dvd_pow 2 hk) q
      · have hk1 : k ≤ e - 1 := by omega
        have h1 : q * 2 ^ k ≤ 2 ^ 53 * 2 ^ (e - 1) :=
          Nat.mul_le_mul hq (Nat.pow_le_pow_right (by norm_num) hk1)
        have h2 : 2 ^ 53 * 2 ^ (e - 1) = 2 ^ (52 + e) := by
          rw [← pow_add]; congr 1; omega
        have h3 : q * 2 ^ k = 2 ^ (52 + e) := by omega
        rw [h3]
        exact pow_dvd_pow 2 (by omega)
    have hmod : q * 2 ^ k % 2 ^ e = 0 := Nat.mod_eq_zero_of_dvd hdvd
    have hhalf : 0 < 2 ^ (e - 1) := by positivity
    simp only [hmod]
    rw [if_neg (by omega)]
    exact Nat.div_mul_cancel hdvd

theorem float64OfNat_representable {m : Nat} (h64 : m < 2 ^ 64) :
    Representable (float64OfNat m) ∧ float64OfNat m ≤ 2 ^ 64 := by
  unfold float64OfNat
  split
  · rename_i h53
    exact ⟨⟨m, 0, by simp, by omega⟩, by omega⟩
  · rename_i h53
    obtain ⟨-, he11, hlt, -⟩ := roundShift_bounds (Nat.le_of_not_lt h53) h64
    generalize roundShift m 11 0 = e at *
    have hq : m / 2 ^ e < 2 ^ 53 := by
      apply Nat.div_lt_of_lt_mul
      rw [← pow_add, Nat.add_comm]; exact hlt
    have hpow : (2:Nat) ^ 53 * 2 ^ e ≤ 2 ^ 64 := by
      rw [← pow_add]; exact Nat.pow_le_pow_right (by norm_num) (by omega)
    simp only []
    split
    · exact ⟨⟨m / 2 ^ e + 1, e, rfl, by omega⟩,
        le_trans (Nat.mul_le_mul_right _ (by omega : m / 2 ^ e + 1 ≤ 2 ^ 53)) hpow⟩
    · exact ⟨⟨m / 2 ^ e, e, rfl, by omega⟩,
        le_trans (Nat.mul_le_mul_right _ (by omega : m / 2 ^ e ≤ 2 ^ 53)) hpow⟩

theorem representable_div {v : Nat} (c : Nat) (hc : c = 2 ∨ c = 4) (hr : Representable v) : Representable (v / c) := by
  obtain ⟨q, k, rfl, hq⟩ := hr
  by_cases hk : 2 ≤ k
  · obtain ⟨k', rfl⟩ : ∃ k', k = k' + 2 := ⟨k - 2, by omega⟩
    rcases hc with rfl | rfl
    · refine ⟨q, k' + 1, ?_, hq⟩
      have : q * 2 ^ (k' + 2) = q * 2 ^ (k' + 1) * 2 := by ring
      rw [this, Nat.mul_div_cancel _ (by norm_num)]
    · refine ⟨q, k', ?_, hq⟩
      have : q * 2 ^ (k' + 2) = q * 2 ^ k' * 4 := by ring
      rw [this, Nat.mul_div_cancel _ (by norm_num)]
  · refine ⟨q * 2 ^ k / c, 0, by simp, ?_⟩
    have hk' : k = 0 ∨ k = 1 := by omega
    rcases hk' with rfl | rfl <;> rcases hc with rfl | rfl <;> simp <;> omega


theorem float64OfNat_zero : float64OfNat 0 = 0 := by decide

theorem natAbs_float64OfInt (n : Int) : (float64OfInt n).natAbs = float64OfNat n.natAbs := by
  unfold float64OfInt
  rw [Int.natAbs_mul, Int.natAbs_ofNat]
  rcases Int.lt_trichotomy n 0 with h | h | h
  · rw [Int.sign_eq_neg_one_of_neg h]; simp
  · subst h; simp [float64OfNat_zero]
  · rw [Int.sign_eq_one_of_pos h]; simp

theorem float64OfInt_of_representable {j : Int} (h64 : j.natAbs < 2 ^ 64)
    (hr : Representable j.natAbs) : float64OfInt j = j := by
  unfold float64OfInt
  rw [float64OfNat_of_representable h64 hr]
  exact Int.sign_mul_natAbs j

theorem natAbs_lt_of_isInt64 {d : Int} (h : isInt64 d) : d.natAbs < 2 ^ 64 := by
  unfold isInt64 at h
  omega

/-- The jitter of `calculateBackoff` is a value `float64` holds exactly. -/
theorem float64OfInt_jitter {d : Int} (h : isInt64 d) :
    float64OfInt (Int.tdiv (float64OfInt d) 4) = Int.tdiv (float64OfInt d) 4 := by
  have hd := natAbs_lt_of_isInt64 h
  obtain ⟨hrep, hle⟩ := float64OfNat_representable hd
  have hab : (Int.tdiv (float64OfInt d) 4).natAbs = float64OfNat d.natAbs / 4 := by
    rw [Int.natAbs_tdiv, natAbs_float64OfInt]; rfl
  apply float64OfInt_of_representable
  · rw [hab]; omega
  · rw [hab]; exact representable_div 4 (Or.inr rfl) hrep

/-- The two jitter terms of `calculateBackoff` cancel: the dithered delay is the delay. -/
theorem jitter_cancel {d : Int} (h : isInt64 d) :
    wrapInt64 (wrapInt64 (d - Int.tdiv (Int.tdiv (float64OfInt d) 4) 2) +
      Int.tdiv (float64OfInt (Int.tdiv (float64OfInt d) 4)) 2) = d := by
  rw [float64OfInt_jitter h, wrapInt64_add_wrap, sub_add_cancel, wrapInt64_of_isInt64 h]

theorem calculateBackoff_eq (ovf : Int) (s : GeminiService) (n : Nat) (hn : n ≤ 62)
    (hprod : isInt64 (s.BaseDelay * 2 ^ n)) (hmax : isInt64 s.MaxDelay) :
    calculateBackoff ovf s ((n : Int) + 1) = min s.MaxDelay (s.BaseDelay * 2 ^ n) := by
  have h1 : wrapInt64 ((n : Int) + 1 - 1) = n := by
    rw [add_sub_cancel_right]; apply wrapInt64_of_isInt64; unfold isInt64; omega
  have h2 : float64OfInt (n : Int) = n := by
    apply float64OfInt_of_representable
    · simp; omega
    · exact ⟨n, 0, by simp, by simp; omega⟩
  have h3 : pow2Duration ovf (n : Int) = 2 ^ n := by
    unfold pow2Duration
    rw [if_neg (by omega), if_pos (by omega)]
    simp
  unfold calculateBackoff
  simp only [h1, h2, h3, wrapInt64_of_isInt64 hprod]
  have hmin : (if s.BaseDelay * 2 ^ n > s.MaxDelay then s.MaxDelay else s.BaseDelay * 2 ^ n) =
      min s.MaxDelay (s.BaseDelay * 2 ^ n) := by
    rw [min_def]; split_ifs <;> omega
  rw [hmin]
  apply jitter_cancel
  rcases min_choice s.MaxDelay (s.BaseDelay * 2 ^ n) with h | h <;> rw [h] <;> assumption

/-! ## The retry loop: lemmas -/

section loop
variable {ρ α : Type} (ovf : Int) (s : GeminiService) (env : Env ρ) (invoke : Event)
  (validate : Option ρ → Outcome ValidationError α)

theorem retryableAt_iff {env : Env ρ} {k : Nat} :
    env.retryableAt k = true ↔ ∃ e, env.transport k = .error e ∧ isRetryableError (some e) = true := by
  unfold Env.retryableAt
  cases h : env.transport k <;> simp

/-- The counter after the loop is decided by the way the loop ended. -/
theorem retryLoop_service : ∀ (n attempt : Nat) (lastErr : Option TransportError),
    CountedAs s (retryLoop ovf s env invoke validate n attempt lastErr).outcome
      (retryLoop ovf s env invoke validate n attempt lastErr).service := by
  intro n
  induction n with
  | zero => intro attempt lastErr; simp [retryLoop, CountedAs]
  | succ n ih =>
    intro attempt lastErr
    rw [retryLoop]
    generalize (if attempt > 0 then env.ctxDone attempt else none) = c
    cases c with
    | some cause => simp [CountedAs]
    | none =>
      simp only []
      cases ht : env.transport attempt with
      | ok result => cases hv : validate result <;> simp [CountedAs, hv]
      | error err =>
        cases hr : isRetryableError (some err)
        · simp [CountedAs, hr]
        · simpa [CallResult.after, hr] using ih (attempt + 1) (some err)

/-- The loop reaches the wait before iteration `t` and the context is done there. -/
theorem retryLoop_timeout (hinv : invoke.isTransport = true) (t : Nat) (cause : CtxErr) (ht : 0 < t)
    (hdone : env.ctxDone t = some cause) :
    ∀ (n attempt : Nat) (lastErr : Option TransportError), attempt ≤ t → t < attempt + n →
    (∀ k, attempt ≤ k → k < t → env.retryableAt k = true ∧ (0 < k → env.ctxDone k = none)) →
    (retryLoop ovf s env invoke validate n attempt lastErr).outcome = .error (.contextTimeout cause) ∧
    (retryLoop ovf s env invoke validate n attempt lastErr).service = s ∧
    transportCount (retryLoop ovf s env invoke validate n attempt lastErr).trace + attempt = t := by
  intro n
  induction n with
  | zero => intro attempt lastErr h1 h2; omega
  | succ n ih =>
    intro attempt lastErr h1 h2 hk
    rw [retryLoop]
    by_cases hat : attempt = t
    · subst hat
      simp [ht, hdone, transportCount]
    · obtain ⟨hra, hca⟩ := hk attempt le_rfl (by omega)
      obtain ⟨e, hte, hre⟩ := retryableAt_iff.mp hra
      have hc : (if attempt > 0 then env.ctxDone attempt else none) = none := by
        split
        · exact hca (by assumption)
        · rfl
      obtain ⟨ho, hs, hn⟩ := ih (attempt + 1) (some e) (by omega) (by omega)
        (fun k hk1 hk2 => hk k (by omega) hk2)
      simp only [hc, hte, hre, CallResult.after]
      refine ⟨by simpa using ho, by simpa using hs, ?_⟩
      simp only [transportCount] at hn ⊢
      simp [List.countP_append, hinv]
      split <;> simp [List.countP_cons, Event.isTransport] <;> omega

/-- The loop fails retryably up to iteration `t`, which succeeds with a response
the validator accepts. -/
theorem retryLoop_success (hinv : invoke.isTransport = true) (t : Nat) (result : Option ρ) (value : α)
    (hok : env.transport t = .ok result) (hval : validate result = .ok value)
    (hwait : 0 < t → env.ctxDone t = none) :
    ∀ (n attempt : Nat) (lastErr : Option TransportError), attempt ≤ t → t < attempt + n →
    (∀ k, attempt ≤ k → k < t → env.retryableAt k = true ∧ (0 < k → env.ctxDone k = none)) →
    (retryLoop ovf s env invoke validate n attempt lastErr).outcome = .ok value ∧
    (retryLoop ovf s env invoke validate n attempt lastErr).service = s.countSuccess ∧
    transportCount (retryLoop ovf s env invoke validate n attempt lastErr).trace + attempt = t + 1 := by
  intro n
  induction n with
  | zero => intro attempt lastErr h1 h2; omega
  | succ n ih =>
    intro attempt lastErr h1 h2 hk
    rw [retryLoop]
    by_cases hat : attempt = t
    · subst hat
      have hc : (if attempt > 0 then env.ctxDone attempt else none) = none := by
        split
        · exact hwait (by assumption)
        · rfl
      simp only [hc, hok, hval, transportCount]
      refine ⟨trivial, trivial, ?_⟩
      simp [List.countP_append, hinv]
      split <;> simp [List.countP_cons, Event.isTransport] <;> omega
    · obtain ⟨hra, hca⟩ := hk attempt le_rfl (by omega)
      obtain ⟨e, hte, hre⟩ := retryableAt_iff.mp hra
      have hc : (if attempt > 0 then env.ctxDone attempt else none) = none := by
        split
        · exact hca (by assumption)
        · rfl
      obtain ⟨ho, hs, hn⟩ := ih (attempt + 1) (some e) (by omega) (by omega)
        (fun k hk1 hk2 => hk k (by omega) hk2)
      simp only [hc, hte, hre, CallResult.after]
      refine ⟨by simpa using ho, by simpa using hs, ?_⟩
      simp only [transportCount] at hn ⊢
      simp [List.countP_append, hinv]
      split <;> simp [List.countP_cons, Event.isTransport] <;> omega

end loop

/-! ## The two calls: how they reach the loop -/

theorem GenerateEmbedding_blank (ovf : Int) (s : GeminiService) (env : Env EmbedContentResponse)
    (text : GoString) (h : TrimSpace text = []) :
    GenerateEmbedding ovf s env text = ⟨.error .emptyText, s, []⟩ := by
  simp [GenerateEmbedding, h]

theorem GenerateEmbedding_open (ovf : Int) (s : GeminiService) (env : Env EmbedContentResponse)
    (text : GoString) (h : TrimSpace text ≠ []) (hopen : s.consecutiveErrors ≥ s.circuitBreakerMax) :
    GenerateEmbedding ovf s env text = ⟨.error (.circuitOpen s.consecutiveErrors), s, []⟩ := by
  simp [GenerateEmbedding, h, hopen]

theorem GenerateEmbedding_closed (ovf : Int) (s : GeminiService) (env : Env EmbedContentResponse)
    (text : GoString) (h : TrimSpace text ≠ []) (hclosed : s.consecutiveErrors < s.circuitBreakerMax) :
    GenerateEmbedding ovf s env text =
      retryLoop ovf s env (.embedContent (embeddingInput text)) validateEmbeddingResponse
        (loopBound s) 0 none := by
  have : ¬ s.consecutiveErrors ≥ s.circuitBreakerMax := by omega
  simp [GenerateEmbedding, h, this, embeddingInput]

theorem GenerateContent_open (ovf : Int) (s : GeminiService) (env : Env GenerateContentResponse)
    (model prompt : GoString) (hm : model ≠ []) (hp : TrimSpace prompt ≠ [])
    (hopen : s.consecutiveErrors ≥ s.circuitBreakerMax) :
    GenerateContent ovf s env model prompt = ⟨.error (.circuitOpen s.consecutiveErrors), s, []⟩ := by
  simp [GenerateContent, hm, hp, hopen]

theorem GenerateContent_closed (ovf : Int) (s : GeminiService) (env : Env GenerateContentResponse)
    (model prompt : GoString) (hm : model ≠ []) (hp : TrimSpace prompt ≠ [])
    (hclosed : s.consecutiveErrors < s.circuitBreakerMax) :
    GenerateContent ovf s env model prompt =
      retryLoop ovf s env (.generateContent model prompt) checkedResponse (loopBound s) 0 none := by
  have : ¬ s.consecutiveErrors ≥ s.circuitBreakerMax := by omega
  simp [GenerateContent, hm, hp, this]

/-! ## The circuit breaker -/

/-- C1. On a service whose consecutive-failure counter has reached
`circuitBreakerMax`, `GenerateEmbedding` with a non-blank text and
`GenerateContent` with a non-empty model and a non-blank prompt return the
"circuit breaker open" error, invoke the transport zero times and leave the
counter unchanged. -/
theorem circuit_open_fails_fast (ovf : Int) (s : GeminiService)
    (hopen : s.consecutiveErrors ≥ s.circuitBreakerMax) :
    (∀ (env : Env EmbedContentResponse) (text : GoString), TrimSpace text ≠ [] →
      (GenerateEmbedding ovf s env text).outcome = .error (.circuitOpen s.consecutiveErrors) ∧
      transportCount (GenerateEmbedding ovf s env text).trace = 0 ∧
      (GenerateEmbedding ovf s env text).service.consecutiveErrors = s.consecutiveErrors) ∧
    (∀ (env : Env GenerateContentResponse) (model prompt : GoString),
      model ≠ [] → TrimSpace prompt ≠ [] →
      (GenerateContent ovf s env model prompt).outcome = .error (.circuitOpen s.consecutiveErrors) ∧
      transportCount (GenerateContent ovf s env model prompt).trace = 0 ∧
      (GenerateContent ovf s env model prompt).service.consecutiveErrors = s.consecutiveErrors) := by
  constructor
  · intro env text ht
    rw [GenerateEmbedding_open ovf s env text ht hopen]
    exact ⟨rfl, rfl, rfl⟩
  · intro env model prompt hm hp
    rw [GenerateContent_open ovf s env model prompt hm hp hopen]
    exact ⟨rfl, rfl, rfl⟩

theorem circuit_open_fails_fast_witness :
    (serviceWithCount 5).consecutiveErrors ≥ (serviceWithCount 5).circuitBreakerMax ∧
    TrimSpace (goString "cv") ≠ [] ∧
    (GenerateEmbedding int64Min (serviceWithCount 5) (alwaysFails _ unavailable)
      (goString "cv")).outcome = .error (.circuitOpen 5) :=
  ⟨by decide, by decide,
    ((circuit_open_fails_fast int64Min (serviceWithCount 5) (by decide)).1
      (alwaysFails _ unavailable) (goString "cv") (by decide)).1⟩

theorem countFailure_counter (s : GeminiService) (hclosed : s.consecutiveErrors < s.circuitBreakerMax)
    (hc : isInt64 s.consecutiveErrors) (hm : isInt64 s.circuitBreakerMax) :
    s.countFailure.consecutiveErrors = s.consecutiveErrors + 1 := by
  unfold GeminiService.countFailure
  apply wrapInt64_of_isInt64
  unfold isInt64 at *
  omega

theorem retryLoop_counter {ρ α : Type} (ovf : Int) (s : GeminiService) (env : Env ρ) (invoke : Event)
    (validate : Option ρ → Outcome ValidationError α) (n attempt : Nat)
    (lastErr : Option TransportError) :
    (∀ v, (retryLoop ovf s env invoke validate n attempt lastErr).outcome = .ok v →
      (retryLoop ovf s env invoke validate n attempt lastErr).service = s.countSuccess) ∧
    (isDefinitiveFailure (retryLoop ovf s env invoke validate n attempt lastErr).outcome = true →
      (retryLoop ovf s env invoke validate n attempt lastErr).service = s.countFailure) := by
  have h := retryLoop_service ovf s env invoke validate n attempt lastErr
  generalize (retryLoop ovf s env invoke validate n attempt lastErr).outcome = o at h
  generalize (retryLoop ovf s env invoke validate n attempt lastErr).service = s' at h
  constructor
  · intro v hv
    subst hv
    exact h
  · intro hd
    cases o with
    | ok v => simp [isDefinitiveFailure] at hd
    | fault => simp [isDefinitiveFailure] at hd
    | error e => cases e <;> simp_all [isDefinitiveFailure, CountedAs]

/-- C3. For a call made while the breaker is closed (counter `c` below
`circuitBreakerMax`): when the call returns a value the counter afterwards is
0; when it ends in a non-retryable transport error or in retry exhaustion the
counter afterwards is `c + 1`. Holds for `GenerateEmbedding` and for
`GenerateContent`, for every environment. -/
theorem counter_after_call (ovf : Int) (s : GeminiService)
    (hclosed : s.consecutiveErrors < s.circuitBreakerMax)
    (hc : isInt64 s.consecutiveErrors) (hm : isInt64 s.circuitBreakerMax) :
    (∀ (env : Env EmbedContentResponse) (text : GoString),
      (∀ v, (GenerateEmbedding ovf s env text).outcome = .ok v →
        (GenerateEmbedding ovf s env text).service.consecutiveErrors = 0) ∧
      (isDefinitiveFailure (GenerateEmbedding ovf s env text).outcome = true →
        (GenerateEmbedding ovf s env text).service.consecutiveErrors = s.consecutiveErrors + 1)) ∧
    (∀ (env : Env GenerateContentResponse) (model prompt : GoString),
      (∀ v, (GenerateContent ovf s env model prompt).outcome = .ok v →
        (GenerateContent ovf s env model prompt).service.consecutiveErrors = 0) ∧
      (isDefinitiveFailure (GenerateContent ovf s env model prompt).outcome = true →
        (GenerateContent ovf s env model prompt).service.consecutiveErrors =
          s.consecutiveErrors + 1)) := by
  constructor
  · intro env text
    by_cases ht : TrimSpace text = []
    · rw [GenerateEmbedding_blank ovf s env text ht]
      simp [isDefinitiveFailure]
    · rw [GenerateEmbedding_closed ovf s env text ht hclosed]
      obtain ⟨h1, h2⟩ := retryLoop_counter ovf s env (.embedContent (embeddingInput text))
        validateEmbeddingResponse (loopBound s) 0 none
      constructor
      · intro v hv; rw [h1 v hv]; rfl
      · intro hd; rw [h2 hd]; exact countFailure_counter s hclosed hc hm
  · intro env model prompt
    by_cases hmod : model = []
    · simp [GenerateContent, hmod, isDefinitiveFailure]
    · by_cases hp : TrimSpace prompt = []
      · simp [GenerateContent, hmod, hp, isDefinitiveFailure]
      · rw [GenerateContent_closed ovf s env model prompt hmod hp hclosed]
        obtain ⟨h1, h2⟩ := retryLoop_counter ovf s env (.generateContent model prompt)
          checkedResponse (loopBound s) 0 none
        constructor
        · intro v hv; rw [h1 v hv]; rfl
        · intro hd; rw [h2 hd]; exact countFailure_counter s hclosed hc hm

theorem counter_after_call_witness :
    (serviceWithCount 2).consecutiveErrors < (serviceWithCount 2).circuitBreakerMax ∧
    (GenerateEmbedding int64Min (serviceWithCount 2) recoversAtThird (goString "cv")).outcome =
      .ok [.finite (1 / 2), .finite (-3)] ∧
    (GenerateEmbedding int64Min (serviceWithCount 2) recoversAtThird
      (goString "cv")).service.consecutiveErrors = 0 ∧
    isDefinitiveFailure (GenerateContent int64Min (serviceWithCount 2) (alwaysFails _ unauthorized)
      (goString "gemini-2.5-flash") (goString "evaluate")).outcome = true ∧
    (GenerateContent int64Min (serviceWithCount 2) (alwaysFails _ unauthorized)
      (goString "gemini-2.5-flash") (goString "evaluate")).service.consecutiveErrors = 2 + 1 :=
  have h := counter_after_call int64Min (serviceWithCount 2) (by decide) (by decide) (by decide)
  ⟨by decide, by rfl,
    (h.1 recoversAtThird (goString "cv")).1 _ (by rfl), by rfl,
    (h.2 (alwaysFails _ unauthorized) (goString "gemini-2.5-flash") (goString "evaluate")).2 (by rfl)⟩

/-! ## Error classification and the retry schedule -/

theorem loopBound_pos (s : GeminiService) (h : 0 ≤ s.MaxRetries) :
    ∃ n, loopBound s = n + 1 := by
  refine ⟨s.MaxRetries.toNat, ?_⟩
  unfold loopBound
  omega

/-- The status switch of `isRetryableError`, for an error on which the
assertion `err.(*genai.APIError)` succeeds: the codes 400, 401, 403 and 404 are
not retryable, whatever the text. -/
theorem isRetryableError_clientError (e : TransportError) (code : Int) (hcode : e.apiCode = some code)
    (h4 : code = 400 ∨ code = 401 ∨ code = 403 ∨ code = 404) :
    isRetryableError (some e) = false := by
  unfold isRetryableError
  simp only [hcode, Option.some_bind]
  split
  · rfl
  · rcases h4 with rfl | rfl | rfl | rfl <;> rfl

/-- The first iteration of the loop when its transport invocation fails with an
error that is not retryable. -/
theorem retryLoop_first_fatal {ρ α : Type} (ovf : Int) (s : GeminiService) (env : Env ρ)
    (invoke : Event) (validate : Option ρ → Outcome ValidationError α) (n : Nat)
    (e : TransportError) (ht : env.transport 0 = .error e) (hr : isRetryableError (some e) = false) :
    retryLoop ovf s env invoke validate (n + 1) 0 none =
      ⟨.error (.failed e), s.countFailure, [invoke]⟩ := by
  rw [retryLoop]
  simp [ht, hr]

/-- The status switch of `isRetryableError`, for an error on which the
assertion `err.(*genai.APIError)` succeeds and whose text names no context
error: the codes 429, 500, 502, 503 and 504 are retryable. -/
theorem isRetryableError_serverError (e : TransportError) (code : Int)
    (hcode : e.apiCode = some code)
    (h5 : code = 429 ∨ code = 500 ∨ code = 502 ∨ code = 503 ∨ code = 504)
    (hcanceled : Contains e.msg (goString "context canceled") = false)
    (hdeadline : Contains e.msg (goString "context deadline exceeded") = false) :
    isRetryableError (some e) = true := by
  unfold isRetryableError
  simp only [hcode, Option.some_bind, hcanceled, hdeadline]
  rcases h5 with rfl | rfl | rfl | rfl | rfl <;> rfl

/-- An error on which the assertion `err.(*genai.APIError)` fails: the status
switch is skipped and the text of the error alone decides. -/
theorem isRetryableError_of_value (e : TransportError) (hvalue : e.apiCode = none) :
    isRetryableError (some e) =
      (!(Contains e.msg (goString "context canceled") ||
          Contains e.msg (goString "context deadline exceeded")) &&
        transientText e.msg) := by
  unfold isRetryableError
  simp only [hvalue, Option.none_bind]
  cases Contains e.msg (goString "context canceled") ||
    Contains e.msg (goString "context deadline exceeded") <;> rfl

/-- C10. Closed breaker, valid input, retry `k` between 1 and `MaxRetries`. If
the attempts before retry `k` fail with retryable errors and the call's
deadline expires during the wait before retry `k`, the call returns the
context-timeout error carrying "deadline exceeded" and has made exactly `k`
transport invocations. -/
theorem deadline_during_backoff (ovf : Int) (s : GeminiService)
    (hclosed : s.consecutiveErrors < s.circuitBreakerMax)
    (k : Nat) (hk1 : 1 ≤ k) (hk : (k : Int) ≤ s.MaxRetries) :
    (∀ (env : Env EmbedContentResponse) (text : GoString), TrimSpace text ≠ [] →
      (∀ j, j < k → env.retryableAt j = true) →
      (∀ j, 0 < j → j < k → env.ctxDone j = none) →
      env.ctxDone k = some .deadlineExceeded →
      (GenerateEmbedding ovf s env text).outcome = .error (.contextTimeout .deadlineExceeded) ∧
      transportCount (GenerateEmbedding ovf s env text).trace = k) ∧
    (∀ (env : Env GenerateContentResponse) (model prompt : GoString),
      model ≠ [] → TrimSpace prompt ≠ [] →
      (∀ j, j < k → env.retryableAt j = true) →
      (∀ j, 0 < j → j < k → env.ctxDone j = none) →
      env.ctxDone k = some .deadlineExceeded →
      (GenerateContent ovf s env model prompt).outcome = .error (.contextTimeout .deadlineExceeded) ∧
      transportCount (GenerateContent ovf s env model prompt).trace = k) := by
  have hb : k < 0 + loopBound s := by unfold loopBound; omega
  constructor
  · intro env text ht hfail hwait hdone
    rw [GenerateEmbedding_closed ovf s env text ht hclosed]
    obtain ⟨h1, -, h3⟩ := retryLoop_timeout ovf s env (.embedContent (embeddingInput text))
      validateEmbeddingResponse rfl k .deadlineExceeded hk1 hdone (loopBound s) 0 none
      (Nat.zero_le k) hb (fun j _ hj => ⟨hfail j hj, fun h0 => hwait j h0 hj⟩)
    exact ⟨h1, by simpa using h3⟩
  · intro env model prompt hm hp hfail hwait hdone
    rw [GenerateContent_closed ovf s env model prompt hm hp hclosed]
    obtain ⟨h1, -, h3⟩ := retryLoop_timeout ovf s env (.generateContent model prompt)
      checkedResponse rfl k .deadlineExceeded hk1 hdone (loopBound s) 0 none
      (Nat.zero_le k) hb (fun j _ hj => ⟨hfail j hj, fun h0 => hwait j h0 hj⟩)
    exact ⟨h1, by simpa using h3⟩

theorem deadline_during_backoff_witness :
    (GenerateEmbedding int64Min NewGeminiService expiresBeforeSecondRetry
      (goString "cv")).outcome = .error (.contextTimeout .deadlineExceeded) ∧
    transportCount (GenerateEmbedding int64Min NewGeminiService expiresBeforeSecondRetry
      (goString "cv")).trace = 2 :=
  (deadline_during_backoff int64Min NewGeminiService (by decide) 2 (by decide) (by decide)).1
    expiresBeforeSecondRetry (goString "cv") (by decide)
    (fun j hj => by interval_cases j <;> rfl)
    (fun j h0 hj => by interval_cases j; rfl) rfl

/-- Four iterations that all fail retryably, with no deadline expiry: the loop of
a service with `MaxRetries = 3` run to exhaustion. -/
theorem retryLoop_exhausted_four {ρ α : Type} (ovf : Int) (s : GeminiService) (env : Env ρ)
    (invoke : Event) (validate : Option ρ → Outcome ValidationError α)
    (hwait : ∀ k, env.ctxDone k = none) (hfail : ∀ k, k ≤ 3 → env.retryableAt k = true) :
    ∃ e, env.transport 3 = .error e ∧
      retryLoop ovf s env invoke validate 4 0 none =
        ⟨.error (.maxRetriesExceeded s.MaxRetries (some e)), s.countFailure,
          [invoke, .backoff (calculateBackoff ovf s 1), invoke,
            .backoff (calculateBackoff ovf s 2), invoke,
            .backoff (calculateBackoff ovf s 3), invoke]⟩ := by
  obtain ⟨e0, h0, r0⟩ := retryableAt_iff.mp (hfail 0 (by omega))
  obtain ⟨e1, h1, r1⟩ := retryableAt_iff.mp (hfail 1 (by omega))
  obtain ⟨e2, h2, r2⟩ := retryableAt_iff.mp (hfail 2 (by omega))
  obtain ⟨e3, h3, r3⟩ := retryableAt_iff.mp (hfail 3 (by omega))
  refine ⟨e3, h3, ?_⟩
  simp [retryLoop, hwait, h0, h1, h2, h3, r0, r1, r2, r3, CallResult.after]

/-- C5. Default configuration (`MaxRetries = 3`), closed breaker, a deadline that
never expires. If the four transport attempts all fail with retryable errors,
`GenerateEmbedding` and `GenerateContent` invoke the transport exactly four
times, wait `calculateBackoff 1`, `2`, `3` before the second, third and fourth
attempt and nothing before the first, and return "max retries (3) exceeded"
wrapping the error of the fourth attempt. If attempt `k ≤ 4` is the first to
succeed, with a response the validator accepts, after retryable failures of the
attempts before it, the call returns that value after exactly `k` transport
invocations. -/
theorem retry_schedule_default (ovf : Int) (c : Int) (hc : c < 5) :
    (∀ (env : Env EmbedContentResponse) (text : GoString), TrimSpace text ≠ [] →
      (∀ k, env.ctxDone k = none) → (∀ k, k ≤ 3 → env.retryableAt k = true) →
      ∃ e, env.transport 3 = .error e ∧
        (GenerateEmbedding ovf (serviceWithCount c) env text).outcome =
          .error (.maxRetriesExceeded 3 (some e)) ∧
        (GenerateEmbedding ovf (serviceWithCount c) env text).trace =
          [.embedContent (embeddingInput text),
            .backoff (calculateBackoff ovf (serviceWithCount c) 1),
            .embedContent (embeddingInput text),
            .backoff (calculateBackoff ovf (serviceWithCount c) 2),
            .embedContent (embeddingInput text),
            .backoff (calculateBackoff ovf (serviceWithCount c) 3),
            .embedContent (embeddingInput text)] ∧
        transportCount (GenerateEmbedding ovf (serviceWithCount c) env text).trace = 4) ∧
    (∀ (env : Env GenerateContentResponse) (model prompt : GoString),
      model ≠ [] → TrimSpace prompt ≠ [] →
      (∀ k, env.ctxDone k = none) → (∀ k, k ≤ 3 → env.retryableAt k = true) →
      ∃ e, env.transport 3 = .error e ∧
        (GenerateContent ovf (serviceWithCount c) env model prompt).outcome =
          .error (.maxRetriesExceeded 3 (some e)) ∧
        (GenerateContent ovf (serviceWithCount c) env model prompt).trace =
          [.generateContent model prompt,
            .backoff (calculateBackoff ovf (serviceWithCount c) 1),
            .generateContent model prompt,
            .backoff (calculateBackoff ovf (serviceWithCount c) 2),
            .generateContent model prompt,
            .backoff (calculateBackoff ovf (serviceWithCount c) 3),
            .generateContent model prompt] ∧
        transportCount (GenerateContent ovf (serviceWithCount c) env model prompt).trace = 4) ∧
    (∀ (env : Env EmbedContentResponse) (text : GoString) (k : Nat)
      (result : Option EmbedContentResponse) (value : List Float32),
      TrimSpace text ≠ [] → (∀ j, env.ctxDone j = none) → 1 ≤ k → k ≤ 4 →
      (∀ j, j + 1 < k → env.retryableAt j = true) →
      env.transport (k - 1) = .ok result → validateEmbeddingResponse result = .ok value →
      (GenerateEmbedding ovf (serviceWithCount c) env text).outcome = .ok value ∧
      transportCount (GenerateEmbedding ovf (serviceWithCount c) env text).trace = k) ∧
    (∀ (env : Env GenerateContentResponse) (model prompt : GoString) (k : Nat)
      (result : Option GenerateContentResponse),
      model ≠ [] → TrimSpace prompt ≠ [] → (∀ j, env.ctxDone j = none) → 1 ≤ k → k ≤ 4 →
      (∀ j, j + 1 < k → env.retryableAt j = true) →
      env.transport (k - 1) = .ok result → validateGenerateResponse result = .ok () →
      (GenerateContent ovf (serviceWithCount c) env model prompt).outcome = .ok result ∧
      transportCount (GenerateContent ovf (serviceWithCount c) env model prompt).trace = k) := by
  have hclosed : (serviceWithCount c).consecutiveErrors < (serviceWithCount c).circuitBreakerMax := hc
  have hbound : loopBound (serviceWithCount c) = 4 := rfl
  refine ⟨?_, ?_, ?_, ?_⟩
  · intro env text ht hwait hfail
    obtain ⟨e, he, hloop⟩ := retryLoop_exhausted_four ovf (serviceWithCount c) env
      (.embedContent (embeddingInput text)) validateEmbeddingResponse hwait hfail
    refine ⟨e, he, ?_⟩
    rw [GenerateEmbedding_closed ovf _ env text ht hclosed, hbound, hloop]
    exact ⟨rfl, rfl, rfl⟩
  · intro env model prompt hm hp hwait hfail
    obtain ⟨e, he, hloop⟩ := retryLoop_exhausted_four ovf (serviceWithCount c) env
      (.generateContent model prompt) checkedResponse hwait hfail
    refine ⟨e, he, ?_⟩
    rw [GenerateContent_closed ovf _ env model prompt hm hp hclosed, hbound, hloop]
    exact ⟨rfl, rfl, rfl⟩
  · intro env text k result value ht hwait hk1 hk4 hfail hok hval
    rw [GenerateEmbedding_closed ovf _ env text ht hclosed, hbound]
    obtain ⟨h1, -, h3⟩ := retryLoop_success ovf (serviceWithCount c) env
      (.embedContent (embeddingInput text)) validateEmbeddingResponse rfl (k - 1) result value
      hok hval (fun _ => hwait _) 4 0 none (Nat.zero_le _) (by omega)
      (fun j _ hj => ⟨hfail j (by omega), fun _ => hwait j⟩)
    exact ⟨h1, by omega⟩
  · intro env model prompt k result hm hp hwait hk1 hk4 hfail hok hval
    rw [GenerateContent_closed ovf _ env model prompt hm hp hclosed, hbound]
    have hval2 : checkedResponse result = .ok result := by simp [checkedResponse, hval]
    obtain ⟨h1, -, h3⟩ := retryLoop_success ovf (serviceWithCount c) env
      (.generateContent model prompt) checkedResponse rfl (k - 1) result result
      hok hval2 (fun _ => hwait _) 4 0 none (Nat.zero_le _) (by omega)
      (fun j _ hj => ⟨hfail j (by omega), fun _ => hwait j⟩)
    exact ⟨h1, by omega⟩

set_option maxRecDepth 100000 in
theorem retry_schedule_default_witness :
    (GenerateEmbedding int64Min (serviceWithCount 0) (alwaysFails _ unavailable)
        (goString "cv")).outcome = .error (.maxRetriesExceeded 3 (some unavailable)) ∧
    backoffDelays (GenerateEmbedding int64Min (serviceWithCount 0) (alwaysFails _ unavailable)
        (goString "cv")).trace = [1 * second, 2 * second, 4 * second] ∧
    transportCount (GenerateEmbedding int64Min (serviceWithCount 0) (alwaysFails _ unavailable)
        (goString "cv")).trace = 4 ∧
    transportCount (GenerateEmbedding int64Min (serviceWithCount 0) recoversAtThird
        (goString "cv")).trace = 3 :=
  have h := retry_schedule_default int64Min 0 (by decide)
  have h1 := h.1 (alwaysFails _ unavailable) (goString "cv") (by decide) (fun _ => rfl)
    (fun _ _ => by rfl)
  have h3 := h.2.2.1 recoversAtThird (goString "cv") 3 (some goodEmbedding)
    [.finite (1 / 2), .finite (-3)] (by decide) (fun _ => rfl) (by decide) (by decide)
    (fun j hj => by have hj2 : j < 2 := by omega
                    interval_cases j <;> rfl) rfl rfl
  ⟨by obtain ⟨e, he, ho, -, -⟩ := h1; cases he; exact ho,
    by obtain ⟨e, -, -, htr, -⟩ := h1; rw [htr]; decide,
    by obtain ⟨e, -, -, -, hn⟩ := h1; exact hn, h3.2⟩

/-! ## Sequences of calls -/

theorem void_outcome_definitive {α : Type} (r : CallResult α) :
    isDefinitiveFailure r.void.outcome = isDefinitiveFailure r.outcome := by
  unfold CallResult.void
  cases h : r.outcome with
  | ok v => rfl
  | fault => rfl
  | error e => cases e <;> simp [isDefinitiveFailure]

/-- A call that ends in a definitive failure found the breaker closed and
counted one failure. -/
theorem Call.run_definitive (ovf : Int) (s : GeminiService) (c : Call)
    (hd : isDefinitiveFailure (c.run ovf s).outcome = true) :
    (c.run ovf s).service = s.countFailure ∧ s.consecutiveErrors < s.circuitBreakerMax := by
  cases c with
  | resetCircuitBreaker => simp [Call.run, isDefinitiveFailure] at hd
  | generateEmbedding env text =>
    simp only [Call.run, void_outcome_definitive] at hd
    by_cases ht : TrimSpace text = []
    · rw [GenerateEmbedding_blank ovf s env text ht] at hd
      simp [isDefinitiveFailure] at hd
    · by_cases hclosed : s.consecutiveErrors < s.circuitBreakerMax
      · rw [GenerateEmbedding_closed ovf s env text ht hclosed] at hd
        refine ⟨?_, hclosed⟩
        show (GenerateEmbedding ovf s env text).service = _
        rw [GenerateEmbedding_closed ovf s env text ht hclosed]
        exact (retryLoop_counter ovf s env _ _ _ _ _).2 hd
      · rw [GenerateEmbedding_open ovf s env text ht (by omega)] at hd
        simp [isDefinitiveFailure] at hd
  | generateContent env model prompt =>
    simp only [Call.run, void_outcome_definitive] at hd
    by_cases hm : model = []
    · simp [GenerateContent, hm, isDefinitiveFailure] at hd
    · by_cases hp : TrimSpace prompt = []
      · simp [GenerateContent, hm, hp, isDefinitiveFailure] at hd
      · by_cases hclosed : s.consecutiveErrors < s.circuitBreakerMax
        · rw [GenerateContent_closed ovf s env model prompt hm hp hclosed] at hd
          refine ⟨?_, hclosed⟩
          show (GenerateContent ovf s env model prompt).service = _
          rw [GenerateContent_closed ovf s env model prompt hm hp hclosed]
          exact (retryLoop_counter ovf s env _ _ _ _ _).2 hd
        · rw [GenerateContent_open ovf s env model prompt hm hp (by omega)] at hd
          simp [isDefinitiveFailure] at hd

/-- A run in which every call ends in a definitive failure counts each of them. -/
theorem runCalls_definitive (ovf : Int) (limit : Int) (hlimit : isInt64 limit) :
    ∀ (calls : List Call) (s : GeminiService), s.circuitBreakerMax = limit →
    isInt64 s.consecutiveErrors →
    (∀ r ∈ (runCalls ovf s calls).2, isDefinitiveFailure r.outcome = true) →
    (runCalls ovf s calls).1.consecutiveErrors = s.consecutiveErrors + calls.length ∧
    (runCalls ovf s calls).1.circuitBreakerMax = limit ∧
    (runCalls ovf s calls).2.length = calls.length := by
  intro calls
  induction calls with
  | nil => intro s hs _ _; simp [runCalls, hs]
  | cons c cs ih =>
    intro s hs hc hall
    have hmem : c.run ovf s ∈ (runCalls ovf s (c :: cs)).2 := by
      simp only [runCalls]
      split <;> simp
    have hd := hall _ hmem
    obtain ⟨hsvc, hclosed⟩ := Call.run_definitive ovf s c hd
    have hnofault : (c.run ovf s).outcome ≠ .fault := by
      intro hf; rw [hf] at hd; simp [isDefinitiveFailure] at hd
    have hrun : runCalls ovf s (c :: cs) =
        ((runCalls ovf (c.run ovf s).service cs).1,
          c.run ovf s :: (runCalls ovf (c.run ovf s).service cs).2) := by
      simp only [runCalls]
    have hcount : s.countFailure.consecutiveErrors = s.consecutiveErrors + 1 :=
      countFailure_counter s hclosed hc (hs ▸ hlimit)
    have hrange : isInt64 s.countFailure.consecutiveErrors := by
      rw [hcount]; unfold isInt64 at *; omega
    rw [hrun] at hall ⊢
    rw [hsvc] at hall ⊢
    obtain ⟨h1, h2, h3⟩ := ih s.countFailure (by simpa [GeminiService.countFailure] using hs) hrange
      (fun r hr => hall r (List.mem_cons_of_mem _ hr))
    refine ⟨?_, h2, by simp [h3]⟩
    simp only [h1, hcount, List.length_cons]
    push_cast
    ring

/-- C2. From a service with counter 0 and `circuitBreakerMax = 5`, five
consecutive calls that each end in a non-retryable provider error or in retry
exhaustion all run and leave the counter at 5, and a sixth call with valid
input (`GenerateEmbedding` or `GenerateContent`) fails with "circuit breaker
open" without invoking the transport. -/
theorem breaker_opens_after_five (ovf : Int) (s : GeminiService)
    (h0 : s.consecutiveErrors = 0) (h5 : s.circuitBreakerMax = 5)
    (calls : List Call) (hlen : calls.length = 5)
    (hfail : ∀ r ∈ (runCalls ovf s calls).2, isDefinitiveFailure r.outcome = true) :
    (runCalls ovf s calls).2.length = 5 ∧
    (runCalls ovf s calls).1.consecutiveErrors = 5 ∧
    (∀ (env : Env EmbedContentResponse) (text : GoString), TrimSpace text ≠ [] →
      (GenerateEmbedding ovf (runCalls ovf s calls).1 env text).outcome = .error (.circuitOpen 5) ∧
      transportCount (GenerateEmbedding ovf (runCalls ovf s calls).1 env text).trace = 0) ∧
    (∀ (env : Env GenerateContentResponse) (model prompt : GoString),
      model ≠ [] → TrimSpace prompt ≠ [] →
      (GenerateContent ovf (runCalls ovf s calls).1 env model prompt).outcome =
        .error (.circuitOpen 5) ∧
      transportCount (GenerateContent ovf (runCalls ovf s calls).1 env model prompt).trace = 0) := by
  obtain ⟨h1, h2, h3⟩ := runCalls_definitive ovf 5 (by decide) calls s h5 (by rw [h0]; decide) hfail
  have hcount : (runCalls ovf s calls).1.consecutiveErrors = 5 := by
    rw [h1, h0, hlen]; rfl
  have hopen : (runCalls ovf s calls).1.consecutiveErrors ≥ (runCalls ovf s calls).1.circuitBreakerMax := by
    rw [hcount, h2]
  refine ⟨by rw [h3, hlen], hcount, ?_, ?_⟩
  · intro env text ht
    rw [GenerateEmbedding_open ovf _ env text ht hopen, hcount]
    exact ⟨rfl, rfl⟩
  · intro env model prompt hm hp
    rw [GenerateContent_open ovf _ env model prompt hm hp hopen, hcount]
    exact ⟨rfl, rfl⟩

set_option maxRecDepth 100000 in
theorem breaker_opens_after_five_witness :
    (runCalls int64Min NewGeminiService fiveFailures).1.consecutiveErrors = 5 ∧
    (GenerateEmbedding int64Min (runCalls int64Min NewGeminiService fiveFailures).1
      recoversAtThird (goString "cv six")).outcome = .error (.circuitOpen 5) ∧
    transportCount (GenerateEmbedding int64Min (runCalls int64Min NewGeminiService fiveFailures).1
      recoversAtThird (goString "cv six")).trace = 0 :=
  have h := breaker_opens_after_five int64Min NewGeminiService rfl rfl fiveFailures rfl
    (by decide)
  ⟨h.2.1, h.2.2.1 recoversAtThird (goString "cv six") (by decide)⟩

/-- A provider call on a service whose breaker is open changes nothing and
reaches no transport. -/
theorem Call.run_open (ovf : Int) (s : GeminiService)
    (hopen : s.consecutiveErrors ≥ s.circuitBreakerMax) (c : Call) (hc : c.isProviderCall = true) :
    (c.run ovf s).service = s ∧ (c.run ovf s).trace = [] ∧ (c.run ovf s).outcome ≠ .fault := by
  cases c with
  | resetCircuitBreaker => simp [Call.isProviderCall] at hc
  | generateEmbedding env text =>
    simp only [Call.run, CallResult.void]
    by_cases ht : TrimSpace text = []
    · rw [GenerateEmbedding_blank ovf s env text ht]; simp
    · rw [GenerateEmbedding_open ovf s env text ht hopen]; simp
  | generateContent env model prompt =>
    simp only [Call.run, CallResult.void]
    by_cases hm : model = []
    · simp [GenerateContent, hm]
    · by_cases hp : TrimSpace prompt = []
      · simp [GenerateContent, hm, hp]
      · rw [GenerateContent_open ovf s env model prompt hm hp hopen]; simp

theorem runCalls_open (ovf : Int) (s : GeminiService)
    (hopen : s.consecutiveErrors ≥ s.circuitBreakerMax) :
    ∀ (calls : List Call), (∀ c ∈ calls, c.isProviderCall = true) →
    (runCalls ovf s calls).1 = s ∧ (runCalls ovf s calls).2.length = calls.length ∧
    ∀ r ∈ (runCalls ovf s calls).2, r.service = s ∧ r.trace = [] := by
  intro calls
  induction calls with
  | nil => intro _; simp [runCalls]
  | cons c cs ih =>
    intro hall
    obtain ⟨h1, h2, h3⟩ := Call.run_open ovf s hopen c (hall c (List.mem_cons_self _ _))
    obtain ⟨i1, i2, i3⟩ := ih (fun c hc => hall c (List.mem_cons_of_mem _ hc))
    have hrun : runCalls ovf s (c :: cs) =
        ((runCalls ovf s cs).1, c.run ovf s :: (runCalls ovf s cs).2) := by
      simp only [runCalls, h1]
    rw [hrun]
    refine ⟨i1, by simp [i2], ?_⟩
    intro r hr
    rcases List.mem_cons.mp hr with rfl | hr
    · exact ⟨h1, h2⟩
    · exact i3 r hr

/-- The first iteration of the loop invokes the transport. -/
theorem retryLoop_invokes {ρ α : Type} (ovf : Int) (s : GeminiService) (env : Env ρ)
    (invoke : Event) (validate : Option ρ → Outcome ValidationError α) (n : Nat)
    (hinv : invoke.isTransport = true) :
    1 ≤ transportCount (retryLoop ovf s env invoke validate (n + 1) 0 none).trace := by
  rw [retryLoop]
  simp only [gt_iff_lt, lt_self_iff_false, ↓reduceIte, List.nil_append]
  cases ht : env.transport 0 with
  | ok result => cases hv : validate result <;> simp [transportCount, hinv, hv]
  | error err =>
    cases hr : isRetryableError (some err) <;>
      simp [transportCount, hinv, hr, CallResult.after, List.countP_cons]

/-- C4. Once the counter has reached `circuitBreakerMax` the breaker stays
open until reset: in every sequence of `GenerateEmbedding` and
`GenerateContent` calls every call runs, none invokes the transport, the
counter never changes and `GetCircuitBreakerStatus` keeps reporting open.
After `ResetCircuitBreaker` the counter is 0, the status is `(0, false)`, and
the next valid call invokes the transport. The configuration is one with a
positive threshold and a non-negative retry budget, as `NewGeminiService`
builds it. -/
theorem breaker_stays_open_until_reset (ovf : Int) (s : GeminiService)
    (hopen : s.consecutiveErrors ≥ s.circuitBreakerMax)
    (hmax : 0 < s.circuitBreakerMax) (hretries : 0 ≤ s.MaxRetries) :
    (∀ (calls : List Call), (∀ c ∈ calls, c.isProviderCall = true) →
      (runCalls ovf s calls).2.length = calls.length ∧
      (runCalls ovf s calls).1.consecutiveErrors = s.consecutiveErrors ∧
      (GetCircuitBreakerStatus (runCalls ovf s calls).1).2 = true ∧
      ∀ r ∈ (runCalls ovf s calls).2, transportCount r.trace = 0 ∧
        r.service.consecutiveErrors = s.consecutiveErrors ∧
        (GetCircuitBreakerStatus r.service).2 = true) ∧
    (ResetCircuitBreaker s).consecutiveErrors = 0 ∧
    GetCircuitBreakerStatus (ResetCircuitBreaker s) = (0, false) ∧
    (∀ (env : Env EmbedContentResponse) (text : GoString), TrimSpace text ≠ [] →
      1 ≤ transportCount (GenerateEmbedding ovf (ResetCircuitBreaker s) env text).trace) ∧
    (∀ (env : Env GenerateContentResponse) (model prompt : GoString),
      model ≠ [] → TrimSpace prompt ≠ [] →
      1 ≤ transportCount (GenerateContent ovf (ResetCircuitBreaker s) env model prompt).trace) := by
  have hstatus : (GetCircuitBreakerStatus s).2 = true := by
    simp [GetCircuitBreakerStatus, hopen]
  have hclosed : (ResetCircuitBreaker s).consecutiveErrors <
      (ResetCircuitBreaker s).circuitBreakerMax := hmax
  obtain ⟨n, hn⟩ := loopBound_pos (ResetCircuitBreaker s) hretries
  refine ⟨?_, rfl, ?_, ?_, ?_⟩
  · intro calls hcalls
    obtain ⟨h1, h2, h3⟩ := runCalls_open ovf s hopen calls hcalls
    refine ⟨h2, by rw [h1], by rw [h1]; exact hstatus, ?_⟩
    intro r hr
    obtain ⟨hs, ht⟩ := h3 r hr
    rw [hs, ht]
    exact ⟨rfl, rfl, hstatus⟩
  · have : ¬ (0 : Int) ≥ s.circuitBreakerMax := by omega
    simp [GetCircuitBreakerStatus, ResetCircuitBreaker, this]
  · intro env text ht
    rw [GenerateEmbedding_closed ovf _ env text ht hclosed, hn]
    exact retryLoop_invokes ovf _ env _ _ n rfl
  · intro env model prompt hm hp
    rw [GenerateContent_closed ovf _ env model prompt hm hp hclosed, hn]
    exact retryLoop_invokes ovf _ env _ _ n rfl

set_option maxRecDepth 100000 in
theorem breaker_stays_open_until_reset_witness :
    (serviceWithCount 5).consecutiveErrors ≥ (serviceWithCount 5).circuitBreakerMax ∧
    (runCalls int64Min (serviceWithCount 5) threeCalls).2.length = 3 ∧
    (runCalls int64Min (serviceWithCount 5) threeCalls).1.consecutiveErrors = 5 ∧
    GetCircuitBreakerStatus (ResetCircuitBreaker (serviceWithCount 5)) = (0, false) ∧
    1 ≤ transportCount (GenerateEmbedding int64Min (ResetCircuitBreaker (serviceWithCount 5))
      recoversAtThird (goString "cv")).trace :=
  have h := breaker_stays_open_until_reset int64Min (serviceWithCount 5) (by decide) (by decide)
    (by decide)
  have h1 := h.1 threeCalls (by decide)
  ⟨by decide, h1.1, h1.2.1, h.2.2.1, h.2.2.2.1 recoversAtThird (goString "cv") (by decide)⟩

/-! ## The backoff delay -/

/-- Attempt `a ≥ 1` of `calculateBackoff`, as long as neither `2 ^ (a - 1)` nor
its product with `BaseDelay` leaves `int64`: the result is the capped delay. -/
theorem calculateBackoff_capped (ovf : Int) (s : GeminiService) (a : Int) (h1 : 1 ≤ a) (h63 : a ≤ 63)
    (hfit : isInt64 (s.BaseDelay * 2 ^ (a - 1).toNat)) (hmax : isInt64 s.MaxDelay) :
    calculateBackoff ovf s a = min s.MaxDelay (s.BaseDelay * 2 ^ (a - 1).toNat) := by
  obtain ⟨n, rfl⟩ : ∃ n : Nat, a = (n : Int) + 1 := ⟨(a - 1).toNat, by omega⟩
  have hn : ((n : Int) + 1 - 1).toNat = n := by simp
  rw [hn] at hfit ⊢
  exact calculateBackoff_eq ovf s n (by omega) hfit hmax

set_option maxRecDepth 100000 in
theorem calculateBackoff_default_first : calculateBackoff int64Min NewGeminiService 1 = 1000000000 := by
  decide

set_option maxRecDepth 100000 in
theorem calculateBackoff_default_overflow :
    calculateBackoff int64Min NewGeminiService 35 = -1266874889709551616 := by
  decide

set_option maxRecDepth 100000 in
theorem calculateBackoff_baseAboveMax : calculateBackoff int64Min baseAboveMax 1 = 1000000000 := by
  decide

set_option maxRecDepth 100000 in
theorem calculateBackoff_negativeBase : calculateBackoff int64Min negativeBase 1 = -1000000000 := by
  decide

/-- C8, counterexample. Default configuration. At attempt 1 the delay is one
second, above the claimed upper bound `BaseDelay * 2 ^ (1 - 2) * 1.125` capped
at `MaxDelay`. At attempt 35 the product `BaseDelay * 2 ^ 34` wraps around in
`int64`, the delay is negative and below the claimed lower bound. -/
theorem backoff_bounds_counterexample :
    (calculateBackoff int64Min NewGeminiService 1 = 1000000000 ∧
      ¬ ((calculateBackoff int64Min NewGeminiService 1 : ℚ) ≤
        min (NewGeminiService.MaxDelay : ℚ)
          ((NewGeminiService.BaseDelay : ℚ) * 2 ^ ((1 : ℤ) - 2) * 1.125))) ∧
    (calculateBackoff int64Min NewGeminiService 35 = -1266874889709551616 ∧
      ¬ (min (NewGeminiService.MaxDelay : ℚ)
          ((NewGeminiService.BaseDelay : ℚ) * 2 ^ ((35 : ℤ) - 2) * 0.875) ≤
        (calculateBackoff int64Min NewGeminiService 35 : ℚ))) := by
  have e1 := calculateBackoff_default_first
  have e35 := calculateBackoff_default_overflow
  refine ⟨⟨e1, ?_⟩, ⟨e35, ?_⟩⟩
  · rw [e1]
    norm_num [NewGeminiService, second]
  · rw [e35]
    norm_num [NewGeminiService, second]

/-- C8, amended. Default base and maximal delay, attempts 1 to 34 (those whose
product `BaseDelay * 2 ^ (a - 1)` fits `int64`): `calculateBackoff a` lies
between `BaseDelay * 2 ^ (a - 1) * 0.875` and `BaseDelay * 2 ^ (a - 1) * 1.125`,
both bounds capped at `MaxDelay`. -/
theorem backoff_bounds_default (ovf : Int) (s : GeminiService)
    (hbase : s.BaseDelay = second) (hmax : s.MaxDelay = 90 * second)
    (a : Int) (h1 : 1 ≤ a) (h34 : a ≤ 34) :
    min (s.MaxDelay : ℚ) ((s.BaseDelay : ℚ) * 2 ^ (a - 1) * 0.875) ≤
      (calculateBackoff ovf s a : ℚ) ∧
    (calculateBackoff ovf s a : ℚ) ≤
      min (s.MaxDelay : ℚ) ((s.BaseDelay : ℚ) * 2 ^ (a - 1) * 1.125) := by
  have hpow : (2 : Int) ^ (a - 1).toNat ≤ 2 ^ 33 :=
    pow_le_pow_right₀ (by norm_num) (by omega)
  have hpos : (0 : Int) < 2 ^ (a - 1).toNat := by positivity
  have hfit : isInt64 (s.BaseDelay * 2 ^ (a - 1).toNat) := by
    rw [hbase]; unfold isInt64 second
    constructor <;> nlinarith
  have hM : isInt64 s.MaxDelay := by rw [hmax]; decide
  rw [calculateBackoff_capped ovf s a h1 (by omega) hfit hM]
  have hz : (2 : ℚ) ^ (a - 1) = ((2 : Int) ^ (a - 1).toNat : Int) := by
    have : a - 1 = ((a - 1).toNat : Int) := by omega
    rw [this]
    simp
  rw [hz, Int.cast_min]
  have hx : (0 : ℚ) ≤ (s.BaseDelay : ℚ) * ((2 : Int) ^ (a - 1).toNat : Int) := by
    rw [hbase]; unfold second; positivity
  push_cast at hx ⊢
  constructor
  · exact min_le_min le_rfl (by linarith)
  · exact min_le_min le_rfl (by linarith)

theorem backoff_bounds_default_witness :
    min (NewGeminiService.MaxDelay : ℚ) ((NewGeminiService.BaseDelay : ℚ) * 2 ^ ((3 : ℤ) - 1) * 0.875) ≤
      (calculateBackoff int64Min NewGeminiService 3 : ℚ) ∧
    (calculateBackoff int64Min NewGeminiService 3 : ℚ) ≤
      min (NewGeminiService.MaxDelay : ℚ) ((NewGeminiService.BaseDelay : ℚ) * 2 ^ ((3 : ℤ) - 1) * 1.125) :=
  backoff_bounds_default int64Min NewGeminiService rfl rfl 3 (by decide) (by decide)

/-- C9, counterexample. Default configuration, attempt 35: the product wraps
around, the delay is negative, so it is neither within 12.5% of
`d = min MaxDelay (BaseDelay * 2 ^ 34) = 90s` nor at least `0.875 * BaseDelay`.
With a base delay above the maximal delay the result at attempt 1 is below
`0.875 * BaseDelay`; with a negative base delay the interval
`[d - jitter/2, d + jitter/2]` is empty. -/
theorem backoff_within_jitter_counterexample :
    (calculateBackoff int64Min NewGeminiService 35 = -1266874889709551616 ∧
      min NewGeminiService.MaxDelay (NewGeminiService.BaseDelay * 2 ^ (35 - 1)) = 90000000000 ∧
      ¬ (((90000000000 : Int) : ℚ) - 0.25 * ((90000000000 : Int) : ℚ) / 2 ≤
        (calculateBackoff int64Min NewGeminiService 35 : ℚ)) ∧
      ¬ (0.875 * (NewGeminiService.BaseDelay : ℚ) ≤
        (calculateBackoff int64Min NewGeminiService 35 : ℚ))) ∧
    (calculateBackoff int64Min baseAboveMax 1 = 1000000000 ∧
      ¬ (0.875 * (baseAboveMax.BaseDelay : ℚ) ≤ (calculateBackoff int64Min baseAboveMax 1 : ℚ))) ∧
    (calculateBackoff int64Min negativeBase 1 = -1000000000 ∧
      min negativeBase.MaxDelay (negativeBase.BaseDelay * 2 ^ (1 - 1)) = -1000000000 ∧
      ¬ (((-1000000000 : Int) : ℚ) - 0.25 * ((-1000000000 : Int) : ℚ) / 2 ≤
        (calculateBackoff int64Min negativeBase 1 : ℚ))) := by
  have e35 := calculateBackoff_default_overflow
  have eb := calculateBackoff_baseAboveMax
  have en := calculateBackoff_negativeBase
  refine ⟨⟨e35, by decide, ?_, ?_⟩, ⟨eb, ?_⟩, ⟨en, by decide, ?_⟩⟩
  · rw [e35]; norm_num
  · rw [e35]; norm_num [NewGeminiService, second]
  · rw [eb]; norm_num [baseAboveMax, second]
  · rw [en]; norm_num

/-- C9, amended. Configuration with `0 ≤ BaseDelay ≤ MaxDelay`; attempt `a`
from 1 to 63 whose product `BaseDelay * 2 ^ (a - 1)` fits `int64`. With
`d = min MaxDelay (BaseDelay * 2 ^ (a - 1))` over the integers and
`jitter = 0.25 * d`, `calculateBackoff a` lies in
`[d - jitter / 2, d + jitter / 2]`, is at most `1.125 * MaxDelay` and at least
`0.875 * BaseDelay`. -/
theorem backoff_within_jitter (ovf : Int) (s : GeminiService) (a : Int) (h1 : 1 ≤ a) (h63 : a ≤ 63)
    (hbase : 0 ≤ s.BaseDelay) (hle : s.BaseDelay ≤ s.MaxDelay) (hmax : isInt64 s.MaxDelay)
    (hfit : s.BaseDelay * 2 ^ (a - 1).toNat < 2 ^ 63) :
    ((min s.MaxDelay (s.BaseDelay * 2 ^ (a - 1).toNat) : Int) : ℚ) -
        0.25 * ((min s.MaxDelay (s.BaseDelay * 2 ^ (a - 1).toNat) : Int) : ℚ) / 2 ≤
      (calculateBackoff ovf s a : ℚ) ∧
    (calculateBackoff ovf s a : ℚ) ≤
      ((min s.MaxDelay (s.BaseDelay * 2 ^ (a - 1).toNat) : Int) : ℚ) +
        0.25 * ((min s.MaxDelay (s.BaseDelay * 2 ^ (a - 1).toNat) : Int) : ℚ) / 2 ∧
    (calculateBackoff ovf s a : ℚ) ≤ 1.125 * (s.MaxDelay : ℚ) ∧
    0.875 * (s.BaseDelay : ℚ) ≤ (calculateBackoff ovf s a : ℚ) := by
  have hpow : (1 : Int) ≤ 2 ^ (a - 1).toNat := one_le_pow₀ (by norm_num)
  have hprod : s.BaseDelay ≤ s.BaseDelay * 2 ^ (a - 1).toNat := by nlinarith
  have hfit2 : isInt64 (s.BaseDelay * 2 ^ (a - 1).toNat) := by
    unfold isInt64; constructor <;> omega
  rw [calculateBackoff_capped ovf s a h1 h63 hfit2 hmax]
  have hd1 : s.BaseDelay ≤ min s.MaxDelay (s.BaseDelay * 2 ^ (a - 1).toNat) := le_min hle hprod
  have hd2 : min s.MaxDelay (s.BaseDelay * 2 ^ (a - 1).toNat) ≤ s.MaxDelay := min_le_left _ _
  generalize min s.MaxDelay (s.BaseDelay * 2 ^ (a - 1).toNat) = d at hd1 hd2 ⊢
  have q0 : (0 : ℚ) ≤ (s.BaseDelay : ℚ) := by exact_mod_cast hbase
  have q1 : (s.BaseDelay : ℚ) ≤ (d : ℚ) := by exact_mod_cast hd1
  have q2 : (d : ℚ) ≤ (s.MaxDelay : ℚ) := by exact_mod_cast hd2
  refine ⟨?_, ?_, ?_, ?_⟩ <;> linarith

theorem backoff_within_jitter_witness :
    (calculateBackoff int64Min NewGeminiService 8 : ℚ) ≤ 1.125 * (NewGeminiService.MaxDelay : ℚ) ∧
    0.875 * (NewGeminiService.BaseDelay : ℚ) ≤ (calculateBackoff int64Min NewGeminiService 8 : ℚ) :=
  have h := backoff_within_jitter int64Min NewGeminiService 8 (by decide) (by decide) (by decide)
    (by decide) (by decide) (by decide)
  ⟨h.2.2.1, h.2.2.2⟩

/-! ## Response validation -/

theorem backoffDelays_append (xs ys : List Event) :
    backoffDelays (xs ++ ys) = backoffDelays xs ++ backoffDelays ys := by
  induction xs with
  | nil => rfl
  | cons x xs ih => cases x <;> simp [backoffDelays, ih]

theorem transportCount_append (xs ys : List Event) :
    transportCount (xs ++ ys) = transportCount xs + transportCount ys := by
  simp [transportCount, List.countP_append]

/-- The events of one loop iteration: the wait, when there is one, and the
transport invocation. -/
theorem iteration_events (ovf : Int) (s : GeminiService) (invoke : Event)
    (hinv : invoke.isTransport = true) (attempt : Nat) :
    transportCount
        ((if attempt > 0 then [Event.backoff (calculateBackoff ovf s (attempt : Int))] else []) ++
          [invoke]) = 1 ∧
    (backoffDelays
        ((if attempt > 0 then [Event.backoff (calculateBackoff ovf s (attempt : Int))] else []) ++
          [invoke])).length = (if attempt > 0 then 1 else 0) ∧
    ((if attempt > 0 then [Event.backoff (calculateBackoff ovf s (attempt : Int))] else []) ++
          [invoke]).getLast? = some invoke := by
  have hb : backoffDelays [invoke] = [] := by cases invoke <;> simp_all [backoffDelays, Event.isTransport]
  split
  · refine ⟨?_, ?_, ?_⟩
    · simp [transportCount, List.countP_cons, hinv,
        show ∀ d, Event.isTransport (.backoff d) = false from fun _ => rfl]
    · rw [backoffDelays_append, hb]; simp [backoffDelays]
    · simp
  · refine ⟨?_, ?_, ?_⟩
    · simp [transportCount, hinv]
    · simp [hb]
    · simp

/-- The loop fails retryably up to iteration `t`, whose transport invocation
returns a response the validator rejects. -/
theorem retryLoop_invalid {ρ α : Type} (ovf : Int) (s : GeminiService) (env : Env ρ)
    (invoke : Event) (validate : Option ρ → Outcome ValidationError α)
    (hinv : invoke.isTransport = true) (t : Nat) (result : Option ρ)
    (verr : ValidationError) (hok : env.transport t = .ok result)
    (hval : validate result = .error verr) (hwait : 0 < t → env.ctxDone t = none) :
    ∀ (n attempt : Nat) (lastErr : Option TransportError), attempt ≤ t → t < attempt + n →
    (∀ k, attempt ≤ k → k < t → env.retryableAt k = true ∧ (0 < k → env.ctxDone k = none)) →
    (retryLoop ovf s env invoke validate n attempt lastErr).outcome =
      .error (.invalidResponse verr) ∧
    (retryLoop ovf s env invoke validate n attempt lastErr).service = s.countSuccess ∧
    transportCount (retryLoop ovf s env invoke validate n attempt lastErr).trace + attempt = t + 1 ∧
    (backoffDelays (retryLoop ovf s env invoke validate n attempt lastErr).trace).length +
      (attempt - 1) = t ∧
    (retryLoop ovf s env invoke validate n attempt lastErr).trace.getLast? = some invoke := by
  intro n
  induction n with
  | zero => intro attempt lastErr h1 h2; omega
  | succ n ih =>
    intro attempt lastErr h1 h2 hk
    obtain ⟨e1, e2, e3⟩ := iteration_events ovf s invoke hinv attempt
    rw [retryLoop]
    by_cases hat : attempt = t
    · subst hat
      have hc : (if attempt > 0 then env.ctxDone attempt else none) = none := by
        split
        · exact hwait (by assumption)
        · rfl
      simp only [hc, hok, hval]
      refine ⟨trivial, trivial, by omega, ?_, e3⟩
      rw [e2]; split <;> omega
    · obtain ⟨hra, hca⟩ := hk attempt le_rfl (by omega)
      obtain ⟨e, hte, hre⟩ := retryableAt_iff.mp hra
      have hc : (if attempt > 0 then env.ctxDone attempt else none) = none := by
        split
        · exact hca (by assumption)
        · rfl
      obtain ⟨ho, hs, hn, hb, hl⟩ := ih (attempt + 1) (some e) (by omega) (by omega)
        (fun k hk1 hk2 => hk k (by omega) hk2)
      simp only [hc, hte, hre, CallResult.after]
      refine ⟨by simpa using ho, by simpa using hs, ?_, ?_, ?_⟩
      · simp only [Bool.not_true, Bool.false_eq_true, ↓reduceIte]
        rw [transportCount_append, e1]; omega
      · simp only [Bool.not_true, Bool.false_eq_true, ↓reduceIte]
        rw [backoffDelays_append, List.length_append, e2]
        split <;> omega
      · simp only [Bool.not_true, Bool.false_eq_true, ↓reduceIte]
        rw [List.getLast?_append, hl]; rfl

/-- C11. Closed breaker, valid input. When the attempts before attempt `t` fail
with retryable errors and the transport invocation of attempt `t` returns,
without a transport error, a response the validator rejects, the call returns
the "invalid response" error wrapping the validator's error. It has made
exactly `t + 1` transport invocations and waited only the `t` backoff delays
before them, and the transport invocation is the last thing it did: no retry
and no wait follow, whatever remains of the retry budget. Holds for
`GenerateEmbedding` and for `GenerateContent`. -/
theorem invalid_response_not_retried (ovf : Int) (s : GeminiService)
    (hclosed : s.consecutiveErrors < s.circuitBreakerMax)
    (t : Nat) (ht : (t : Int) ≤ s.MaxRetries) :
    (∀ (env : Env EmbedContentResponse) (text : GoString) (result : Option EmbedContentResponse)
      (verr : ValidationError), TrimSpace text ≠ [] →
      (∀ j, j < t → env.retryableAt j = true) →
      (∀ j, 0 < j → j ≤ t → env.ctxDone j = none) →
      env.transport t = .ok result → validateEmbeddingResponse result = .error verr →
      (GenerateEmbedding ovf s env text).outcome = .error (.invalidResponse verr) ∧
      transportCount (GenerateEmbedding ovf s env text).trace = t + 1 ∧
      (backoffDelays (GenerateEmbedding ovf s env text).trace).length = t ∧
      (GenerateEmbedding ovf s env text).trace.getLast? =
        some (.embedContent (embeddingInput text))) ∧
    (∀ (env : Env GenerateContentResponse) (model prompt : GoString)
      (result : Option GenerateContentResponse) (verr : ValidationError),
      model ≠ [] → TrimSpace prompt ≠ [] →
      (∀ j, j < t → env.retryableAt j = true) →
      (∀ j, 0 < j → j ≤ t → env.ctxDone j = none) →
      env.transport t = .ok result → validateGenerateResponse result = .error verr →
      (GenerateContent ovf s env model prompt).outcome = .error (.invalidResponse verr) ∧
      transportCount (GenerateContent ovf s env model prompt).trace = t + 1 ∧
      (backoffDelays (GenerateContent ovf s env model prompt).trace).length = t ∧
      (GenerateContent ovf s env model prompt).trace.getLast? =
        some (.generateContent model prompt)) := by
  have hb : t < 0 + loopBound s := by unfold loopBound; omega
  constructor
  · intro env text result verr htext hfail hwait hok hval
    rw [GenerateEmbedding_closed ovf s env text htext hclosed]
    obtain ⟨h1, -, h3, h4, h5⟩ := retryLoop_invalid ovf s env (.embedContent (embeddingInput text))
      validateEmbeddingResponse rfl t result verr hok hval (fun h0 => hwait t h0 le_rfl)
      (loopBound s) 0 none (Nat.zero_le t) hb
      (fun j _ hj => ⟨hfail j hj, fun h0 => hwait j h0 (by omega)⟩)
    exact ⟨h1, by simpa using h3, by simpa using h4, h5⟩
  · intro env model prompt result verr hm hp hfail hwait hok hval
    rw [GenerateContent_closed ovf s env model prompt hm hp hclosed]
    have hval2 : checkedResponse result = .error verr := by simp [checkedResponse, hval]
    obtain ⟨h1, -, h3, h4, h5⟩ := retryLoop_invalid ovf s env (.generateContent model prompt)
      checkedResponse rfl t result verr hok hval2 (fun h0 => hwait t h0 le_rfl)
      (loopBound s) 0 none (Nat.zero_le t) hb
      (fun j _ hj => ⟨hfail j hj, fun h0 => hwait j h0 (by omega)⟩)
    exact ⟨h1, by simpa using h3, by simpa using h4, h5⟩

theorem invalid_response_not_retried_witness :
    (GenerateEmbedding int64Min NewGeminiService emptyAtSecond (goString "cv")).outcome =
      .error (.invalidResponse .noEmbeddings) ∧
    transportCount (GenerateEmbedding int64Min NewGeminiService emptyAtSecond
      (goString "cv")).trace = 1 + 1 ∧
    (backoffDelays (GenerateEmbedding int64Min NewGeminiService emptyAtSecond
      (goString "cv")).trace).length = 1 :=
  have h := (invalid_response_not_retried int64Min NewGeminiService (by decide) 1 (by decide)).1
    emptyAtSecond (goString "cv") (some ⟨[]⟩) .noEmbeddings (by decide)
    (fun j hj => by interval_cases j; rfl) (fun _ _ _ => rfl) rfl rfl
  ⟨h.1, h.2.1, h.2.2.1⟩

theorem firstInvalid_eq_none (values : List Float32) : ∀ (i : Nat),
    firstInvalid i values = none ↔ ∀ x ∈ values, x.isFinite = true := by
  induction values with
  | nil => intro i; simp [firstInvalid]
  | cons x rest ih =>
    intro i
    unfold firstInvalid
    by_cases hx : (x.isNaN || x.isInf) = true
    · rw [if_pos hx]
      constructor
      · intro h; cases h
      · intro h
        have hfin := h x (List.mem_cons_self _ _)
        unfold Float32.isFinite at hfin
        rw [hx] at hfin
        cases hfin
    · rw [if_neg hx, ih (i + 1)]
      have hfin : x.isFinite = true := by
        unfold Float32.isFinite
        simpa using hx
      constructor
      · intro h y hy
        rcases List.mem_cons.mp hy with rfl | hy
        · exact hfin
        · exact h y hy
      · intro h y hy
        exact h y (List.mem_cons_of_mem _ hy)

/-- C12, counterexample. A response whose first embedding is empty and whose
second embedding is a non-empty vector of finite components contains a vector
as the claim asks for, and is rejected: only `Embeddings[0]` is examined. -/
theorem embedding_validation_counterexample :
    (∃ e ∈ secondEmbeddingGood.embeddings, ∃ v, e = some v ∧ v.values ≠ [] ∧
      ∀ x ∈ v.values, x.isFinite = true) ∧
    validateEmbeddingResponse (some secondEmbeddingGood) = .error .emptyVector := by
  refine ⟨⟨some ⟨[.finite (1 / 2), .finite (-3)]⟩, by simp [secondEmbeddingGood], _, rfl, ?_, ?_⟩, rfl⟩
  · simp
  · decide

/-- C12, amended. `validateEmbeddingResponse` accepts, returning `v`, exactly
when the response is non-nil, its first embedding is non-nil, and the vector of
that first embedding is `v`, non-empty, with every component finite. A
rejection is the error outcome, which carries no vector. -/
theorem embedding_validation_accepts (resp : Option EmbedContentResponse) (v : List Float32) :
    validateEmbeddingResponse resp = .ok v ↔
      ∃ r first rest, resp = some r ∧ r.embeddings = some first :: rest ∧ first.values = v ∧
        v ≠ [] ∧ ∀ x ∈ v, x.isFinite = true := by
  cases resp with
  | none => simp [validateEmbeddingResponse]
  | some r =>
    obtain ⟨embs⟩ := r
    cases embs with
    | nil => simp [validateEmbeddingResponse]
    | cons head rest =>
      cases head with
      | none => simp [validateEmbeddingResponse]
      | some first =>
        have hrhs : (∃ r first' rest', some (EmbedContentResponse.mk (some first :: rest)) = some r ∧
            r.embeddings = some first' :: rest' ∧ first'.values = v ∧ v ≠ [] ∧
            ∀ x ∈ v, x.isFinite = true) ↔
            (first.values = v ∧ v ≠ [] ∧ ∀ x ∈ v, x.isFinite = true) := by
          constructor
          · rintro ⟨r, first', rest', hr, hemb, hv, hne, hall⟩
            cases hr
            cases hemb
            exact ⟨hv, hne, hall⟩
          · rintro ⟨hv, hne, hall⟩
            exact ⟨_, first, rest, rfl, rfl, hv, hne, hall⟩
        rw [hrhs]
        simp only [validateEmbeddingResponse]
        by_cases hlen : first.values.length = 0
        · have hnil : first.values = [] := List.length_eq_zero.mp hlen
          rw [if_pos hlen]
          constructor
          · intro h; cases h
          · rintro ⟨hv, hne, -⟩
            exact absurd (hv ▸ hnil) hne
        · rw [if_neg hlen]
          cases hfi : firstInvalid 0 first.values with
          | some p =>
            constructor
            · intro h; cases h
            · rintro ⟨hv, -, hall⟩
              have := (firstInvalid_eq_none first.values 0).mpr (hv ▸ hall)
              rw [this] at hfi
              cases hfi
          | none =>
            have hall := (firstInvalid_eq_none first.values 0).mp hfi
            constructor
            · intro h
              cases h
              exact ⟨rfl, fun h => hlen (by rw [h]; rfl), hall⟩
            · rintro ⟨hv, -, -⟩
              rw [hv]

/-! ## Input checks and truncation -/

theorem trimLeading_of_find_none (ws : List GoString) (fuel : Nat) (s : GoString)
    (h : ws.find? (startsWith s) = none) : trimLeading ws fuel s = s := by
  cases fuel with
  | zero => rfl
  | succ n => simp [trimLeading, h]

/-- A text that neither starts nor ends with the encoding of a space is its own
trimmed text. -/
theorem TrimSpace_of_no_space (s : GoString) (hl : whiteSpace.find? (startsWith s) = none)
    (hr : (whiteSpace.map List.reverse).find? (startsWith s.reverse) = none) :
    TrimSpace s = s := by
  unfold TrimSpace trimLeft
  rw [trimLeading_of_find_none _ _ _ hl]
  unfold trimRight
  rw [trimLeading_of_find_none _ _ _ hr, List.reverse_reverse]

theorem goString_replicate (c : Char) (n : Nat) :
    goString ⟨List.replicate n c⟩ = repeatBytes (String.utf8EncodeChar c) n := by
  unfold goString
  induction n with
  | zero => rfl
  | succ n ih =>
    simp only [List.replicate_succ, List.flatMap_cons, repeatBytes] at ih ⊢
    rw [ih]

theorem repeatBytes_succ_end (block : GoString) (n : Nat) :
    repeatBytes block (n + 1) = repeatBytes block n ++ block := by
  induction n with
  | zero => simp [repeatBytes]
  | succ n ih =>
    calc repeatBytes block (n + 1 + 1) = block ++ repeatBytes block (n + 1) := rfl
      _ = block ++ (repeatBytes block n ++ block) := by rw [ih]
      _ = (block ++ repeatBytes block n) ++ block := by rw [List.append_assoc]
      _ = repeatBytes block (n + 1) ++ block := rfl

theorem length_repeatBytes (block : GoString) (n : Nat) :
    (repeatBytes block n).length = n * block.length := by
  induction n with
  | zero => simp [repeatBytes]
  | succ n ih => simp [repeatBytes, ih]; ring

theorem euroText_bytes : goString euroText = repeatBytes [0xE2, 0x82, 0xAC] 3334 := by
  unfold euroText
  rw [goString_replicate]
  rfl

theorem euroText_length : (goString euroText).length = 10002 := by
  rw [euroText_bytes, length_repeatBytes]
  rfl

theorem euroText_trimmed : TrimSpace (goString euroText) = goString euroText := by
  rw [euroText_bytes]
  apply TrimSpace_of_no_space
  · rw [show (3334 : Nat) = 3333 + 1 from rfl, repeatBytes]
    rfl
  · rw [show (3334 : Nat) = 3333 + 1 from rfl, repeatBytes_succ_end, List.reverse_append]
    rfl

/-- Every event of the loop is a completed backoff wait or the transport
invocation the loop was given. -/
theorem retryLoop_events {ρ α : Type} (ovf : Int) (s : GeminiService) (env : Env ρ)
    (invoke : Event) (validate : Option ρ → Outcome ValidationError α) :
    ∀ (n attempt : Nat) (lastErr : Option TransportError),
    ∀ ev ∈ (retryLoop ovf s env invoke validate n attempt lastErr).trace,
      ev = invoke ∨ ev.isTransport = false := by
  intro n
  induction n with
  | zero => intro attempt lastErr ev hev; simp [retryLoop] at hev
  | succ n ih =>
    intro attempt lastErr ev
    have hstep : ∀ ev ∈ (if attempt > 0 then
        [Event.backoff (calculateBackoff ovf s (attempt : Int))] else []) ++ [invoke],
        ev = invoke ∨ ev.isTransport = false := by
      intro ev hev
      split at hev
      · simp at hev
        rcases hev with rfl | rfl
        · exact Or.inr rfl
        · exact Or.inl rfl
      · simp at hev
        exact Or.inl hev
    rw [retryLoop]
    generalize (if attempt > 0 then env.ctxDone attempt else none) = c
    cases c with
    | some cause => intro hev; simp at hev
    | none =>
      simp only []
      cases ht : env.transport attempt with
      | ok result =>
        cases hv : validate result <;> simp only [hv] <;> exact hstep ev
      | error err =>
        cases hr : isRetryableError (some err)
        · simp only [hr, Bool.not_false, ↓reduceIte]
          exact hstep ev
        · simp only [hr, Bool.not_true, Bool.false_eq_true, ↓reduceIte, CallResult.after]
          intro hev
          rcases List.mem_append.mp hev with h | h
          · exact hstep ev h
          · exact ih (attempt + 1) (some err) ev h

/-- The call whose first transport invocation returns a response the validator
accepts. -/
theorem GenerateEmbedding_first_valid (ovf : Int) (s : GeminiService)
    (env : Env EmbedContentResponse) (text : GoString) (htext : TrimSpace text ≠ [])
    (hclosed : s.consecutiveErrors < s.circuitBreakerMax) (hretries : 0 ≤ s.MaxRetries)
    (result : Option EmbedContentResponse) (value : List Float32)
    (hok : env.transport 0 = .ok result) (hval : validateEmbeddingResponse result = .ok value) :
    GenerateEmbedding ovf s env text =
      ⟨.ok value, s.countSuccess, [.embedContent (embeddingInput text)]⟩ := by
  obtain ⟨n, hn⟩ := loopBound_pos s hretries
  rw [GenerateEmbedding_closed ovf s env text htext hclosed, hn, retryLoop]
  simp [hok, hval]

/-- C13, counterexample. A text of 3334 euro signs is 3334 characters long, at
most 10,000, and has no white space to trim; yet the text sent is not the
trimmed input but its first 10,000 bytes, which differ from it: the limit and
the cut are counted in bytes, and the text is 10,002 bytes long. -/
theorem embedding_truncation_counterexample :
    euroText.length ≤ 10000 ∧
    TrimSpace (goString euroText) = goString euroText ∧
    (GenerateEmbedding int64Min NewGeminiService embedsAtOnce (goString euroText)).trace =
      [.embedContent ((goString euroText).take 10000)] ∧
    (goString euroText).take 10000 ≠ goString euroText := by
  have hne : TrimSpace (goString euroText) ≠ [] := by
    rw [euroText_trimmed]
    intro h
    have := euroText_length
    rw [h] at this
    cases this
  have hchars : euroText.length ≤ 10000 := by
    show (List.replicate 3334 '€').length ≤ 10000
    rw [List.length_replicate]
    decide
  refine ⟨hchars, euroText_trimmed, ?_, ?_⟩
  · rw [GenerateEmbedding_first_valid int64Min NewGeminiService embedsAtOnce (goString euroText) hne
      (by decide) (by decide) (some goodEmbedding) _ rfl rfl]
    simp only [embeddingInput, euroText_trimmed, euroText_length]
    rfl
  · intro h
    have hlen := congrArg List.length h
    rw [List.length_take, euroText_length] at hlen
    cases hlen

/-- C13, amended. Every transport invocation of `GenerateEmbedding` carries the
trimmed input when that is at most 10,000 bytes long, and otherwise its first
10,000 bytes. A text whose trimmed form is longer is not rejected for it: with
a closed breaker and a first attempt that returns a valid response the call
succeeds, having sent those first 10,000 bytes. -/
theorem embedding_input_bytes (ovf : Int) (s : GeminiService) (env : Env EmbedContentResponse)
    (text : GoString) :
    (∀ ev ∈ (GenerateEmbedding ovf s env text).trace, ev.isTransport = true →
      ev = .embedContent
        (if (TrimSpace text).length ≤ 10000 then TrimSpace text
          else (TrimSpace text).take 10000)) ∧
    ((TrimSpace text).length > 10000 → s.consecutiveErrors < s.circuitBreakerMax →
      0 ≤ s.MaxRetries →
      ∀ (result : Option EmbedContentResponse) (value : List Float32),
      env.transport 0 = .ok result → validateEmbeddingResponse result = .ok value →
      (GenerateEmbedding ovf s env text).outcome = .ok value ∧
      (GenerateEmbedding ovf s env text).trace =
        [.embedContent ((TrimSpace text).take 10000)]) := by
  have hinput : embeddingInput text =
      (if (TrimSpace text).length ≤ 10000 then TrimSpace text
        else (TrimSpace text).take 10000) := by
    unfold embeddingInput
    by_cases h : (TrimSpace text).length > 10000
    · rw [if_pos h, if_neg (by omega)]
    · rw [if_neg h, if_pos (by omega)]
  constructor
  · intro ev hev htr
    by_cases htext : TrimSpace text = []
    · rw [GenerateEmbedding_blank ovf s env text htext] at hev
      simp at hev
    · by_cases hclosed : s.consecutiveErrors < s.circuitBreakerMax
      · rw [GenerateEmbedding_closed ovf s env text htext hclosed] at hev
        rcases retryLoop_events ovf s env _ _ _ _ _ ev hev with h | h
        · rw [h, hinput]
        · rw [h] at htr; cases htr
      · rw [GenerateEmbedding_open ovf s env text htext (by omega)] at hev
        simp at hev
  · intro hlong hclosed hretries result value hok hval
    have htext : TrimSpace text ≠ [] := by
      intro h; rw [h] at hlong; simp at hlong
    rw [GenerateEmbedding_first_valid ovf s env text htext hclosed hretries result value hok hval,
      hinput, if_neg (by omega)]
    exact ⟨rfl, rfl⟩

theorem embedding_input_bytes_witness :
    (GenerateEmbedding int64Min NewGeminiService embedsAtOnce (goString euroText)).outcome =
      .ok [.finite (1 / 2), .finite (-3)] :=
  ((embedding_input_bytes int64Min NewGeminiService embedsAtOnce (goString euroText)).2
    (by rw [euroText_trimmed, euroText_length]; decide) (by decide) (by decide)
    (some goodEmbedding) _ rfl rfl).1

/-- C14, counterexample. A model identifier of one space is empty after
trimming, yet `GenerateContent` accepts the call: it invokes the transport and
returns its response. The model is compared with the empty string untrimmed. -/
theorem blank_model_accepted_counterexample :
    TrimSpace (goString " ") = [] ∧
    (GenerateContent int64Min NewGeminiService generatesAtOnce (goString " ")
      (goString "evaluate")).outcome = .ok (some goodResponse) ∧
    transportCount (GenerateContent int64Min NewGeminiService generatesAtOnce (goString " ")
      (goString "evaluate")).trace = 1 := by
  refine ⟨by decide, by rfl, by rfl⟩

/-- C14, amended. `GenerateEmbedding` rejects every text that is empty after
trimming, and `GenerateContent` rejects every call whose model identifier is
empty or whose prompt is empty after trimming. A rejected call returns an
error, invokes no transport and leaves the counter unchanged. -/
theorem blank_input_rejected (ovf : Int) (s : GeminiService) :
    (∀ (env : Env EmbedContentResponse) (text : GoString), TrimSpace text = [] →
      (GenerateEmbedding ovf s env text).outcome = .error .emptyText ∧
      transportCount (GenerateEmbedding ovf s env text).trace = 0 ∧
      (GenerateEmbedding ovf s env text).service.consecutiveErrors = s.consecutiveErrors) ∧
    (∀ (env : Env GenerateContentResponse) (model prompt : GoString),
      model = [] ∨ TrimSpace prompt = [] →
      ((GenerateContent ovf s env model prompt).outcome = .error .emptyModel ∨
        (GenerateContent ovf s env model prompt).outcome = .error .emptyPrompt) ∧
      transportCount (GenerateContent ovf s env model prompt).trace = 0 ∧
      (GenerateContent ovf s env model prompt).service.consecutiveErrors =
        s.consecutiveErrors) := by
  constructor
  · intro env text h
    rw [GenerateEmbedding_blank ovf s env text h]
    exact ⟨rfl, rfl, rfl⟩
  · intro env model prompt h
    by_cases hm : model = []
    · simp [GenerateContent, hm, transportCount]
    · have hp : TrimSpace prompt = [] := h.resolve_left hm
      simp [GenerateContent, hm, hp, transportCount]

theorem blank_input_rejected_witness :
    (GenerateContent int64Min NewGeminiService generatesAtOnce (goString "gemini-2.5-flash")
      (goString " \n\t ")).outcome = .error .emptyPrompt ∧
    (GenerateEmbedding int64Min NewGeminiService embedsAtOnce (goString "  ")).outcome =
      .error .emptyText :=
  have h := blank_input_rejected int64Min NewGeminiService
  ⟨((h.2 generatesAtOnce (goString "gemini-2.5-flash") (goString " \n\t ")
      (Or.inr (by decide))).1).resolve_left (by decide),
    (h.1 embedsAtOnce (goString "  ") (by decide)).1⟩

/-! ## The evaluation use case: lemmas and properties -/

section usecase
variable (ovf : Int) (s : GeminiService) (embedEnv : Env EmbedContentResponse)
  (genEnv : Env GenerateContentResponse) (stores : Stores)
  (gjsonGet : GoString → GoString → GjsonResult) (task : EvaluationTask)

theorem EvaluateTask_embedding_error (e : CallError)
    (hemb : (GenerateEmbedding ovf s embedEnv task.CV).outcome = .error e) :
    EvaluateTask ovf s embedEnv genEnv stores gjsonGet task =
      ⟨.error (.gemini e), task.failed, (GenerateEmbedding ovf s embedEnv task.CV).service,
        [.generateEmbedding task.CV, .updateTask task.failed]⟩ := by
  simp only [EvaluateTask, hemb, failTask, EvaluationTask.failed, List.cons_append,
    List.nil_append]

theorem EvaluateTask_search_error (v : List Float32) (se : StoreError)
    (hemb : (GenerateEmbedding ovf s embedEnv task.CV).outcome = .ok v)
    (hsearch : stores.searchJobs v 5 = .error se) :
    EvaluateTask ovf s embedEnv genEnv stores gjsonGet task =
      ⟨.error (.store se), task.failed, (GenerateEmbedding ovf s embedEnv task.CV).service,
        [.generateEmbedding task.CV, .searchJobs v 5, .updateTask task.failed]⟩ := by
  simp only [EvaluateTask, hemb, hsearch, failTask, EvaluationTask.failed, List.cons_append,
    List.nil_append]

theorem EvaluateTask_generation_error (v : List Float32) (jobs : List Job) (e : CallError)
    (hemb : (GenerateEmbedding ovf s embedEnv task.CV).outcome = .ok v)
    (hsearch : stores.searchJobs v 5 = .ok jobs)
    (hgen : (GenerateContent ovf (GenerateEmbedding ovf s embedEnv task.CV).service genEnv
      (goString "gemini-2.5-flash") (buildPrompt jobs task)).outcome = .error e) :
    EvaluateTask ovf s embedEnv genEnv stores gjsonGet task =
      ⟨.fault, task,
        (GenerateContent ovf (GenerateEmbedding ovf s embedEnv task.CV).service genEnv
          (goString "gemini-2.5-flash") (buildPrompt jobs task)).service,
        [.generateEmbedding task.CV, .searchJobs v 5,
          .generateContent (goString "gemini-2.5-flash") (buildPrompt jobs task)]⟩ := by
  simp only [EvaluateTask, hemb, hsearch, hgen, responseText, List.cons_append, List.nil_append]

theorem EvaluateTask_success (v : List Float32) (jobs : List Job)
    (result : Option GenerateContentResponse) (text : GoString)
    (hemb : (GenerateEmbedding ovf s embedEnv task.CV).outcome = .ok v)
    (hsearch : stores.searchJobs v 5 = .ok jobs)
    (hgen : (GenerateContent ovf (GenerateEmbedding ovf s embedEnv task.CV).service genEnv
      (goString "gemini-2.5-flash") (buildPrompt jobs task)).outcome = .ok result)
    (htext : responseText result = some text) :
    EvaluateTask ovf s embedEnv genEnv stores gjsonGet task =
      ⟨(match stores.updateTask (task.completed gjsonGet text) with
          | some err => Outcome.error (UsecaseError.store err)
          | none => Outcome.ok ()),
        task.completed gjsonGet text,
        (GenerateContent ovf (GenerateEmbedding ovf s embedEnv task.CV).service genEnv
          (goString "gemini-2.5-flash") (buildPrompt jobs task)).service,
        [.generateEmbedding task.CV, .searchJobs v 5,
          .generateContent (goString "gemini-2.5-flash") (buildPrompt jobs task),
          .updateTask (task.completed gjsonGet text)]⟩ := by
  simp only [EvaluateTask, hemb, hsearch, hgen, htext, List.cons_append, List.nil_append]
  rfl

end usecase

/-- C15. If the CV embedding request returns an error, `EvaluateTask` makes
exactly two calls, the embedding request and `UpdateTask` on the task with
status "failed" and every other field as at entry, and returns that error: no
job search, no generation. If the embedding succeeds and the top-5 job search
returns an error, it makes the embedding request, the search and that same
`UpdateTask`, and returns the search error: no generation. -/
theorem early_failure_stops_task (ovf : Int) (s : GeminiService)
    (embedEnv : Env EmbedContentResponse) (genEnv : Env GenerateContentResponse)
    (stores : Stores) (gjsonGet : GoString → GoString → GjsonResult) (task : EvaluationTask) :
    (∀ e, (GenerateEmbedding ovf s embedEnv task.CV).outcome = .error e →
      (EvaluateTask ovf s embedEnv genEnv stores gjsonGet task).outcome = .error (.gemini e) ∧
      (EvaluateTask ovf s embedEnv genEnv stores gjsonGet task).steps =
        [.generateEmbedding task.CV, .updateTask { task with Status := goString "failed" }] ∧
      (EvaluateTask ovf s embedEnv genEnv stores gjsonGet task).task =
        { task with Status := goString "failed" }) ∧
    (∀ v se, (GenerateEmbedding ovf s embedEnv task.CV).outcome = .ok v →
      stores.searchJobs v 5 = .error se →
      (EvaluateTask ovf s embedEnv genEnv stores gjsonGet task).outcome = .error (.store se) ∧
      (EvaluateTask ovf s embedEnv genEnv stores gjsonGet task).steps =
        [.generateEmbedding task.CV, .searchJobs v 5,
          .updateTask { task with Status := goString "failed" }] ∧
      (EvaluateTask ovf s embedEnv genEnv stores gjsonGet task).task =
        { task with Status := goString "failed" }) := by
  constructor
  · intro e hemb
    rw [EvaluateTask_embedding_error ovf s embedEnv genEnv stores gjsonGet task e hemb]
    exact ⟨rfl, rfl, rfl⟩
  · intro v se hemb hsearch
    rw [EvaluateTask_search_error ovf s embedEnv genEnv stores gjsonGet task v se hemb hsearch]
    exact ⟨rfl, rfl, rfl⟩

theorem early_failure_stops_task_witness :
    (EvaluateTask int64Min NewGeminiService (alwaysFails _ unauthorized) generatesAtOnce
      quietStores sampleJson sampleTask).steps =
      [.generateEmbedding sampleTask.CV,
        .updateTask { sampleTask with Status := goString "failed" }] ∧
    (EvaluateTask int64Min NewGeminiService embedsAtOnce generatesAtOnce
      searchFails sampleJson sampleTask).steps =
      [.generateEmbedding sampleTask.CV, .searchJobs [.finite (1 / 2), .finite (-3)] 5,
        .updateTask { sampleTask with Status := goString "failed" }] :=
  have h1 := early_failure_stops_task int64Min NewGeminiService (alwaysFails _ unauthorized)
    generatesAtOnce quietStores sampleJson sampleTask
  have h2 := early_failure_stops_task int64Min NewGeminiService embedsAtOnce
    generatesAtOnce searchFails sampleJson sampleTask
  ⟨(h1.1 (.failed unauthorized) (by rfl)).2.1,
    (h2.2 [.finite (1 / 2), .finite (-3)] ⟨goString "connection refused"⟩ (by rfl) rfl).2.1⟩

/-- The text of parts none of which is nil: the texts of the parts that are not
thoughts, one after the other. -/
theorem collectText_map_some (parts : List Part) :
    collectText (parts.map some) =
      some ((parts.filter (fun p => !p.thought)).foldr (fun p acc => p.text ++ acc) []) := by
  induction parts with
  | nil => rfl
  | cons p ps ih =>
    simp only [List.map_cons, collectText, ih]
    cases hp : p.thought <;> simp [List.filter_cons, hp]

/-- C17, amended. When embedding, search and generation succeed and `Text()` of
the response returns a text, whatever that text is: the text is that of the
parts of the first candidate that are not thoughts, one after the other;
`EvaluateTask` leaves the task with status "completed", never "failed", and
with its six result fields set to what `Float()` or `String()` give for the
lookups of `cv_match_rate`, `cv_feedback`, `project_score`, `project_feedback`,
`overall_summary` and `breakdown` on that text; `UpdateTask` on that task is
its last call and what it returns is returned. Of a lookup that finds nothing
or `null`, the two methods give 0.0 and the empty string; of `false`, 0.0 and
"false"; of `true`, 1.0 and "true"; of a number, its value and its literal; of
a string, the number it reads as and the string; of an object or an array, 0.0
and its raw text. -/
theorem completed_fields_from_response (ovf : Int) (s : GeminiService)
    (embedEnv : Env EmbedContentResponse) (genEnv : Env GenerateContentResponse)
    (stores : Stores) (gjsonGet : GoString → GoString → GjsonResult) (task : EvaluationTask)
    (v : List Float32) (jobs : List Job) (result : Option GenerateContentResponse)
    (text : GoString)
    (hemb : (GenerateEmbedding ovf s embedEnv task.CV).outcome = .ok v)
    (hsearch : stores.searchJobs v 5 = .ok jobs)
    (hgen : (GenerateContent ovf (GenerateEmbedding ovf s embedEnv task.CV).service genEnv
      (goString "gemini-2.5-flash") (buildPrompt jobs task)).outcome = .ok result)
    (htext : responseText result = some text) :
    (∀ (parts : List Part) (rest : List (Option Candidate)),
      result = some ⟨some ⟨some ⟨parts.map some⟩⟩ :: rest⟩ →
      text = (parts.filter (fun p => !p.thought)).foldr (fun p acc => p.text ++ acc) []) ∧
    (EvaluateTask ovf s embedEnv genEnv stores gjsonGet task).task =
      { task with
        Status := goString "completed"
        CvMatchRate := (gjsonGet text (goString "cv_match_rate")).Float
        CvFeedback := (gjsonGet text (goString "cv_feedback")).String
        ProjectScore := (gjsonGet text (goString "project_score")).Float
        ProjectFeedback := (gjsonGet text (goString "project_feedback")).String
        OverallSummary := (gjsonGet text (goString "overall_summary")).String
        Breakdown := (gjsonGet text (goString "breakdown")).String } ∧
    (EvaluateTask ovf s embedEnv genEnv stores gjsonGet task).steps =
      [.generateEmbedding task.CV, .searchJobs v 5,
        .generateContent (goString "gemini-2.5-flash") (buildPrompt jobs task),
        .updateTask (EvaluateTask ovf s embedEnv genEnv stores gjsonGet task).task] ∧
    (EvaluateTask ovf s embedEnv genEnv stores gjsonGet task).outcome =
      (match stores.updateTask (EvaluateTask ovf s embedEnv genEnv stores gjsonGet task).task with
        | some err => .error (.store err)
        | none => .ok ()) ∧
    (EvaluateTask ovf s embedEnv genEnv stores gjsonGet task).task.Status ≠ goString "failed" ∧
    (∀ path,
      match gjsonGet text path with
      | .null => (gjsonGet text path).Float = .finite 0 ∧ (gjsonGet text path).String = []
      | .falseValue =>
        (gjsonGet text path).Float = .finite 0 ∧ (gjsonGet text path).String = goString "false"
      | .trueValue =>
        (gjsonGet text path).Float = .finite 1 ∧ (gjsonGet text path).String = goString "true"
      | .number num literal =>
        (gjsonGet text path).Float = num ∧ (gjsonGet text path).String = literal
      | .string str num => (gjsonGet text path).Float = num ∧ (gjsonGet text path).String = str
      | .json raw => (gjsonGet text path).Float = .finite 0 ∧ (gjsonGet text path).String = raw) := by
  rw [EvaluateTask_success ovf s embedEnv genEnv stores gjsonGet task v jobs result text hemb
    hsearch hgen htext]
  refine ⟨?_, rfl, rfl, rfl, ?_, ?_⟩
  · intro parts rest hresult
    subst hresult
    simp only [responseText, collectText_map_some, Option.some.injEq] at htext
    exact htext.symm
  · show goString "completed" ≠ goString "failed"
    decide
  · intro path
    generalize hr : gjsonGet text path = r
    cases r <;> exact ⟨rfl, rfl⟩

/-- C18, counterexample. A task already "completed" is passed to
`EvaluateTask` while the provider rejects the embedding request: the task ends
with status "failed", in memory and in the task given to `UpdateTask`. -/
theorem terminal_task_overwritten_counterexample :
    finishedTask.Status = goString "completed" ∧
    (EvaluateTask int64Min NewGeminiService (alwaysFails _ unauthorized) generatesAtOnce
      quietStores sampleJson finishedTask).task.Status = goString "failed" ∧
    (EvaluateTask int64Min NewGeminiService (alwaysFails _ unauthorized) generatesAtOnce
      quietStores sampleJson finishedTask).steps =
      [.generateEmbedding finishedTask.CV,
        .updateTask { finishedTask with Status := goString "failed" }] := by
  have h := EvaluateTask_embedding_error int64Min NewGeminiService (alwaysFails _ unauthorized)
    generatesAtOnce quietStores sampleJson finishedTask (.failed unauthorized) (by rfl)
  rw [h]
  exact ⟨rfl, rfl, rfl⟩

/-- C18, amended. `Submit` starts `EvaluateTask` only on a task whose status it
has just set to "processing". `EvaluateTask` does not read the status at entry:
with any other entry status the run returns the same, makes the same calls (so
stores the same task) and, unless it ends in a run-time fault, leaves the same
task in memory. -/
theorem evaluation_ignores_entry_status (ovf : Int) (s : GeminiService)
    (embedEnv : Env EmbedContentResponse) (genEnv : Env GenerateContentResponse)
    (stores : Stores) (gjsonGet : GoString → GoString → GjsonResult) (task : EvaluationTask) :
    (∀ req started, (Submit stores req).started = some started →
      started.Status = goString "processing") ∧
    (∀ status : GoString,
      (EvaluateTask ovf s embedEnv genEnv stores gjsonGet { task with Status := status }).outcome =
        (EvaluateTask ovf s embedEnv genEnv stores gjsonGet task).outcome ∧
      (EvaluateTask ovf s embedEnv genEnv stores gjsonGet { task with Status := status }).steps =
        (EvaluateTask ovf s embedEnv genEnv stores gjsonGet task).steps ∧
      ((EvaluateTask ovf s embedEnv genEnv stores gjsonGet task).outcome ≠ .fault →
        (EvaluateTask ovf s embedEnv genEnv stores gjsonGet { task with Status := status }).task =
          (EvaluateTask ovf s embedEnv genEnv stores gjsonGet task).task)) := by
  constructor
  · intro req started h
    unfold Submit at h
    simp only [] at h
    split at h
    · cases h
    · cases h
      rfl
  · intro status
    have hprompt : ∀ jobs, buildPrompt jobs { task with Status := status } = buildPrompt jobs task :=
      fun _ => rfl
    unfold EvaluateTask
    simp only [hprompt]
    cases (GenerateEmbedding ovf s embedEnv task.CV).outcome with
    | fault => simp
    | error e => simp [failTask]
    | ok v =>
      simp only []
      cases stores.searchJobs v 5 with
      | error se => simp [failTask]
      | ok jobs =>
        simp only []
        cases (GenerateContent ovf (GenerateEmbedding ovf s embedEnv task.CV).service genEnv
          (goString "gemini-2.5-flash") (buildPrompt jobs task)).outcome with
        | fault => simp
        | error e => simp [responseText]
        | ok result =>
          simp only []
          cases responseText result with
          | none => simp
          | some text => simp

theorem samplePrompt_not_blank : TrimSpace samplePrompt ≠ [] := by
  decide!

/-- The call whose first transport invocation returns a response the validator
accepts. -/
theorem GenerateContent_first_valid (ovf : Int) (s : GeminiService)
    (env : Env GenerateContentResponse) (model prompt : GoString) (hm : model ≠ [])
    (hp : TrimSpace prompt ≠ []) (hclosed : s.consecutiveErrors < s.circuitBreakerMax)
    (hretries : 0 ≤ s.MaxRetries) (result : Option GenerateContentResponse)
    (hok : env.transport 0 = .ok result) (hval : validateGenerateResponse result = .ok ()) :
    GenerateContent ovf s env model prompt =
      ⟨.ok result, s.countSuccess, [.generateContent model prompt]⟩ := by
  obtain ⟨n, hn⟩ := loopBound_pos s hretries
  rw [GenerateContent_closed ovf s env model prompt hm hp hclosed, hn, retryLoop]
  simp [hok, checkedResponse, hval]

/-- The call whose first transport invocation fails with an error that is not
retryable. -/
theorem GenerateContent_first_fatal (ovf : Int) (s : GeminiService)
    (env : Env GenerateContentResponse) (model prompt : GoString) (hm : model ≠ [])
    (hp : TrimSpace prompt ≠ []) (hclosed : s.consecutiveErrors < s.circuitBreakerMax)
    (hretries : 0 ≤ s.MaxRetries) (e : TransportError)
    (hfail : env.transport 0 = .error e) (hr : isRetryableError (some e) = false) :
    GenerateContent ovf s env model prompt =
      ⟨.error (.failed e), s.countFailure, [.generateContent model prompt]⟩ := by
  obtain ⟨n, hn⟩ := loopBound_pos s hretries
  rw [GenerateContent_closed ovf s env model prompt hm hp hclosed, hn,
    retryLoop_first_fatal ovf s env _ _ n e hfail hr]

/-- The service after the embedding call of the sample runs. -/
theorem sample_embedding :
    GenerateEmbedding int64Min NewGeminiService embedsAtOnce sampleTask.CV =
      ⟨.ok [.finite (1 / 2), .finite (-3)], NewGeminiService.countSuccess,
        [.embedContent (embeddingInput sampleTask.CV)]⟩ :=
  GenerateEmbedding_first_valid int64Min NewGeminiService embedsAtOnce sampleTask.CV (by decide)
    (by decide) (by decide) (some goodEmbedding) _ rfl rfl

/-- The run in which embedding, search and generation succeed and `Text()` of
the response meets a nil part. -/
theorem EvaluateTask_text_fault (ovf : Int) (s : GeminiService)
    (embedEnv : Env EmbedContentResponse) (genEnv : Env GenerateContentResponse)
    (stores : Stores) (gjsonGet : GoString → GoString → GjsonResult) (task : EvaluationTask)
    (v : List Float32) (jobs : List Job) (result : Option GenerateContentResponse)
    (hemb : (GenerateEmbedding ovf s embedEnv task.CV).outcome = .ok v)
    (hsearch : stores.searchJobs v 5 = .ok jobs)
    (hgen : (GenerateContent ovf (GenerateEmbedding ovf s embedEnv task.CV).service genEnv
      (goString "gemini-2.5-flash") (buildPrompt jobs task)).outcome = .ok result)
    (htext : responseText result = none) :
    EvaluateTask ovf s embedEnv genEnv stores gjsonGet task =
      ⟨.fault, task,
        (GenerateContent ovf (GenerateEmbedding ovf s embedEnv task.CV).service genEnv
          (goString "gemini-2.5-flash") (buildPrompt jobs task)).service,
        [.generateEmbedding task.CV, .searchJobs v 5,
          .generateContent (goString "gemini-2.5-flash") (buildPrompt jobs task)]⟩ := by
  simp only [EvaluateTask, hemb, hsearch, hgen, htext, List.cons_append, List.nil_append]

/-- The generation call of the sample runs, for a response the validator
accepts. -/
theorem sample_generation (env : Env GenerateContentResponse)
    (response : GenerateContentResponse) (hok : env.transport 0 = .ok (some response))
    (hval : validateGenerateResponse (some response) = .ok ()) :
    (GenerateContent int64Min
      (GenerateEmbedding int64Min NewGeminiService embedsAtOnce sampleTask.CV).service env
      (goString "gemini-2.5-flash") (buildPrompt
        [⟨1, goString "Frontend Engineer", goString "React, Typescript, Tailwind", []⟩]
        sampleTask)).outcome = .ok (some response) := by
  rw [sample_embedding]
  exact congrArg CallResult.outcome
    (GenerateContent_first_valid int64Min NewGeminiService.countSuccess env
      (goString "gemini-2.5-flash") samplePrompt (by decide) samplePrompt_not_blank
      (by decide) (by decide) (some response) hok hval)

/-- C17, counterexample. Embedding, search and generation succeed in both runs.
In the first the generated text is an object whose `cv_match_rate` is `true`
and whose `cv_feedback` is `false`: the task gets the match rate 1.0, not 0.0,
and the feedback "false", not the empty string. In the second the response has
one part, which is nil: the validation accepts it, `Text()` stops with a
run-time fault, the task keeps status "processing" and `UpdateTask` is not
called. -/
theorem completed_fields_counterexample :
    (EvaluateTask int64Min NewGeminiService embedsAtOnce generatesBooleans quietStores sampleJson
      sampleTask).task.CvMatchRate = .finite 1 ∧
    (EvaluateTask int64Min NewGeminiService embedsAtOnce generatesBooleans quietStores sampleJson
      sampleTask).task.CvFeedback = goString "false" ∧
    validateGenerateResponse (some nilPartResponse) = .ok () ∧
    (EvaluateTask int64Min NewGeminiService embedsAtOnce generatesNilPart quietStores sampleJson
      sampleTask).outcome = .fault ∧
    (EvaluateTask int64Min NewGeminiService embedsAtOnce generatesNilPart quietStores sampleJson
      sampleTask).task.Status = goString "processing" ∧
    (EvaluateTask int64Min NewGeminiService embedsAtOnce generatesNilPart quietStores sampleJson
      sampleTask).steps.any Step.isUpdateTask = false := by
  have hbool := EvaluateTask_success int64Min NewGeminiService embedsAtOnce generatesBooleans
    quietStores sampleJson sampleTask [.finite (1 / 2), .finite (-3)] _ (some booleanResponse)
    (goString "\x7b\"cv_match_rate\": true, \"cv_feedback\": false\x7d")
    (by rw [sample_embedding]) rfl (sample_generation generatesBooleans booleanResponse rfl rfl)
    (by rfl)
  have hnil := EvaluateTask_text_fault int64Min NewGeminiService embedsAtOnce generatesNilPart
    quietStores sampleJson sampleTask [.finite (1 / 2), .finite (-3)] _ (some nilPartResponse)
    (by rw [sample_embedding]) rfl (sample_generation generatesNilPart nilPartResponse rfl rfl)
    (by rfl)
  rw [hbool, hnil]
  exact ⟨by rfl, by rfl, rfl, rfl, rfl, rfl⟩

/-- The text of the sample response: its thought is left out. -/
theorem goodResponse_text :
    responseText (some goodResponse) = some (goString "\x7b\"cv_match_rate\": 0.82\x7d") := by
  rfl

theorem completed_fields_from_response_witness :
    (EvaluateTask int64Min NewGeminiService embedsAtOnce generatesAtOnce quietStores sampleJson
      sampleTask).task =
      { sampleTask with
        Status := goString "completed"
        CvMatchRate := .finite (41 / 50)
        CvFeedback := []
        ProjectScore := .finite 0
        ProjectFeedback := []
        OverallSummary := []
        Breakdown := [] } ∧
    (EvaluateTask int64Min NewGeminiService embedsAtOnce generatesAtOnce quietStores sampleJson
      sampleTask).outcome = .ok () :=
  have h := completed_fields_from_response int64Min NewGeminiService embedsAtOnce generatesAtOnce
    quietStores sampleJson sampleTask [.finite (1 / 2), .finite (-3)] _ (some goodResponse)
    (goString "\x7b\"cv_match_rate\": 0.82\x7d")
    (by rw [sample_embedding]) rfl (sample_generation generatesAtOnce goodResponse rfl rfl)
    goodResponse_text
  ⟨h.2.1.trans (by rfl), h.2.2.2.1⟩

/-- C16. Failing input: embedding and job search succeed, and the provider
answers the generation request with status 401, so `GenerateContent` returns an
error and a nil response. `EvaluateTask` calls `result.Text()` on that nil
response, for its log line, before it tests the error: the run ends in a
run-time fault, the task keeps status "processing" and `UpdateTask` is never
called. -/
theorem generation_error_faults :
    (GenerateContent int64Min NewGeminiService.countSuccess (alwaysFails _ unauthorized)
      (goString "gemini-2.5-flash") samplePrompt).outcome = .error (.failed unauthorized) ∧
    (EvaluateTask int64Min NewGeminiService embedsAtOnce (alwaysFails _ unauthorized) quietStores
      sampleJson sampleTask).outcome = .fault ∧
    (EvaluateTask int64Min NewGeminiService embedsAtOnce (alwaysFails _ unauthorized) quietStores
      sampleJson sampleTask).task.Status = goString "processing" ∧
    (EvaluateTask int64Min NewGeminiService embedsAtOnce (alwaysFails _ unauthorized) quietStores
      sampleJson sampleTask).steps.any Step.isUpdateTask = false := by
  have hgen : GenerateContent int64Min NewGeminiService.countSuccess (alwaysFails _ unauthorized)
      (goString "gemini-2.5-flash") samplePrompt =
      ⟨.error (.failed unauthorized), NewGeminiService.countSuccess.countFailure,
        [.generateContent (goString "gemini-2.5-flash") samplePrompt]⟩ :=
    GenerateContent_first_fatal int64Min _ (alwaysFails _ unauthorized) _ _ (by decide)
      samplePrompt_not_blank (by decide) (by decide) unauthorized rfl (by rfl)
  have hrun := EvaluateTask_generation_error int64Min NewGeminiService embedsAtOnce
    (alwaysFails _ unauthorized) quietStores sampleJson sampleTask [.finite (1 / 2), .finite (-3)]
    _ (.failed unauthorized) (by rw [sample_embedding]) rfl
    (by rw [sample_embedding]; exact congrArg CallResult.outcome hgen)
  rw [hrun, hgen]
  exact ⟨rfl, rfl, rfl, rfl⟩

/-- C19. Failing input: a task in status "processing", embedding and job search
succeed, every generation attempt fails with status 503 and the retries are
used up. `GenerateContent` returns an error, `EvaluateTask` faults on
`result.Text()` of the nil response: the task is left in status "processing",
which is not terminal, and `UpdateTask` is called zero times. -/
theorem exhausted_generation_leaves_processing :
    (GenerateContent int64Min NewGeminiService.countSuccess (alwaysFails _ unavailable)
      (goString "gemini-2.5-flash") samplePrompt).outcome =
      .error (.maxRetriesExceeded 3 (some unavailable)) ∧
    sampleTask.Status = goString "processing" ∧
    (EvaluateTask int64Min NewGeminiService embedsAtOnce (alwaysFails _ unavailable) quietStores
      sampleJson sampleTask).task.Status = goString "processing" ∧
    (EvaluateTask int64Min NewGeminiService embedsAtOnce (alwaysFails _ unavailable) quietStores
      sampleJson sampleTask).steps.countP Step.isUpdateTask = 0 := by
  obtain ⟨e, he, hloop⟩ := retryLoop_exhausted_four int64Min NewGeminiService.countSuccess
    (alwaysFails GenerateContentResponse unavailable)
    (.generateContent (goString "gemini-2.5-flash") samplePrompt) checkedResponse
    (fun _ => rfl) (fun _ _ => by rfl)
  cases he
  have hgen : (GenerateContent int64Min NewGeminiService.countSuccess (alwaysFails _ unavailable)
      (goString "gemini-2.5-flash") samplePrompt).outcome =
      .error (.maxRetriesExceeded 3 (some unavailable)) := by
    rw [GenerateContent_closed int64Min _ (alwaysFails _ unavailable) _ _ (by decide)
      samplePrompt_not_blank (by decide)]
    exact congrArg CallResult.outcome hloop
  have hrun := EvaluateTask_generation_error int64Min NewGeminiService embedsAtOnce
    (alwaysFails _ unavailable) quietStores sampleJson sampleTask [.finite (1 / 2), .finite (-3)]
    _ (.maxRetriesExceeded 3 (some unavailable)) (by rw [sample_embedding]) rfl
    (by rw [sample_embedding]; exact hgen)
  rw [hrun]
  exact ⟨hgen, rfl, rfl, rfl⟩

/-! ## Indexing the reference documents -/

theorem backendJobContent_not_blank : TrimSpace backendJobContent ≠ [] := by
  decide!

/-- The call whose first transport invocation fails with an error that is not
retryable. -/
theorem GenerateEmbedding_first_fatal (ovf : Int) (s : GeminiService)
    (env : Env EmbedContentResponse) (text : GoString) (htext : TrimSpace text ≠ [])
    (hclosed : s.consecutiveErrors < s.circuitBreakerMax) (hretries : 0 ≤ s.MaxRetries)
    (e : TransportError) (hfail : env.transport 0 = .error e)
    (hr : isRetryableError (some e) = false) :
    GenerateEmbedding ovf s env text =
      ⟨.error (.failed e), s.countFailure, [.embedContent (embeddingInput text)]⟩ := by
  obtain ⟨n, hn⟩ := loopBound_pos s hretries
  rw [GenerateEmbedding_closed ovf s env text htext hclosed, hn,
    retryLoop_first_fatal ovf s env _ _ n e hfail hr]

/-- The indexing loop at a job whose embedding request returns an error. -/
theorem indexJobs_embedding_error (ovf : Int) (stores : Stores)
    (envs : Nat → Env EmbedContentResponse) (s : GeminiService) (i : Nat) (job : Job)
    (rest : List Job) (e : CallError)
    (hemb : (GenerateEmbedding ovf s (envs i) job.Content).outcome = .error e) :
    indexJobs ovf stores envs s i (job :: rest) =
      ⟨.exited e, (GenerateEmbedding ovf s (envs i) job.Content).service,
        [.generateEmbedding job.Content]⟩ := by
  simp only [indexJobs, hemb]

/-- The indexing loop never returns an error to its caller. -/
theorem indexJobs_returns_nil (ovf : Int) (stores : Stores)
    (envs : Nat → Env EmbedContentResponse) :
    ∀ (jobs : List Job) (s : GeminiService) (i : Nat) (err : UsecaseError),
      (indexJobs ovf stores envs s i jobs).finish ≠ .returned (some err) := by
  intro jobs
  induction jobs with
  | nil => intro s i err; simp [indexJobs]
  | cons job rest ih =>
    intro s i err
    unfold indexJobs
    cases hout : (GenerateEmbedding ovf s (envs i) job.Content).outcome with
    | fault => simp [hout]
    | error e => simp [hout]
    | ok v =>
      simp only [hout]
      exact ih _ _ err

/-- C20. Failing input: the provider rejects the embedding request for the first
reference document. `GenerateEmbedding` returns an error and
`CreateJobEmbedding` ends the process through `log.Fatal`: nothing is returned
to the caller. `UpdateJob` is called for no document. -/
theorem indexing_failure_exits :
    (GenerateEmbedding int64Min NewGeminiService (rejectsAll 0) backendJobContent).outcome =
      .error (.failed unauthorized) ∧
    (CreateJobEmbedding int64Min NewGeminiService quietStores rejectsAll).finish =
      .exited (.failed unauthorized) ∧
    (CreateJobEmbedding int64Min NewGeminiService quietStores rejectsAll).steps =
      [.generateEmbedding backendJobContent] := by
  have hemb := GenerateEmbedding_first_fatal int64Min NewGeminiService (rejectsAll 0)
    backendJobContent backendJobContent_not_blank (by decide) (by decide) unauthorized rfl (by rfl)
  have hrun := indexJobs_embedding_error int64Min quietStores rejectsAll NewGeminiService 0
    ⟨0, goString "Product Engineer (Backend)", backendJobContent, []⟩
    [⟨0, goString "Frontend Engineer", goString "React, Typescript, Tailwind", []⟩,
      ⟨0, goString "UI/UX Engineer", goString "Figma, UI, UX", []⟩]
    (.failed unauthorized) (congrArg CallResult.outcome hemb)
  refine ⟨congrArg CallResult.outcome hemb, ?_, ?_⟩
  · exact congrArg IndexingRun.finish hrun
  · exact congrArg IndexingRun.steps hrun

/-! ## The range of the counter -/

/-- The loop leaves the service as it found it, or counts one success, or
counts one failure. -/
theorem retryLoop_service_cases {ρ α : Type} (ovf : Int) (s : GeminiService) (env : Env ρ)
    (invoke : Event) (validate : Option ρ → Outcome ValidationError α) (n attempt : Nat)
    (lastErr : Option TransportError) :
    (retryLoop ovf s env invoke validate n attempt lastErr).service = s ∨
    (retryLoop ovf s env invoke validate n attempt lastErr).service = s.countSuccess ∨
    (retryLoop ovf s env invoke validate n attempt lastErr).service = s.countFailure := by
  have h := retryLoop_service ovf s env invoke validate n attempt lastErr
  generalize (retryLoop ovf s env invoke validate n attempt lastErr).outcome = o at h
  generalize (retryLoop ovf s env invoke validate n attempt lastErr).service = s' at h
  cases o with
  | ok v => exact Or.inr (Or.inl h)
  | fault => exact Or.inr (Or.inl h)
  | error e => cases e <;> simp_all [CountedAs]

/-- What one call does to a service whose counter is within `0..circuitBreakerMax`. -/
theorem Call.run_counter (ovf : Int) (s : GeminiService) (c : Call)
    (hlow : 0 ≤ s.consecutiveErrors) (hhigh : s.consecutiveErrors ≤ s.circuitBreakerMax)
    (hmax : isInt64 s.circuitBreakerMax) :
    CounterStep s (c.run ovf s).service ∧
    0 ≤ (c.run ovf s).service.consecutiveErrors ∧
    (c.run ovf s).service.consecutiveErrors ≤ s.circuitBreakerMax ∧
    (c.run ovf s).service.circuitBreakerMax = s.circuitBreakerMax := by
  have hsame : CounterStep s s ∧ 0 ≤ s.consecutiveErrors ∧
      s.consecutiveErrors ≤ s.circuitBreakerMax ∧ s.circuitBreakerMax = s.circuitBreakerMax :=
    ⟨Or.inl rfl, hlow, hhigh, rfl⟩
  have hzero : CounterStep s s.countSuccess ∧ 0 ≤ s.countSuccess.consecutiveErrors ∧
      s.countSuccess.consecutiveErrors ≤ s.circuitBreakerMax ∧
      s.countSuccess.circuitBreakerMax = s.circuitBreakerMax :=
    ⟨Or.inr (Or.inr rfl), le_refl _, le_trans hlow hhigh, rfl⟩
  have hloop : ∀ {ρ α : Type} (env : Env ρ) (invoke : Event)
      (validate : Option ρ → Outcome ValidationError α),
      s.consecutiveErrors < s.circuitBreakerMax →
      CounterStep s (retryLoop ovf s env invoke validate (loopBound s) 0 none).service ∧
      0 ≤ (retryLoop ovf s env invoke validate (loopBound s) 0 none).service.consecutiveErrors ∧
      (retryLoop ovf s env invoke validate (loopBound s) 0 none).service.consecutiveErrors ≤
        s.circuitBreakerMax ∧
      (retryLoop ovf s env invoke validate (loopBound s) 0 none).service.circuitBreakerMax =
        s.circuitBreakerMax := by
    intro ρ α env invoke validate hclosed
    have hcount := countFailure_counter s hclosed (by unfold isInt64 at *; omega) hmax
    rcases retryLoop_service_cases ovf s env invoke validate (loopBound s) 0 none with h | h | h
    · rw [h]; exact hsame
    · rw [h]; exact hzero
    · rw [h]
      exact ⟨Or.inr (Or.inl hcount), by rw [hcount]; omega, by rw [hcount]; omega, rfl⟩
  cases c with
  | resetCircuitBreaker => exact hzero
  | generateEmbedding env text =>
    show CounterStep s (GenerateEmbedding ovf s env text).service ∧
      0 ≤ (GenerateEmbedding ovf s env text).service.consecutiveErrors ∧
      (GenerateEmbedding ovf s env text).service.consecutiveErrors ≤ s.circuitBreakerMax ∧
      (GenerateEmbedding ovf s env text).service.circuitBreakerMax = s.circuitBreakerMax
    by_cases ht : TrimSpace text = []
    · rw [GenerateEmbedding_blank ovf s env text ht]; exact hsame
    · by_cases hclosed : s.consecutiveErrors < s.circuitBreakerMax
      · rw [GenerateEmbedding_closed ovf s env text ht hclosed]
        exact hloop env _ _ hclosed
      · rw [GenerateEmbedding_open ovf s env text ht (by omega)]; exact hsame
  | generateContent env model prompt =>
    show CounterStep s (GenerateContent ovf s env model prompt).service ∧
      0 ≤ (GenerateContent ovf s env model prompt).service.consecutiveErrors ∧
      (GenerateContent ovf s env model prompt).service.consecutiveErrors ≤ s.circuitBreakerMax ∧
      (GenerateContent ovf s env model prompt).service.circuitBreakerMax = s.circuitBreakerMax
    by_cases hm : model = []
    · have : GenerateContent ovf s env model prompt = ⟨.error .emptyModel, s, []⟩ := by
        simp [GenerateContent, hm]
      rw [this]; exact hsame
    · by_cases hp : TrimSpace prompt = []
      · have : GenerateContent ovf s env model prompt = ⟨.error .emptyPrompt, s, []⟩ := by
          simp [GenerateContent, hm, hp]
        rw [this]; exact hsame
      · by_cases hclosed : s.consecutiveErrors < s.circuitBreakerMax
        · rw [GenerateContent_closed ovf s env model prompt hm hp hclosed]
          exact hloop env _ _ hclosed
        · rw [GenerateContent_open ovf s env model prompt hm hp (by omega)]; exact hsame

/-- The results of a run, call by call. -/
theorem runCalls_cons (ovf : Int) (s : GeminiService) (c : Call) (cs : List Call) :
    (runCalls ovf s (c :: cs)).2 = [c.run ovf s] ∨
    (runCalls ovf s (c :: cs)).2 = c.run ovf s :: (runCalls ovf (c.run ovf s).service cs).2 := by
  simp only [runCalls]
  split
  · exact Or.inl rfl
  · exact Or.inr rfl

/-- C23. In every sequence of `GenerateEmbedding`, `GenerateContent` and
`ResetCircuitBreaker` calls made one after the other on a service that starts
with counter 0 and `circuitBreakerMax = 5`: from the initial service through
the services the calls leave, each call keeps the counter, adds one to it or
resets it to 0, and after every call the counter is between 0 and 5 and
`circuitBreakerMax` is still 5. -/
theorem counter_stays_in_range (ovf : Int) (s : GeminiService)
    (h0 : s.consecutiveErrors = 0) (h5 : s.circuitBreakerMax = 5) (calls : List Call) :
    List.Chain CounterStep s ((runCalls ovf s calls).2.map (·.service)) ∧
    ∀ r ∈ (runCalls ovf s calls).2,
      0 ≤ r.service.consecutiveErrors ∧ r.service.consecutiveErrors ≤ 5 ∧
      r.service.circuitBreakerMax = 5 := by
  have key : ∀ (calls : List Call) (s : GeminiService), 0 ≤ s.consecutiveErrors →
      s.consecutiveErrors ≤ 5 → s.circuitBreakerMax = 5 →
      List.Chain CounterStep s ((runCalls ovf s calls).2.map (·.service)) ∧
      ∀ r ∈ (runCalls ovf s calls).2,
        0 ≤ r.service.consecutiveErrors ∧ r.service.consecutiveErrors ≤ 5 ∧
        r.service.circuitBreakerMax = 5 := by
    intro calls
    induction calls with
    | nil => intro s _ _ _; simp [runCalls]
    | cons c cs ih =>
      intro s hlow hhigh hmax
      obtain ⟨hstep, hl, hh, hm⟩ := Call.run_counter ovf s c hlow (by rw [hmax]; exact hhigh)
        (by rw [hmax]; decide)
      rw [hmax] at hh hm
      obtain ⟨ihc, ihr⟩ := ih (c.run ovf s).service hl hh hm
      rcases runCalls_cons ovf s c cs with h | h
      · rw [h]
        refine ⟨by simpa using hstep, ?_⟩
        intro r hr
        rw [List.mem_singleton] at hr
        rw [hr]
        exact ⟨hl, hh, hm⟩
      · rw [h]
        refine ⟨?_, ?_⟩
        · rw [List.map_cons]
          exact List.Chain.cons hstep ihc
        · intro r hr
          rcases List.mem_cons.mp hr with rfl | hr
          · exact ⟨hl, hh, hm⟩
          · exact ihr r hr
  exact key calls s (by rw [h0]) (by rw [h0]; decide) h5

theorem sevenCalls_counters :
    (runCalls int64Min NewGeminiService sevenCalls).2.map (·.service.consecutiveErrors) =
      [1, 2, 3, 4, 5, 5, 0] := by
  decide!

theorem counter_stays_in_range_witness :
    (runCalls int64Min NewGeminiService sevenCalls).2.map (·.service.consecutiveErrors) =
      [1, 2, 3, 4, 5, 5, 0] ∧
    ∀ r ∈ (runCalls int64Min NewGeminiService sevenCalls).2,
      0 ≤ r.service.consecutiveErrors ∧ r.service.consecutiveErrors ≤ 5 ∧
      r.service.circuitBreakerMax = 5 :=
  ⟨sevenCalls_counters, (counter_stays_in_range int64Min NewGeminiService rfl rfl sevenCalls).2⟩

/-! ## The backoff delay without its jitter -/

/-- With a base delay of zero the product is zero whatever the power of two is. -/
theorem calculateBackoff_zero_base (ovf : Int) (s : GeminiService) (a : Int)
    (hbase : s.BaseDelay = 0) (hmax : isInt64 s.MaxDelay) :
    calculateBackoff ovf s a = min s.MaxDelay 0 := by
  unfold calculateBackoff
  simp only [hbase, zero_mul]
  have hw : wrapInt64 0 = 0 := by decide
  rw [hw]
  have hmin : (if (0 : Int) > s.MaxDelay then s.MaxDelay else 0) = min s.MaxDelay 0 := by
    rw [min_def]; split_ifs <;> omega
  rw [hmin]
  apply jitter_cancel
  rcases min_choice s.MaxDelay 0 with h | h <;> rw [h]
  · exact hmax
  · decide

/-- An attempt whose product with a positive base delay fits `int64` is at most 63. -/
theorem attempt_le_of_fit (base : Int) (a : Int) (hpos : 0 < base)
    (hfit : base * 2 ^ (a - 1).toNat < 2 ^ 63) : a ≤ 63 := by
  by_contra hc
  have h63 : 63 ≤ (a - 1).toNat := by omega
  have hpow : (2 : Int) ^ 63 ≤ 2 ^ (a - 1).toNat := pow_le_pow_right₀ (by norm_num) h63
  have : (2 : Int) ^ (a - 1).toNat ≤ base * 2 ^ (a - 1).toNat := by
    have hp : (0 : Int) < 2 ^ (a - 1).toNat := by positivity
    nlinarith
  omega

/-- The capped delay, for every attempt the product does not overflow at. -/
theorem calculateBackoff_no_overflow (ovf : Int) (s : GeminiService) (a : Int) (h1 : 1 ≤ a)
    (hrange : a ≤ 63 ∨ 0 ≤ s.BaseDelay)
    (hfit : isInt64 (s.BaseDelay * 2 ^ (a - 1).toNat)) (hmax : isInt64 s.MaxDelay) :
    calculateBackoff ovf s a = min s.MaxDelay (s.BaseDelay * 2 ^ (a - 1).toNat) := by
  by_cases h63 : a ≤ 63
  · exact calculateBackoff_capped ovf s a h1 h63 hfit hmax
  · have hb : 0 ≤ s.BaseDelay := hrange.resolve_left h63
    rcases hb.lt_or_eq with hpos | hzero
    · exact absurd (attempt_le_of_fit s.BaseDelay a hpos hfit.2) h63
    · rw [calculateBackoff_zero_base ovf s a hzero.symm hmax, ← hzero, zero_mul]

/-- C24. With a `MaxDelay` that is a 64-bit duration, write
`d = min(MaxDelay, BaseDelay * 2^(a-1))`.
For every attempt `a ≥ 1` for which `BaseDelay * 2^(a-1)` is a 64-bit duration
(with `a ≤ 63` when `BaseDelay` is negative, so that the factor `2^(a-1)` is one
too), the term subtracted, `jitter / 2`, equals the term added, the truncation
of `float64(jitter) * 0.5`, where `jitter` is the truncation of
`float64(d) * 0.25`, and `calculateBackoff a = d`. With `BaseDelay` one second
and `MaxDelay` ninety seconds the delays of attempts 1, 2 and 3 are 1s, 2s and
4s. For a non-negative `BaseDelay` the result is non-decreasing in the attempt
over the attempts whose product is a 64-bit duration. -/
theorem backoff_has_no_net_jitter (ovf : Int) (s : GeminiService) (hmax : isInt64 s.MaxDelay) :
    (∀ a : Int, 1 ≤ a → (a ≤ 63 ∨ 0 ≤ s.BaseDelay) →
      isInt64 (s.BaseDelay * 2 ^ (a - 1).toNat) →
      Int.tdiv (Int.tdiv (float64OfInt (min s.MaxDelay (s.BaseDelay * 2 ^ (a - 1).toNat))) 4) 2 =
        Int.tdiv (float64OfInt
          (Int.tdiv (float64OfInt (min s.MaxDelay (s.BaseDelay * 2 ^ (a - 1).toNat))) 4)) 2 ∧
      calculateBackoff ovf s a = min s.MaxDelay (s.BaseDelay * 2 ^ (a - 1).toNat)) ∧
    (s.BaseDelay = second → s.MaxDelay = 90 * second →
      calculateBackoff ovf s 1 = 1 * second ∧ calculateBackoff ovf s 2 = 2 * second ∧
      calculateBackoff ovf s 3 = 4 * second) ∧
    (∀ a b : Int, 1 ≤ a → a ≤ b → 0 ≤ s.BaseDelay →
      isInt64 (s.BaseDelay * 2 ^ (b - 1).toNat) →
      calculateBackoff ovf s a ≤ calculateBackoff ovf s b) := by
  refine ⟨?_, ?_, ?_⟩
  · intro a h1 hrange hfit
    have hd : isInt64 (min s.MaxDelay (s.BaseDelay * 2 ^ (a - 1).toNat)) := by
      rcases min_choice s.MaxDelay (s.BaseDelay * 2 ^ (a - 1).toNat) with h | h <;> rw [h] <;>
        assumption
    exact ⟨by rw [float64OfInt_jitter hd], calculateBackoff_no_overflow ovf s a h1 hrange hfit hmax⟩
  · intro hb hm
    have e1 := calculateBackoff_capped ovf s 1 (by decide) (by decide)
      (by rw [hb]; decide) hmax
    have e2 := calculateBackoff_capped ovf s 2 (by decide) (by decide)
      (by rw [hb]; decide) hmax
    have e3 := calculateBackoff_capped ovf s 3 (by decide) (by decide)
      (by rw [hb]; decide) hmax
    rw [e1, e2, e3, hb, hm]
    decide
  · intro a b h1 hab hbase hfit
    have hpow : (2 : Int) ^ (a - 1).toNat ≤ 2 ^ (b - 1).toNat :=
      pow_le_pow_right₀ (by norm_num) (by omega)
    have hpos : (0 : Int) < 2 ^ (a - 1).toNat := by positivity
    have hle : s.BaseDelay * 2 ^ (a - 1).toNat ≤ s.BaseDelay * 2 ^ (b - 1).toNat :=
      mul_le_mul_of_nonneg_left hpow hbase
    have hnonneg : 0 ≤ s.BaseDelay * 2 ^ (a - 1).toNat := mul_nonneg hbase hpos.le
    have hfita : isInt64 (s.BaseDelay * 2 ^ (a - 1).toNat) := by
      unfold isInt64 at *; constructor <;> omega
    rw [calculateBackoff_no_overflow ovf s a h1 (Or.inr hbase) hfita hmax,
      calculateBackoff_no_overflow ovf s b (by omega) (Or.inr hbase) hfit hmax]
    exact min_le_min le_rfl hle

theorem backoff_has_no_net_jitter_witness :
    calculateBackoff int64Min NewGeminiService 1 = 1 * second ∧
    calculateBackoff int64Min NewGeminiService 2 = 2 * second ∧
    calculateBackoff int64Min NewGeminiService 3 = 4 * second ∧
    calculateBackoff int64Min NewGeminiService 8 = 90 * second :=
  have h := backoff_has_no_net_jitter int64Min NewGeminiService (by decide)
  have h3 := h.2.1 rfl rfl
  ⟨h3.1, h3.2.1, h3.2.2,
    ((h.1 8 (by decide) (Or.inl (by decide)) (by decide)).2).trans (by decide)⟩

/-! ## Responses that fail validation and the circuit breaker -/

/-- Discarding the value of a result keeps what `isInvalidResponse` says. -/
theorem void_outcome_invalid {α : Type} (r : CallResult α) :
    isInvalidResponse r.void.outcome = isInvalidResponse r.outcome := by
  unfold CallResult.void
  cases h : r.outcome with
  | ok v => rfl
  | fault => rfl
  | error e => cases e <;> simp [isInvalidResponse]

/-- A loop that ends with the "invalid response" error has reset the counter. -/
theorem retryLoop_invalid_service {ρ α : Type} (ovf : Int) (s : GeminiService) (env : Env ρ)
    (invoke : Event) (validate : Option ρ → Outcome ValidationError α) (n attempt : Nat)
    (lastErr : Option TransportError)
    (hinv : isInvalidResponse (retryLoop ovf s env invoke validate n attempt lastErr).outcome =
      true) :
    (retryLoop ovf s env invoke validate n attempt lastErr).service = s.countSuccess := by
  have h := retryLoop_service ovf s env invoke validate n attempt lastErr
  generalize (retryLoop ovf s env invoke validate n attempt lastErr).outcome = o at h hinv
  generalize (retryLoop ovf s env invoke validate n attempt lastErr).service = s' at h
  cases o with
  | ok v => simp [isInvalidResponse] at hinv
  | fault => simp [isInvalidResponse] at hinv
  | error e => cases e <;> simp_all [isInvalidResponse, CountedAs]

/-- A call that ends with the "invalid response" error has reset the counter. -/
theorem Call.run_invalid (ovf : Int) (s : GeminiService) (c : Call)
    (hinv : isInvalidResponse (c.run ovf s).outcome = true) :
    (c.run ovf s).service = s.countSuccess := by
  cases c with
  | resetCircuitBreaker => simp [Call.run, isInvalidResponse] at hinv
  | generateEmbedding env text =>
    simp only [Call.run, void_outcome_invalid] at hinv
    show (GenerateEmbedding ovf s env text).service = _
    by_cases ht : TrimSpace text = []
    · rw [GenerateEmbedding_blank ovf s env text ht] at hinv
      simp [isInvalidResponse] at hinv
    · by_cases hclosed : s.consecutiveErrors < s.circuitBreakerMax
      · rw [GenerateEmbedding_closed ovf s env text ht hclosed] at hinv ⊢
        exact retryLoop_invalid_service ovf s env _ _ _ _ _ hinv
      · rw [GenerateEmbedding_open ovf s env text ht (by omega)] at hinv
        simp [isInvalidResponse] at hinv
  | generateContent env model prompt =>
    simp only [Call.run, void_outcome_invalid] at hinv
    show (GenerateContent ovf s env model prompt).service = _
    by_cases hm : model = []
    · simp [GenerateContent, hm, isInvalidResponse] at hinv
    · by_cases hp : TrimSpace prompt = []
      · simp [GenerateContent, hm, hp, isInvalidResponse] at hinv
      · by_cases hclosed : s.consecutiveErrors < s.circuitBreakerMax
        · rw [GenerateContent_closed ovf s env model prompt hm hp hclosed] at hinv ⊢
          exact retryLoop_invalid_service ovf s env _ _ _ _ _ hinv
        · rw [GenerateContent_open ovf s env model prompt hm hp (by omega)] at hinv
          simp [isInvalidResponse] at hinv

/-- A run in which every call ends with the "invalid response" error. -/
theorem runCalls_invalid (ovf : Int) :
    ∀ (calls : List Call) (s : GeminiService),
    (∀ r ∈ (runCalls ovf s calls).2, isInvalidResponse r.outcome = true) →
    (runCalls ovf s calls).2.length = calls.length ∧
    ∀ r ∈ (runCalls ovf s calls).2,
      r.service.consecutiveErrors = 0 ∧ r.service.circuitBreakerMax = s.circuitBreakerMax := by
  intro calls
  induction calls with
  | nil => intro s _; simp [runCalls]
  | cons c cs ih =>
    intro s hall
    have hmem : c.run ovf s ∈ (runCalls ovf s (c :: cs)).2 := by
      rcases runCalls_cons ovf s c cs with h | h <;> rw [h] <;> simp
    have hinv := hall _ hmem
    have hsvc := Call.run_invalid ovf s c hinv
    have hnofault : (c.run ovf s).outcome ≠ .fault := by
      intro hf; rw [hf] at hinv; simp [isInvalidResponse] at hinv
    have hrun : runCalls ovf s (c :: cs) =
        ((runCalls ovf (c.run ovf s).service cs).1,
          c.run ovf s :: (runCalls ovf (c.run ovf s).service cs).2) := by
      simp only [runCalls]
    rw [hrun] at hall ⊢
    obtain ⟨h1, h2⟩ := ih (c.run ovf s).service (fun r hr => hall r (List.mem_cons_of_mem _ hr))
    refine ⟨by simp [h1], ?_⟩
    intro r hr
    rcases List.mem_cons.mp hr with rfl | hr
    · rw [hsvc]; exact ⟨rfl, rfl⟩
    · obtain ⟨h3, h4⟩ := h2 r hr
      rw [hsvc] at h4
      exact ⟨h3, h4⟩

/-- C25. On a service with a positive `circuitBreakerMax`.
With the breaker closed, whatever the counter is: when the attempts before
attempt `t` fail with retryable errors and attempt `t` returns a response
without error that the validation rejects, `GenerateEmbedding` and
`GenerateContent` return the "invalid response" error and leave the counter
at 0. And in a run of calls that all end with the "invalid response" error,
every call is made, and after each of them the counter is 0 and
`GetCircuitBreakerStatus` reports a closed breaker. -/
theorem invalid_response_keeps_breaker_closed (ovf : Int) (s : GeminiService)
    (hmax : 0 < s.circuitBreakerMax) :
    (s.consecutiveErrors < s.circuitBreakerMax →
      ∀ (t : Nat), (t : Int) ≤ s.MaxRetries →
      (∀ (env : Env EmbedContentResponse) (text : GoString)
        (result : Option EmbedContentResponse) (verr : ValidationError), TrimSpace text ≠ [] →
        (∀ j, j < t → env.retryableAt j = true) →
        (∀ j, 0 < j → j ≤ t → env.ctxDone j = none) →
        env.transport t = .ok result → validateEmbeddingResponse result = .error verr →
        (GenerateEmbedding ovf s env text).outcome = .error (.invalidResponse verr) ∧
        (GenerateEmbedding ovf s env text).service.consecutiveErrors = 0) ∧
      (∀ (env : Env GenerateContentResponse) (model prompt : GoString)
        (result : Option GenerateContentResponse) (verr : ValidationError),
        model ≠ [] → TrimSpace prompt ≠ [] →
        (∀ j, j < t → env.retryableAt j = true) →
        (∀ j, 0 < j → j ≤ t → env.ctxDone j = none) →
        env.transport t = .ok result → validateGenerateResponse result = .error verr →
        (GenerateContent ovf s env model prompt).outcome = .error (.invalidResponse verr) ∧
        (GenerateContent ovf s env model prompt).service.consecutiveErrors = 0)) ∧
    (∀ calls : List Call,
      (∀ r ∈ (runCalls ovf s calls).2, isInvalidResponse r.outcome = true) →
      (runCalls ovf s calls).2.length = calls.length ∧
      ∀ r ∈ (runCalls ovf s calls).2,
        r.service.consecutiveErrors = 0 ∧ GetCircuitBreakerStatus r.service = (0, false)) := by
  constructor
  · intro hclosed t ht
    have hb : t < 0 + loopBound s := by unfold loopBound; omega
    constructor
    · intro env text result verr htext hfail hwait hok hval
      rw [GenerateEmbedding_closed ovf s env text htext hclosed]
      obtain ⟨h1, h2, -⟩ := retryLoop_invalid ovf s env (.embedContent (embeddingInput text))
        validateEmbeddingResponse rfl t result verr hok hval (fun h0 => hwait t h0 le_rfl)
        (loopBound s) 0 none (Nat.zero_le t) hb
        (fun j _ hj => ⟨hfail j hj, fun h0 => hwait j h0 (by omega)⟩)
      exact ⟨h1, by rw [h2]; rfl⟩
    · intro env model prompt result verr hm hp hfail hwait hok hval
      rw [GenerateContent_closed ovf s env model prompt hm hp hclosed]
      have hval2 : checkedResponse result = .error verr := by simp [checkedResponse, hval]
      obtain ⟨h1, h2, -⟩ := retryLoop_invalid ovf s env (.generateContent model prompt)
        checkedResponse rfl t result verr hok hval2 (fun h0 => hwait t h0 le_rfl)
        (loopBound s) 0 none (Nat.zero_le t) hb
        (fun j _ hj => ⟨hfail j hj, fun h0 => hwait j h0 (by omega)⟩)
      exact ⟨h1, by rw [h2]; rfl⟩
  · intro calls hall
    obtain ⟨h1, h2⟩ := runCalls_invalid ovf calls s hall
    refine ⟨h1, ?_⟩
    intro r hr
    obtain ⟨h3, h4⟩ := h2 r hr
    refine ⟨h3, ?_⟩
    have : ¬ (0 : Int) ≥ s.circuitBreakerMax := by omega
    simp [GetCircuitBreakerStatus, h3, h4, this]

theorem sixInvalid_outcomes :
    ∀ r ∈ (runCalls int64Min (serviceWithCount 4) sixInvalid).2,
      isInvalidResponse r.outcome = true := by
  decide!

theorem invalid_response_keeps_breaker_closed_witness :
    (runCalls int64Min (serviceWithCount 4) sixInvalid).2.length = 6 ∧
    ∀ r ∈ (runCalls int64Min (serviceWithCount 4) sixInvalid).2,
      r.service.consecutiveErrors = 0 ∧ GetCircuitBreakerStatus r.service = (0, false) :=
  (invalid_response_keeps_breaker_closed int64Min (serviceWithCount 4) (by decide)).2 sixInvalid
    sixInvalid_outcomes

/-! ## Searching the jobs -/

/-- The rows in the order of the distance are sorted and are the rows given. -/
theorem orderByDistance_spec {D : Type} [LinearOrder D] (engine : Engine D)
    (embedding : List Float32) (rows : List Job) :
    List.Pairwise (nearer engine embedding) (orderByDistance engine embedding rows) ∧
    (orderByDistance engine embedding rows).Perm rows :=
  ⟨List.sorted_insertionSort _ rows, List.perm_insertionSort _ rows⟩

/-- C21. For every query vector `q` and every `k ≥ 0`, on an engine that reads
the table in some order of its rows: `SearchJobs` leaves the table of jobs as
it was; when the engine reports an error the call returns that error; and when
the statement is executed the call returns jobs `jobs` with at most `k`
elements, ordered by non-decreasing distance to `q`, which together with the
jobs left out (`rest`) are exactly the jobs of the table, none of the jobs left
out being nearer to `q` than a job returned; when the table has at most `k`
jobs, the jobs returned are all the jobs of the table. -/
theorem search_returns_nearest_jobs {D : Type} [LinearOrder D] (engine : Engine D)
    (table : List Job) (q : List Float32) (k : Int) (hk : 0 ≤ k)
    (hscan : (engine.scan table).Perm table) :
    (SearchJobs engine table q k).2 = table ∧
    (∀ err, engine.failure table q k = some err →
      (SearchJobs engine table q k).1 = .error err) ∧
    (engine.failure table q k = none →
      ∃ jobs rest, (SearchJobs engine table q k).1 = .ok jobs ∧
        (jobs.length : Int) ≤ k ∧
        List.Pairwise (fun a b => engine.distance a.Embedding q ≤ engine.distance b.Embedding q)
          jobs ∧
        (jobs ++ rest).Perm table ∧
        (∀ a ∈ jobs, ∀ b ∈ rest,
          engine.distance a.Embedding q ≤ engine.distance b.Embedding q) ∧
        ((table.length : Int) ≤ k → jobs.Perm table)) := by
  refine ⟨?_, ?_, ?_⟩
  · unfold SearchJobs
    cases engine.failure table q k with
    | some err => rfl
    | none => dsimp only; split <;> rfl
  · intro err herr
    simp [SearchJobs, herr]
  · intro hrun
    obtain ⟨hsorted, hperm⟩ := orderByDistance_spec engine q (engine.scan table)
    have hlen : (orderByDistance engine q (engine.scan table)).length = table.length := by
      rw [hperm.length_eq, hscan.length_eq]
    refine ⟨(orderByDistance engine q (engine.scan table)).take k.toNat,
      (orderByDistance engine q (engine.scan table)).drop k.toNat, ?_, ?_, ?_, ?_, ?_, ?_⟩
    · simp [SearchJobs, hrun, not_lt.mpr hk]
    · have := List.length_take_le k.toNat (orderByDistance engine q (engine.scan table))
      omega
    · exact hsorted.sublist (List.take_sublist _ _)
    · rw [List.take_append_drop]
      exact hperm.trans hscan
    · rw [← List.take_append_drop k.toNat (orderByDistance engine q (engine.scan table)),
        List.pairwise_append] at hsorted
      exact hsorted.2.2
    · intro hall
      rw [List.take_of_length_le (by omega)]
      exact hperm.trans hscan

/-- What the sample engine returns for the three jobs and the origin as the
query vector, with a limit of two and of five. -/
theorem sample_search :
    (SearchJobs sampleEngine threeJobs [.finite 0, .finite 0] 2).1 = .ok [originJob, nearJob] ∧
    (SearchJobs sampleEngine threeJobs [.finite 0, .finite 0] 5).1 =
      .ok [originJob, nearJob, farJob] := by
  constructor
  · norm_num [SearchJobs, sampleEngine, orderByDistance, threeJobs, List.insertionSort,
      List.orderedInsert, nearer, squaredDistance, Float32.toRat, farJob, originJob, nearJob]
    rfl
  · norm_num [SearchJobs, sampleEngine, orderByDistance, threeJobs, List.insertionSort,
      List.orderedInsert, nearer, squaredDistance, Float32.toRat, farJob, originJob, nearJob]

theorem search_returns_nearest_jobs_witness :
    ((SearchJobs sampleEngine threeJobs [.finite 0, .finite 0] 2).1 = .ok [originJob, nearJob] ∧
      (SearchJobs sampleEngine threeJobs [.finite 0, .finite 0] 5).1 =
        .ok [originJob, nearJob, farJob]) ∧
    (SearchJobs sampleEngine threeJobs [.finite 0, .finite 0] 2).2 = threeJobs ∧
    ∃ jobs rest, (SearchJobs sampleEngine threeJobs [.finite 0, .finite 0] 2).1 = .ok jobs ∧
      (jobs.length : Int) ≤ 2 ∧
      List.Pairwise (fun a b => sampleEngine.distance a.Embedding [.finite 0, .finite 0] ≤
        sampleEngine.distance b.Embedding [.finite 0, .finite 0]) jobs ∧
      (jobs ++ rest).Perm threeJobs ∧
      (∀ a ∈ jobs, ∀ b ∈ rest,
        sampleEngine.distance a.Embedding [.finite 0, .finite 0] ≤
          sampleEngine.distance b.Embedding [.finite 0, .finite 0]) ∧
      ((threeJobs.length : Int) ≤ 2 → jobs.Perm threeJobs) :=
  have h := search_returns_nearest_jobs sampleEngine threeJobs [.finite 0, .finite 0] 2
    (by decide) (List.reverse_perm threeJobs)
  ⟨sample_search, h.1, h.2.2 rfl⟩

/-! ## Provider errors as the client returns them -/

set_option maxRecDepth 100000 in
/-- The verdicts on the two provider errors of the sample runs. -/
theorem sample_verdicts :
    isRetryableError (some keyTimeout) = true ∧ isRetryableError (some plainUnavailable) = false := by
  decide

/-- C6. Failing input: the provider answers every `GenerateContent` attempt
with HTTP 401 and the message "API key validation timeout". The client returns
a `genai.APIError` value, on which the assertion `err.(*genai.APIError)` fails,
so the case `400, 401, 403, 404` of the status switch is not reached and the
text test finds "timeout": the error is classified as retryable, and with the
default configuration the call invokes the transport four times, waits 1s, 2s
and 4s, and returns "max retries (3) exceeded". -/
theorem client_error_retried_on_text (ovf : Int) :
    keyTimeout.apiCode = none ∧
    isRetryableError (some keyTimeout) = true ∧
    (GenerateContent ovf NewGeminiService (alwaysFails _ keyTimeout)
      (goString "gemini-2.5-flash") (goString "evaluate")).outcome =
      .error (.maxRetriesExceeded 3 (some keyTimeout)) ∧
    transportCount (GenerateContent ovf NewGeminiService (alwaysFails _ keyTimeout)
      (goString "gemini-2.5-flash") (goString "evaluate")).trace = 4 ∧
    backoffDelays (GenerateContent ovf NewGeminiService (alwaysFails _ keyTimeout)
      (goString "gemini-2.5-flash") (goString "evaluate")).trace =
      [1 * second, 2 * second, 4 * second] := by
  obtain ⟨e, he, hloop⟩ := retryLoop_exhausted_four ovf NewGeminiService
    (alwaysFails GenerateContentResponse keyTimeout)
    (.generateContent (goString "gemini-2.5-flash") (goString "evaluate")) checkedResponse
    (fun _ => rfl) (fun _ _ => by
      rw [retryableAt_iff]
      exact ⟨keyTimeout, rfl, sample_verdicts.1⟩)
  cases he
  have hdelays : calculateBackoff ovf NewGeminiService 1 = 1 * second ∧
      calculateBackoff ovf NewGeminiService 2 = 2 * second ∧
      calculateBackoff ovf NewGeminiService 3 = 4 * second :=
    ⟨calculateBackoff_capped ovf _ 1 (by decide) (by decide) (by decide) (by decide),
      calculateBackoff_capped ovf _ 2 (by decide) (by decide) (by decide) (by decide),
      calculateBackoff_capped ovf _ 3 (by decide) (by decide) (by decide) (by decide)⟩
  rw [GenerateContent_closed ovf _ (alwaysFails _ keyTimeout) _ _ (by decide) (by decide)
    (by decide)]
  have hbound : loopBound NewGeminiService = 4 := rfl
  rw [hbound, hloop]
  refine ⟨rfl, sample_verdicts.1, rfl, rfl, ?_⟩
  simp only [backoffDelays, hdelays.1, hdelays.2.1, hdelays.2.2]

/-- C7. Failing input: the error the client returns for an HTTP 503 answer, a
`genai.APIError` value with the message "The model is overloaded.". The
assertion `err.(*genai.APIError)` fails on it, the case `500, 502, 503, 504` of
the status switch is not reached and its text holds none of the words of the
text test: `isRetryableError` returns false, and the call that receives it makes
one transport invocation, waits for no retry and fails. -/
theorem server_error_value_not_retryable (ovf : Int) :
    plainUnavailable.apiCode = none ∧
    isRetryableError (some plainUnavailable) = false ∧
    (GenerateEmbedding ovf NewGeminiService (alwaysFails _ plainUnavailable)
      (goString "cv")).outcome = .error (.failed plainUnavailable) ∧
    transportCount (GenerateEmbedding ovf NewGeminiService (alwaysFails _ plainUnavailable)
      (goString "cv")).trace = 1 ∧
    backoffDelays (GenerateEmbedding ovf NewGeminiService (alwaysFails _ plainUnavailable)
      (goString "cv")).trace = [] := by
  obtain ⟨n, hn⟩ := loopBound_pos NewGeminiService (by decide)
  rw [GenerateEmbedding_closed ovf _ (alwaysFails _ plainUnavailable) _ (by decide) (by decide),
    hn, retryLoop_first_fatal ovf _ (alwaysFails _ plainUnavailable) _ _ n plainUnavailable rfl
      sample_verdicts.2]
  exact ⟨rfl, sample_verdicts.2, rfl, rfl, rfl⟩

end CvAnalyzer
